import Mathlib

/-!
# Dating app: entitlement and interaction ledger

A shallow embedding of the Go sources of the dating app
(`internal/errors.go`, `internal/model.go`, `internal/features.go`,
`internal/repository/repository.go`, `internal/service/*.go`,
`internal/handler/handler.go`, `internal/middleware/features.go`,
`internal/seeder/seeder.go`) and a verification of the statements its
specification makes about them.

Conventions of the embedding:

* a `uuid.UUID` is a natural number, a `time.Time` is the integer number of
  nanoseconds elapsed since Go's zero time (January 1, year 1, 00:00:00 UTC);
* a Go `error` is a value of `GoError`; `nil` is `none`;
* the relational store is an explicit state (`DB`) threaded through every call,
  together with a chronological trace of the calls made on it (`World`);
* what a call gets from its environment (the clocks, fresh identifiers,
  infrastructure failures of the store) is an explicit argument (`Env`).
-/

namespace DatingApp

/-! ## Identifiers and time -/

/-- Go's `uuid.UUID`, an uninterpreted identifier. -/
abbrev UUID := Nat

/-- Go's `time.Time`: nanoseconds since the zero time, January 1, year 1, 00:00:00 UTC. -/
abbrev Time := Int

/-- Go's `time.Duration`, in nanoseconds. -/
abbrev Duration := Int

/-- Go's `time.Hour`. -/
def Hour : Duration := 3600 * 1000000000

/-- Go's `Time.Truncate`: rounds `t` down to a multiple of `d` since the zero time;
for `d <= 0` the time is returned unchanged. -/
def Time.Truncate (t : Time) (d : Duration) : Time :=
  if d ≤ 0 then t else t - t % d

/-- Number of whole UTC days between the zero time and `t` (what Go's `absDate`
derives the calendar date from). -/
def Time.utcDay (t : Time) : Int := t / (24 * Hour)

/-- Nanoseconds elapsed since the UTC midnight before `t` (what Go's `absClock`
derives hour, minute and second from). -/
def Time.utcClock (t : Time) : Int := t % (24 * Hour)

/-! ## `internal/errors.go` -/

/-- The error variables of `internal/errors.go`; each `errors.New` value is
identified by its variable. -/
inductive Sentinel
  | ErrConflictingResponse
  | ErrDailyLimitExceeded
  | ErrEmailAlreadyExists
  | ErrInvalidCredentials
  | ErrDailyInteractionLimitExceeded
  | ErrFeatureNotFound
  | ErrFeatureAlreadySubscribed
  | ErrUserNotFound
  deriving DecidableEq, Repr

/-- Error values that come from a library and not from this repository. -/
inductive LibError
  /-- A `*pq.Error` with its SQLSTATE code. -/
  | pq (code : String)
  /-- The value `sql.ErrNoRows`. -/
  | sqlErrNoRows
  /-- Any other error value (lost connection, bcrypt failure, ...). -/
  | failure (msg : String)
  deriving DecidableEq, Repr

/-- Go `error` values that occur in the program. -/
inductive GoError
  /-- One of the variables of `internal/errors.go`. -/
  | sentinel (s : Sentinel)
  /-- An error produced by a library. -/
  | lib (e : LibError)
  /-- The value of `fmt.Errorf(msg + ": %w", inner)`. -/
  | wrap (msg : String) (inner : GoError)
  deriving DecidableEq, Repr

/-- Go's `errors.Is`: `err` or some error it wraps is the `target`. -/
def errorsIs (err target : GoError) : Bool :=
  match err with
  | .wrap msg inner => (GoError.wrap msg inner == target) || errorsIs inner target
  | e => e == target

/-- Go's `errors.As` for a `*pq.Error` target: the SQLSTATE code of the first
`*pq.Error` in the chain of `err`. -/
def errorsAsPq : GoError → Option String
  | .lib (.pq code) => some code
  | .wrap _ inner => errorsAsPq inner
  | _ => none

/-- `isPgUniqueViolation` of `repository.go`. -/
def isPgUniqueViolation (err : GoError) : Bool :=
  match errorsAsPq err with
  | some code => code == "23505"
  | none => false

/-! ## `internal/model.go` -/

structure User where
  ID : UUID
  Email : String
  PasswordHash : String
  Name : String
  Bio : String
  BirthDate : Time
  Gender : String
  CreatedAt : Time
  UpdatedAt : Time
  deriving DecidableEq, Repr

structure SubscriptionFeature where
  ID : UUID
  Name : String
  Description : String
  CreatedAt : Time
  UpdatedAt : Time
  deriving DecidableEq, Repr

structure UserFeature where
  ID : UUID
  UserID : UUID
  FeatureID : UUID
  Value : Int
  StartDate : Time
  EndDate : Option Time
  Status : String
  CreatedAt : Time
  UpdatedAt : Time
  FeatureName : String
  FeatureDescription : String
  deriving DecidableEq, Repr

structure ProfileResponse where
  ID : UUID
  FromUserID : UUID
  ToUserID : UUID
  ResponseType : String
  CreatedAt : Time
  UpdatedAt : Time
  deriving DecidableEq, Repr

/-! ## `internal/features.go` -/

/-- Keys under which a value is stored in a `context.Context`. -/
inductive CtxKey
  /-- A key of type `string`. -/
  | str (s : String)
  /-- The value `activeFeaturesKey{}`. -/
  | activeFeaturesKey
  /-- A key of any other type (the keys of `net/http`, of echo, ...). -/
  | foreign (n : Nat)
  deriving DecidableEq, Repr

/-- Values stored in a `context.Context`, with their dynamic type. -/
inductive CtxValue
  /-- A value of type `[]*UserFeature`. -/
  | features (fs : List UserFeature)
  /-- A value of any other type. -/
  | foreign (n : Nat)
  deriving DecidableEq, Repr

/-- Go's `context.Context`, as the chain of its `WithValue` bindings, innermost first.
The empty list is `context.Background()`. -/
abbrev Context := List (CtxKey × CtxValue)

/-- Go's `ctx.Value(key)`: the innermost binding of `key`. -/
def Context.Value (ctx : Context) (key : CtxKey) : Option CtxValue :=
  match ctx with
  | [] => none
  | (k, v) :: parent => if k = key then some v else Context.Value parent key

/-- Go's `context.WithValue`. -/
def Context.WithValue (ctx : Context) (key : CtxKey) (val : CtxValue) : Context :=
  (key, val) :: ctx

def FeatureDailyResponses : String := "daily_responses"

/-- `HasFeature` of `internal/features.go`. -/
def HasFeature (ctx : Context) (featureName : String) : Bool :=
  match ctx.Value (.str "active_features") with
  | some (.features features) => features.any (fun f => f.FeatureName == featureName)
  | _ => false

/-- `SetActiveFeatures` of `internal/features.go`. -/
def SetActiveFeatures (ctx : Context) (features : List UserFeature) : Context :=
  ctx.WithValue .activeFeaturesKey (.features features)

/-- `GetActiveFeatures` of `internal/features.go`. -/
def GetActiveFeatures (ctx : Context) : List UserFeature × Bool :=
  match ctx.Value .activeFeaturesKey with
  | some (.features features) => (features, true)
  | _ => ([], false)

/-! ## The store -/

/-- The tables of the relational store. -/
structure DB where
  users : List User
  subscription_features : List SubscriptionFeature
  user_features : List UserFeature
  profile_responses : List ProfileResponse
  deriving DecidableEq, Repr

/-- The constraints that the table declarations put on an insert. The declarations
(the migrations) are not part of the sources, so they are a parameter: each field
gives the SQLSTATE code with which the store rejects the new row, if it does. -/
structure Schema where
  profile_responses : DB → ProfileResponse → Option String
  users : DB → User → Option String
  user_features : DB → UserFeature → Option String

/-- Infrastructure failures of the store during one service call (lost connection,
timeout, cancelled context, ...), one per statement the call can issue. -/
structure Faults where
  getDailyInteractionCount : Option LibError
  getFeatureByID : Option LibError
  beginTx : Option LibError
  insert : Option LibError
  rollback : Option LibError
  commit : Option LibError
  getUserFeatures : Option LibError
  getProfiles : Option LibError
  getUserByEmail : Option LibError
  deriving DecidableEq, Repr

/-- No infrastructure failure. -/
def Faults.none : Faults :=
  ⟨Option.none, Option.none, Option.none, Option.none, Option.none, Option.none,
    Option.none, Option.none, Option.none⟩

/-- What one service call gets from its environment. -/
structure Env where
  /-- The value of `time.Now()`. -/
  now : Time
  /-- The value of `uuid.New()`. -/
  newUUID : UUID
  /-- The value of `NOW()` in the statements of the call. -/
  dbNow : Time
  /-- The identifier the store assigns to a row inserted without one. -/
  dbNewID : UUID
  faults : Faults
  deriving DecidableEq, Repr

/-- The calls made on the store and on the logger, in the order they are made;
`ok` tells whether the call returned without error. -/
inductive Event
  | getDailyInteractionCount (userID : UUID) (since : Time) (ok : Bool)
  | getFeatureByID (featureID : UUID) (ok : Bool)
  | beginTx (ok : Bool)
  | insert (table : String) (ok : Bool)
  | commit (ok : Bool)
  | rollback (ok : Bool)
  | logPrintf (msg : String) (err : GoError)
  | getUserFeatures (userID : UUID) (ok : Bool)
  | getProfiles (userID : UUID) (limit : Int) (ok : Bool)
  | getUserByEmail (email : String) (ok : Bool)
  deriving DecidableEq, Repr

/-- The committed state of the store and the trace of calls so far. -/
structure World where
  db : DB
  trace : List Event
  deriving DecidableEq, Repr

/-- Appends an event to the trace. -/
def World.record (w : World) (e : Event) : World :=
  { w with trace := w.trace ++ [e] }

/-- An open `*sqlx.Tx`: the tables as the transaction sees them. -/
structure Tx where
  work : DB
  deriving DecidableEq, Repr

/-- Outcome of an insert statement: an infrastructure failure, or else the rejection
by a constraint of the table, or else success (`none`). -/
def execInsert (fault : Option LibError) (violation : Option String) : Option LibError :=
  match fault with
  | some e => some e
  | none => violation.map LibError.pq

/-- Go's `tx.Commit()`: on success the work of the transaction becomes the committed
state; on failure nothing of it is persisted. -/
def Tx.Commit (tx : Tx) (env : Env) (w : World) : Option GoError × World :=
  match env.faults.commit with
  | some e => (some (.lib e), w.record (.commit false))
  | none => (none, { db := tx.work, trace := w.trace ++ [.commit true] })

/-- Go's `tx.Rollback()`: the work of the transaction is discarded (also when the call
fails: a transaction that is not committed persists nothing). -/
def Tx.Rollback (_tx : Tx) (env : Env) (w : World) : Option GoError × World :=
  match env.faults.rollback with
  | some e => (some (.lib e), w.record (.rollback false))
  | none => (none, w.record (.rollback true))

/-! ## `internal/repository/repository.go` -/

/-- `repository.BeginTx`. -/
def repository.BeginTx (env : Env) (w : World) : Except GoError Tx × World :=
  match env.faults.beginTx with
  | some e => (.error (.lib e), w.record (.beginTx false))
  | none => (.ok { work := w.db }, w.record (.beginTx true))

/-- The row that the INSERT of `repository.CreateProfileResponse` adds:
`created_at` and `updated_at` are `NOW()`. -/
def profileResponseRow (env : Env) (response : ProfileResponse) : ProfileResponse :=
  { response with CreatedAt := env.dbNow, UpdatedAt := env.dbNow }

/-- `repository.CreateProfileResponse`. -/
def repository.CreateProfileResponse (S : Schema) (env : Env) (tx : Tx)
    (response : ProfileResponse) (w : World) : Option GoError × Tx × World :=
  let row := profileResponseRow env response
  match execInsert env.faults.insert (S.profile_responses tx.work row) with
  | some e =>
    let err := GoError.lib e
    if isPgUniqueViolation err then
      (some (.sentinel .ErrConflictingResponse), tx, w.record (.insert "profile_responses" false))
    else
      (some (.wrap "create profile response" err), tx,
        w.record (.insert "profile_responses" false))
  | none =>
    (none, { work := { tx.work with profile_responses := tx.work.profile_responses ++ [row] } },
      w.record (.insert "profile_responses" true))

/-- `repository.GetDailyInteractionCount`: the number of rows of `profile_responses`
with `from_user_id = userID` and `created_at >= since`, read from the committed state. -/
def repository.GetDailyInteractionCount (env : Env) (userID : UUID) (since : Time)
    (w : World) : Except GoError Nat × World :=
  match env.faults.getDailyInteractionCount with
  | some e =>
    (.error (.wrap "get daily interaction count" (.lib e)),
      w.record (.getDailyInteractionCount userID since false))
  | none =>
    (.ok (w.db.profile_responses.countP
        (fun r => decide (r.FromUserID = userID) && decide (since ≤ r.CreatedAt))),
      w.record (.getDailyInteractionCount userID since true))

/-- `repository.CreateUser`: the store assigns the `id` and returns it. -/
def repository.CreateUser (S : Schema) (env : Env) (tx : Tx) (user : User) (w : World) :
    Except GoError UUID × Tx × World :=
  let row : User := { user with ID := env.dbNewID }
  match execInsert env.faults.insert (S.users tx.work row) with
  | some e =>
    let err := GoError.lib e
    if isPgUniqueViolation err then
      (.error (.sentinel .ErrEmailAlreadyExists), tx, w.record (.insert "users" false))
    else
      (.error (.wrap "insert user" err), tx, w.record (.insert "users" false))
  | none =>
    (.ok env.dbNewID, { work := { tx.work with users := tx.work.users ++ [row] } },
      w.record (.insert "users" true))

/-- `repository.GetFeatureByID`: the row of `subscription_features` with the given id;
an error when the query fails or there is no such row. -/
def repository.GetFeatureByID (env : Env) (featureID : UUID) (w : World) :
    Except GoError SubscriptionFeature × World :=
  match env.faults.getFeatureByID with
  | some e =>
    (.error (.wrap "select feature" (.lib e)), w.record (.getFeatureByID featureID false))
  | none =>
    match w.db.subscription_features.find? (fun f => decide (f.ID = featureID)) with
    | some f => (.ok f, w.record (.getFeatureByID featureID true))
    | none =>
      (.error (.wrap "select feature" (.lib .sqlErrNoRows)),
        w.record (.getFeatureByID featureID false))

/-- The row that the INSERT of `repository.CreateUserFeature` adds: the statement
passes `user_id`, `feature_id`, `value`, `start_date`, `end_date` and `status`; the store
assigns `id`, and `created_at` and `updated_at` are `NOW()`; the name and description of
the feature are not columns of `user_features`. -/
def userFeatureRow (env : Env) (feature : UserFeature) : UserFeature :=
  { feature with
    ID := env.dbNewID, CreatedAt := env.dbNow, UpdatedAt := env.dbNow,
    FeatureName := "", FeatureDescription := "" }

/-- `repository.CreateUserFeature`. -/
def repository.CreateUserFeature (S : Schema) (env : Env) (tx : Tx) (feature : UserFeature)
    (w : World) : Option GoError × Tx × World :=
  let row := userFeatureRow env feature
  match execInsert env.faults.insert (S.user_features tx.work row) with
  | some e =>
    let err := GoError.lib e
    if isPgUniqueViolation err then
      (some (.sentinel .ErrFeatureAlreadySubscribed), tx,
        w.record (.insert "user_features" false))
    else
      (some (.wrap "insert user feature" err), tx, w.record (.insert "user_features" false))
  | none =>
    (none, { work := { tx.work with user_features := tx.work.user_features ++ [row] } },
      w.record (.insert "user_features" true))

/-! ## `internal/service/profile.go` -/

/-- The `ProfileResponse` that `profileService.CreateProfileResponse` builds; the
timestamps keep the zero time. -/
def newProfileResponse (env : Env) (fromUserID toUserID : UUID) (responseType : String) :
    ProfileResponse :=
  { ID := env.newUUID, FromUserID := fromUserID, ToUserID := toUserID,
    ResponseType := responseType, CreatedAt := 0, UpdatedAt := 0 }

/-- `profileService.CreateProfileResponse`: the returned `error` and the state of the
world after the call. -/
def profileService.CreateProfileResponse (S : Schema) (env : Env) (ctx : Context)
    (fromUserID toUserID : UUID) (responseType : String) (w : World) :
    Option GoError × World :=
  let unlimitedResponses := HasFeature ctx FeatureDailyResponses
  let checked : Option GoError × World :=
    if !unlimitedResponses then
      let since := Time.Truncate env.now (24 * Hour)
      match repository.GetDailyInteractionCount env fromUserID since w with
      | (.error err, w1) => (some (.wrap "get daily interaction count" err), w1)
      | (.ok count, w1) =>
        if count ≥ 10 then (some (.sentinel .ErrDailyInteractionLimitExceeded), w1)
        else (none, w1)
    else (none, w)
  match checked with
  | (some err, w1) => (some err, w1)
  | (none, w1) =>
    match repository.BeginTx env w1 with
    | (.error err, w2) => (some (.wrap "begin transaction" err), w2)
    | (.ok tx, w2) =>
      let response := newProfileResponse env fromUserID toUserID responseType
      match repository.CreateProfileResponse S env tx response w2 with
      | (some err, tx1, w3) =>
        match tx1.Rollback env w3 with
        | (some errRollback, w4) =>
          (some (.wrap "create profile response" err),
            w4.record (.logPrintf "failed to rollback transaction" errRollback))
        | (none, w4) => (some (.wrap "create profile response" err), w4)
      | (none, tx1, w3) => tx1.Commit env w3

/-! ## `internal/service/feature.go` -/

/-- The map `months` of `featureService.SubscribeToFeature`; a key that is not in
the map reads as 0. -/
def months (period : String) : Int :=
  if period = "1_month" then 1
  else if period = "3_months" then 3
  else if period = "6_months" then 6
  else if period = "12_months" then 12
  else 0

/-- `featureService.SubscribeToFeature`: the returned `error`, the `UserFeature` behind
the pointer argument after the call, and the state of the world after the call.
`AddDate` is Go's `Time.AddDate`. -/
def featureService.SubscribeToFeature (AddDate : Time → Int → Int → Int → Time)
    (S : Schema) (env : Env) (feature : UserFeature) (period : String) (w : World) :
    Option GoError × UserFeature × World :=
  match repository.GetFeatureByID env feature.FeatureID w with
  | (.error _, w1) => (some (.sentinel .ErrFeatureNotFound), feature, w1)
  | (.ok _, w1) =>
    let now := env.now
    let feature1 := { feature with StartDate := now }
    let endDate := AddDate now 0 (months period) 0
    let feature2 := { feature1 with EndDate := some endDate }
    match repository.BeginTx env w1 with
    | (.error err, w2) => (some (.wrap "begin transaction" err), feature2, w2)
    | (.ok tx, w2) =>
      match repository.CreateUserFeature S env tx feature2 w2 with
      | (some err, tx1, w3) =>
        match tx1.Rollback env w3 with
        | (some errRollback, w4) =>
          (some (.wrap "create user feature" err), feature2,
            w4.record (.logPrintf "failed to rollback transaction" errRollback))
        | (none, w4) => (some (.wrap "create user feature" err), feature2, w4)
      | (none, tx1, w3) =>
        match tx1.Commit env w3 with
        | (err, w4) => (err, feature2, w4)

/-! ## `internal/service/user.go` -/

/-- `userService.SignUp`: the returned `error`, the `User` behind the pointer argument
after the call, and the state of the world after the call. `GenerateFromPassword` is
`bcrypt.GenerateFromPassword` at the default cost. -/
def userService.SignUp (GenerateFromPassword : String → Except LibError String)
    (S : Schema) (env : Env) (user : User) (password : String) (w : World) :
    Option GoError × User × World :=
  match GenerateFromPassword password with
  | .error err => (some (.wrap "hash password" (.lib err)), user, w)
  | .ok hashedPassword =>
    let user1 := { user with PasswordHash := hashedPassword }
    let now := env.now
    let user2 := { user1 with CreatedAt := now, UpdatedAt := now }
    match repository.BeginTx env w with
    | (.error err, w1) => (some (.wrap "begin transaction" err), user2, w1)
    | (.ok tx, w1) =>
      match repository.CreateUser S env tx user2 w1 with
      | (.error err, tx1, w2) =>
        match tx1.Rollback env w2 with
        | (some errRollback, w3) =>
          (some (.wrap "create user" err), user2,
            w3.record (.logPrintf "failed to rollback transaction" errRollback))
        | (none, w3) => (some (.wrap "create user" err), user2, w3)
      | (.ok id, tx1, w2) =>
        let user3 := { user2 with ID := id }
        match tx1.Commit env w2 with
        | (err, w3) => (err, user3, w3)

/-! ## `internal/handler/handler.go` -/

/-- A value of type `interface{}`, as `c.Get` returns it. -/
inductive AnyValue
  | nil
  | str (s : String)
  | foreign (n : Nat)
  deriving DecidableEq, Repr

/-- What a handler reads from its `echo.Context`. -/
structure EchoContext where
  /-- The value of `c.Get("user_id")`. -/
  userID : AnyValue
  /-- The value of `c.Param("id")`. -/
  paramID : String
  /-- The value of `c.Request().Context()`. -/
  requestContext : Context
  deriving DecidableEq, Repr

/-- What a handler returns: an `*echo.HTTPError`, or `nil` after it wrote a response. -/
inductive HandlerResult
  /-- The value of `echo.NewHTTPError(code, message)`. -/
  | httpError (code : Nat) (message : String)
  /-- After `c.NoContent(code)`. -/
  | noContent (code : Nat)
  /-- After `c.JSON(code, body)` with a `*UserFeature` body. -/
  | jsonUserFeature (code : Nat) (body : UserFeature)
  /-- After `c.JSON(code, body)` with a `*User` body. -/
  | jsonUser (code : Nat) (body : User)
  /-- After `c.JSON(code, LoginResponse{Token: token})`. -/
  | jsonToken (code : Nat) (token : String)
  /-- After `c.JSON(code, body)` with a `[]*User` body. -/
  | jsonUsers (code : Nat) (body : List User)
  deriving DecidableEq, Repr

def StatusOK : Nat := 200
def StatusUnauthorized : Nat := 401

def StatusCreated : Nat := 201
def StatusBadRequest : Nat := 400
def StatusNotFound : Nat := 404
def StatusConflict : Nat := 409
def StatusTooManyRequests : Nat := 429
def StatusInternalServerError : Nat := 500

/-- `Handler.CreateProfileResponse`. The collaborators of the handler are arguments:
`uuidParse` is `uuid.Parse` (`none` when it returns an error), `bind` is the outcome of
`c.Bind(&req)` (the text of the error, or the decoded `req.ResponseType`), `validate` is
`c.Validate(&req)` as a function of `req.ResponseType` (the text of the error, if any),
and `profileSvc` is the `internal.ProfileService` of the handler. Logging is left out. -/
def Handler.CreateProfileResponse (uuidParse : String → Option UUID)
    (validate : String → Option String)
    (profileSvc : Context → UUID → UUID → String → World → Option GoError × World)
    (c : EchoContext) (bind : Except String String) (w : World) : HandlerResult × World :=
  match c.userID with
  | .nil => (.httpError StatusBadRequest "user ID is required", w)
  | .foreign _ => (.httpError StatusBadRequest "user ID is required", w)
  | .str uid =>
    if uid = "" then (.httpError StatusBadRequest "user ID is required", w)
    else
      match uuidParse uid with
      | none => (.httpError StatusBadRequest "invalid user ID", w)
      | some fromUserID =>
        match uuidParse c.paramID with
        | none => (.httpError StatusBadRequest "invalid target user ID", w)
        | some toUserID =>
          match bind with
          | .error text => (.httpError StatusBadRequest text, w)
          | .ok responseType =>
            match validate responseType with
            | some text => (.httpError StatusBadRequest text, w)
            | none =>
              match profileSvc c.requestContext fromUserID toUserID responseType w with
              | (some err, w1) =>
                if errorsIs err (.sentinel .ErrDailyInteractionLimitExceeded) then
                  (.httpError StatusTooManyRequests "daily interaction limit exceeded", w1)
                else if errorsIs err (.sentinel .ErrConflictingResponse) then
                  (.httpError StatusConflict "you already responded to this profile", w1)
                else
                  (.httpError StatusInternalServerError "failed to create response", w1)
              | (none, w1) => (.noContent StatusCreated, w1)

/-! ## Notions of the specification -/

/-- Start of the UTC calendar day of `now`: 00:00:00 UTC of that day. -/
def startOfUTCDay (now : Time) : Time := now.utcDay * (24 * Hour)

/-- The interactions authored by `actor` with `created_at >= since`. -/
def interactionsSince (db : DB) (actor : UUID) (since : Time) : List ProfileResponse :=
  db.profile_responses.filter (fun r => decide (r.FromUserID = actor ∧ since ≤ r.CreatedAt))

/-- The daily limit of the specification. -/
def DAILY_LIMIT : Nat := 10

/-! ## The two stages of `profileService.CreateProfileResponse` -/

/-- Lines 30 to 40 of `profile.go`: the check of the daily limit. -/
def profileService.checkDailyLimit (env : Env) (ctx : Context) (fromUserID : UUID)
    (w : World) : Option GoError × World :=
  if !HasFeature ctx FeatureDailyResponses then
    let since := Time.Truncate env.now (24 * Hour)
    match repository.GetDailyInteractionCount env fromUserID since w with
    | (.error err, w1) => (some (.wrap "get daily interaction count" err), w1)
    | (.ok count, w1) =>
      if count ≥ 10 then (some (.sentinel .ErrDailyInteractionLimitExceeded), w1)
      else (none, w1)
  else (none, w)

/-- Lines 42 to 62 of `profile.go`: the transaction that inserts the response. -/
def profileService.insertInTx (S : Schema) (env : Env)
    (fromUserID toUserID : UUID) (responseType : String) (w1 : World) :
    Option GoError × World :=
  match repository.BeginTx env w1 with
  | (.error err, w2) => (some (.wrap "begin transaction" err), w2)
  | (.ok tx, w2) =>
    let response := newProfileResponse env fromUserID toUserID responseType
    match repository.CreateProfileResponse S env tx response w2 with
    | (some err, tx1, w3) =>
      match tx1.Rollback env w3 with
      | (some errRollback, w4) =>
        (some (.wrap "create profile response" err),
          w4.record (.logPrintf "failed to rollback transaction" errRollback))
      | (none, w4) => (some (.wrap "create profile response" err), w4)
    | (none, tx1, w3) => tx1.Commit env w3

/-- The row that a successful call persists. -/
def persistedRow (env : Env) (fromUserID toUserID : UUID) (responseType : String) :
    ProfileResponse :=
  profileResponseRow env (newProfileResponse env fromUserID toUserID responseType)

/-- The outcome of the insert statement of a call whose transaction starts in the
committed state `db`: the error of the statement, if it fails. -/
def insertOutcome (S : Schema) (env : Env) (db : DB) (fromUserID toUserID : UUID)
    (responseType : String) : Option LibError :=
  execInsert env.faults.insert
    (S.profile_responses db (persistedRow env fromUserID toUserID responseType))

/-- The committed state after a successful call. -/
def DB.withResponse (db : DB) (row : ProfileResponse) : DB :=
  { db with profile_responses := db.profile_responses ++ [row] }

/-! ## Concrete inputs -/

/-- Modelled from the spec: the table declaration of `profile_responses` is not part of
the sources; the specification gives its constraint, the ordered pair (`from_user_id`,
`to_user_id`) is unique, and a row that repeats the pair of a stored row is rejected
with a unique violation (SQLSTATE 23505). The specification does not tell the
constraints of `users`; `user_features` is left unconstrained here. -/
def pairUniqueSchema : Schema where
  profile_responses := fun db row =>
    if db.profile_responses.any
        (fun r => decide (r.FromUserID = row.FromUserID ∧ r.ToUserID = row.ToUserID))
    then some "23505" else none
  users := fun _ _ => none
  user_features := fun _ _ => none

/-- Noon of the UTC day number 739000 after the zero time. -/
def noon : Time := 739000 * (24 * Hour) + 12 * Hour

/-- A call at `noon`, store and application clocks agreeing, without failures. -/
def envNoon : Env :=
  { now := noon, newUUID := 900, dbNow := noon, dbNewID := 901, faults := Faults.none }

/-- A grant of the unlimited-interactions feature, as `GetUserFeatures` returns it. -/
def dailyResponsesGrant : UserFeature :=
  { ID := 1, UserID := 7, FeatureID := 2, Value := 0, StartDate := 0, EndDate := none,
    Status := "active", CreatedAt := 0, UpdatedAt := 0,
    FeatureName := "daily_responses", FeatureDescription := "" }

/-- The request context that the `ActiveFeatures` middleware builds for actor 7. -/
def ctxUnlimited : Context := SetActiveFeatures [] [dailyResponsesGrant]

/-- The interaction number `i` of actor 7, recorded one hour before `noon`. -/
def responseToday (i : Nat) : ProfileResponse :=
  { ID := 100 + i, FromUserID := 7, ToUserID := 20 + i, ResponseType := "like",
    CreatedAt := noon - Hour, UpdatedAt := noon - Hour }

/-- A store in which actor 7 has recorded `n` interactions today. -/
def dbWithResponsesToday (n : Nat) : DB :=
  { users := [], subscription_features := [], user_features := [],
    profile_responses := (List.range n).map responseToday }

/-! ## Sequential runs -/

/-- What differs from call to call in a run of `CreateProfileResponse` calls. -/
structure Call where
  env : Env
  ctx : Context
  toUserID : UUID
  responseType : String

/-- A sequential run of `CreateProfileResponse` calls by one actor: each call starts in
the world the call before it left. The result is the returned errors, in order, and the
world after the last call. -/
def runCalls (S : Schema) (actor : UUID) : List Call → World → List (Option GoError) × World
  | [], w => ([], w)
  | c :: cs, w =>
    let r := profileService.CreateProfileResponse S c.env c.ctx actor c.toUserID
      c.responseType w
    let rest := runCalls S actor cs r.2
    (r.1 :: rest.1, rest.2)

/-- Number of calls of a run that returned `nil`. -/
def successes (results : List (Option GoError)) : Nat :=
  results.countP Option.isNone

/-- The call environment `envNoon` with another value of `uuid.New()`. -/
def envNoonWith (newUUID : UUID) : Env := { envNoon with newUUID := newUUID }

/-- A run of `n` calls of actor 7 at `noon`, toward the actors 20, 21, ..., each with its
own value of `uuid.New()`. -/
def callsAtNoon (n : Nat) : List Call :=
  (List.range n).map (fun i =>
    { env := envNoonWith (900 + i), ctx := [], toUserID := 20 + i, responseType := "like" })

/-! ## Traces -/

/-- The event is a check read: the count read of `CreateProfileResponse` or the catalog
lookup of `SubscribeToFeature`. -/
def Event.isCheckRead : Event → Bool
  | .getDailyInteractionCount _ _ _ => true
  | .getFeatureByID _ _ => true
  | _ => false

/-- The event belongs to a transaction: its begin, a statement in it, or its end. -/
def Event.isTxEvent : Event → Bool
  | .beginTx _ => true
  | .insert _ _ => true
  | .commit _ => true
  | .rollback _ => true
  | _ => false

/-- Every check read of the trace is made inside a transaction: after a `BeginTx` that
returned a transaction and before the `Commit` or `Rollback` of that transaction.
`inTx` tells whether a transaction is open where the trace starts. -/
def checksInsideTx (inTx : Bool) : List Event → Bool
  | [] => true
  | .beginTx ok :: rest => checksInsideTx ok rest
  | .commit _ :: rest => checksInsideTx false rest
  | .rollback _ :: rest => checksInsideTx false rest
  | .getDailyInteractionCount _ _ _ :: rest => inTx && checksInsideTx inTx rest
  | .getFeatureByID _ _ :: rest => inTx && checksInsideTx inTx rest
  | _ :: rest => checksInsideTx inTx rest

/-- Every check read of the trace is made before the first `BeginTx`, outside any
transaction: the trace is check reads (and other non-transaction events) followed by
events none of which is a check read. -/
def checksBeforeTx : List Event → Bool
  | [] => true
  | e :: rest =>
    if e.isTxEvent then rest.all (fun e' => !e'.isCheckRead) else checksBeforeTx rest

/-- Go's `Time.AddDate` for the inputs of the concrete calls below: adds `months` months
of 30 days (the theorems do not depend on it). -/
def addDate30 (t : Time) (_years months _days : Int) : Time := t + months * 30 * (24 * Hour)

/-- A store whose catalog has the feature 2, daily_responses. -/
def dbWithCatalog : DB :=
  { users := [],
    subscription_features :=
      [{ ID := 2, Name := "daily_responses", Description := "", CreatedAt := 0,
         UpdatedAt := 0 }],
    user_features := [], profile_responses := [] }

/-- The grant that the handler passes to `SubscribeToFeature` for actor 7, feature 2. -/
def grantRequest : UserFeature :=
  { ID := 0, UserID := 7, FeatureID := 2, Value := 0, StartDate := 0, EndDate := none,
    Status := "active", CreatedAt := 0, UpdatedAt := 0, FeatureName := "",
    FeatureDescription := "" }

/-- The events that end a transaction whose insert failed: the rollback and, when the
rollback fails too, the line that logs its error. -/
def rollbackEvents (env : Env) : List Event :=
  match env.faults.rollback with
  | some e => [.rollback false, .logPrintf "failed to rollback transaction" (.lib e)]
  | none => [.rollback true]

/-! ## The stages of `featureService.SubscribeToFeature` and `userService.SignUp` -/

/-- The catalog has a row for the feature and the lookup returns it. -/
def featureFound (env : Env) (db : DB) (featureID : UUID) : Bool :=
  env.faults.getFeatureByID.isNone &&
    (db.subscription_features.find? (fun f => decide (f.ID = featureID))).isSome

/-- The grant that `SubscribeToFeature` passes to the store: `StartDate` is `time.Now()`
and `EndDate` is `AddDate(0, months[period], 0)` of it. -/
def grantToStore (AddDate : Time → Int → Int → Int → Time) (env : Env)
    (feature : UserFeature) (period : String) : UserFeature :=
  { feature with StartDate := env.now, EndDate := some (AddDate env.now 0 (months period) 0) }

/-- The outcome of the insert statement of `SubscribeToFeature`: the error of the
statement, if it fails. -/
def grantInsertOutcome (AddDate : Time → Int → Int → Int → Time) (S : Schema) (env : Env)
    (db : DB) (feature : UserFeature) (period : String) : Option LibError :=
  execInsert env.faults.insert
    (S.user_features db (userFeatureRow env (grantToStore AddDate env feature period)))

/-- The error that a repository insert returns for the error `e` of its statement:
`conflict` for a unique violation, `e` wrapped with `msg` otherwise. -/
def insertError (conflict : Sentinel) (msg : String) (e : LibError) : GoError :=
  if isPgUniqueViolation (.lib e) then .sentinel conflict else .wrap msg (.lib e)

/-- The user that `SignUp` passes to the store. -/
def userToStore (env : Env) (user : User) (hashedPassword : String) : User :=
  { user with PasswordHash := hashedPassword, CreatedAt := env.now, UpdatedAt := env.now }

/-- The outcome of the insert statement of `SignUp`: the error of the statement, if it
fails. -/
def userInsertOutcome (S : Schema) (env : Env) (db : DB) (user : User)
    (hashedPassword : String) : Option LibError :=
  execInsert env.faults.insert
    (S.users db { userToStore env user hashedPassword with ID := env.dbNewID })

/-- The call is under quota: the context has the unlimited feature for `HasFeature`, or
the count read returns and the actor has fewer than 10 interactions since the start of
the UTC day. -/
def underQuota (env : Env) (ctx : Context) (actor : UUID) (db : DB) : Prop :=
  HasFeature ctx FeatureDailyResponses = true ∨
    (env.faults.getDailyInteractionCount = none ∧
      (interactionsSince db actor (startOfUTCDay env.now)).length < DAILY_LIMIT)

instance (env : Env) (ctx : Context) (actor : UUID) (db : DB) :
    Decidable (underQuota env ctx actor db) := by
  unfold underQuota
  exact inferInstance

/-- A stand-in for `uuid.Parse` in the concrete requests: it knows the texts of the
identifiers 7, 20 and 42 and returns an error for any other text. -/
def parseKnown (s : String) : Option UUID :=
  if s = "7" then some 7 else if s = "20" then some 20 else if s = "42" then some 42 else none

/-- A stand-in for the validator in the concrete requests: `response_type` is one of
like and pass. -/
def validateLikePass (responseType : String) : Option String :=
  if responseType = "like" ∨ responseType = "pass" then none else some "invalid response type"

/-- The request of actor 7 about the profile 20. -/
def requestSevenToTwenty : EchoContext :=
  { userID := .str "7", paramID := "20", requestContext := [] }

/-- The interactions stored for the ordered pair (`a`, `b`). -/
def pairRows (db : DB) (a b : UUID) : List ProfileResponse :=
  db.profile_responses.filter (fun r => decide (r.FromUserID = a ∧ r.ToUserID = b))

/-- A call at `noon` during which the insert statement and the rollback both fail. -/
def envInsertAndRollbackFail : Env :=
  { envNoon with
    faults := { Faults.none with
      insert := some (.failure "connection reset"),
      rollback := some (.failure "broken pipe") } }

/-- A stand-in for `bcrypt.GenerateFromPassword` in the concrete calls. -/
def hashStub (_password : String) : Except LibError String := .ok "hashed"

/-- The user that the sign-up handler passes to `SignUp`. -/
def newUser : User :=
  { ID := 0, Email := "a@example.com", PasswordHash := "", Name := "A", Bio := "",
    BirthDate := 0, Gender := "other", CreatedAt := 0, UpdatedAt := 0 }

/-! ## Concurrent calls

Calls of `CreateProfileResponse` that run at the same time interleave at the statements
they send to the store. The count read is one statement on the committed state. The
transaction holds the insert alone, so the store applies it in one piece when it
commits. A call therefore takes two steps, the two stages of the function, and between
the two steps of one call the steps of other calls can take place. -/

/-- How far a call has come. -/
inductive Phase
  /-- The call has not read the count yet. -/
  | start
  /-- The check of the daily limit has passed; the transaction is not begun yet. -/
  | checked
  /-- The call has returned `err`. -/
  | done (err : Option GoError)
  deriving DecidableEq, Repr

/-- The next step of a call: from `start` the check of the daily limit, from `checked` the
transaction that inserts the response; a call that has returned stays as it is. -/
def stepCall (S : Schema) (actor : UUID) (c : Call) (p : Phase) (w : World) :
    Phase × World :=
  match p with
  | .start =>
    match profileService.checkDailyLimit c.env c.ctx actor w with
    | (some err, w1) => (.done (some err), w1)
    | (none, w1) => (.checked, w1)
  | .checked =>
    match profileService.insertInTx S c.env actor c.toUserID c.responseType w with
    | (err, w1) => (.done err, w1)
  | .done err => (.done err, w)

/-- The store and the phases of the concurrent calls, in the order of the calls. -/
structure Concurrent where
  world : World
  phases : List Phase
  deriving DecidableEq, Repr

/-- All calls at their start. -/
def Concurrent.initial (calls : List Call) (w : World) : Concurrent :=
  ⟨w, calls.map (fun _ => Phase.start)⟩

/-- The call number `i` takes its next step. -/
def Concurrent.step (S : Schema) (actor : UUID) (calls : List Call) (i : Nat)
    (s : Concurrent) : Concurrent :=
  match calls[i]?, s.phases[i]? with
  | some c, some p =>
    let r := stepCall S actor c p s.world
    ⟨r.2, s.phases.set i r.1⟩
  | _, _ => s

/-- An interleaving: the numbers of the calls in the order they take their steps. -/
def runSchedule (S : Schema) (actor : UUID) (calls : List Call) :
    List Nat → Concurrent → Concurrent
  | [], s => s
  | i :: rest, s => runSchedule S actor calls rest (s.step S actor calls i)

/-- Number of calls that have returned `nil`. -/
def Concurrent.successes (s : Concurrent) : Nat :=
  s.phases.countP (fun p => decide (p = Phase.done none))

/-- Number of calls that have returned `ErrDailyInteractionLimitExceeded`. -/
def Concurrent.denials (s : Concurrent) : Nat :=
  s.phases.countP
    (fun p => decide (p = Phase.done (some (.sentinel .ErrDailyInteractionLimitExceeded))))

/-- The call has returned. -/
def Phase.isDone : Phase → Bool
  | .done _ => true
  | _ => false

/-- Every call has returned. -/
def Concurrent.finished (s : Concurrent) : Bool :=
  s.phases.all Phase.isDone

/-- No call is between its count read and its transaction. -/
def Concurrent.quiet (s : Concurrent) : Bool :=
  s.phases.all (fun p => decide (p ≠ Phase.checked))

/-- An interleaving in which the calls do not overlap: the calls of `order` run one
after another, each taking its two steps before the next one starts. -/
def separately (order : List Nat) : List Nat := order.flatMap (fun i => [i, i])

/-- What ties the state of concurrent calls of `actor` on the UTC day `D` to the store:
the interactions of the actor on that day are as many as the calls that succeeded, a
target of a call that has not succeeded has no interaction from the actor, and a call
that failed was denied with at least 10 interactions in the store. -/
structure RaceInv (actor : UUID) (D : Int) (calls : List Call) (s : Concurrent) : Prop where
  len : s.phases.length = calls.length
  count : (interactionsSince s.world.db actor (D * (24 * Hour))).length = s.successes
  fresh : ∀ (i : Nat) (c : Call), calls[i]? = some c →
    s.phases[i]? ≠ some (Phase.done none) →
    pairRows s.world.db actor c.toUserID = []
  denied : ∀ (i : Nat) (e : GoError), s.phases[i]? = some (Phase.done (some e)) →
    e = .sentinel .ErrDailyInteractionLimitExceeded ∧
      10 ≤ (interactionsSince s.world.db actor (D * (24 * Hour))).length

/-- The interleaving of `n` calls in which every call reads the count before any call
inserts: 0, 1, ..., n-1, 0, 1, ..., n-1. -/
def checksFirst (n : Nat) : List Nat := List.range n ++ List.range n

/-- The interleaving of `n` calls in which the calls do not overlap:
0, 0, 1, 1, ..., n-1, n-1. -/
def oneByOne (n : Nat) : List Nat := separately (List.range n)

/-! ## Go's calendar (`time.Date`, `Time.Date`, `Time.AddDate`)

The functions of package `time` that `featureService.SubscribeToFeature` relies on, for
times whose location is UTC. Years are counted as in the proleptic Gregorian calendar;
the absolute day number 0 is January 1 of year 1. -/

/-- Go's `isLeap`. -/
def isLeap (year : Int) : Bool :=
  decide (year % 4 = 0) && (decide (year % 100 ≠ 0) || decide (year % 400 = 0))

/-- Go's table `daysBefore`: `daysBefore m` is the number of days in a non-leap year
before the month `m + 1` starts. -/
def daysBefore (m : Int) : Int :=
  if m ≤ 0 then 0
  else if m = 1 then 31
  else if m = 2 then 59
  else if m = 3 then 90
  else if m = 4 then 120
  else if m = 5 then 151
  else if m = 6 then 181
  else if m = 7 then 212
  else if m = 8 then 243
  else if m = 9 then 273
  else if m = 10 then 304
  else if m = 11 then 334
  else 365

/-- Go's `daysSinceEpoch`, counted from year 1: the days before January 1 of `year`. -/
def daysSinceEpoch (year : Int) : Int :=
  let y := year - 1
  let n400 := y / 400
  let y1 := y - 400 * n400
  let n100 := y1 / 100
  let y2 := y1 - 100 * n100
  let n4 := y2 / 4
  let y3 := y2 - 4 * n4
  146097 * n400 + 36524 * n100 + 1461 * n4 + 365 * y3

/-- Go's `norm`: carries `lo` into `hi` so that `0 <= lo < base`. -/
def norm (hi lo base : Int) : Int × Int := (hi + lo / base, lo % base)

/-- The year of the absolute day number `d` and the day within that year, from 0: the
first half of Go's `absDate`. -/
def absYear (d : Int) : Int × Int :=
  let n400 := d / 146097
  let d1 := d - 146097 * n400
  let n100 := d1 / 36524 - d1 / 36524 / 4
  let d2 := d1 - 36524 * n100
  let n4 := d2 / 1461
  let d3 := d2 - 1461 * n4
  let n := d3 / 365 - d3 / 365 / 4
  let d4 := d3 - 365 * n
  (1 + 400 * n400 + 100 * n100 + 4 * n4 + n, d4)

/-- The month, from 1, and the day of the month, from 1, of the day `yday` of a year: the
second half of Go's `absDate`. -/
def monthDay (leap : Bool) (yday : Int) : Int × Int :=
  if leap ∧ yday = 31 + 29 - 1 then (2, 29)
  else
    let day := if leap ∧ yday > 31 + 29 - 1 then yday - 1 else yday
    let month := day / 31
    let fin := daysBefore (month + 1)
    if day ≥ fin then (month + 2, day - fin + 1)
    else (month + 1, day - daysBefore month + 1)

/-- Go's `absDate`: year, month and day of the absolute day number `d`. -/
def absDate (d : Int) : Int × Int × Int :=
  let yd := absYear d
  let md := monthDay (isLeap yd.1) yd.2
  (yd.1, md.1, md.2)

/-- Go's `Time.Date`: year, month and day in which `t` occurs, in UTC. -/
def Time.Date (t : Time) : Int × Int × Int := absDate (t.utcDay)

/-- Go's `Time.Clock`: hour, minute and second within the day of `t`, in UTC. -/
def Time.Clock (t : Time) : Int × Int × Int :=
  let sec := t.utcClock / 1000000000
  (sec / 3600, sec % 3600 / 60, sec % 60)

/-- Go's `Time.Nanosecond`: the nanosecond offset within the second of `t`. -/
def Time.Nanosecond (t : Time) : Int := t.utcClock % 1000000000

/-- Go's `time.Date` for the location UTC: the fields are normalised (month 13 is January
of the next year, April 31 is May 1). -/
def time.Date (year month day hour min sec nsec : Int) : Time :=
  let ym := norm year (month - 1) 12
  let year1 := ym.1
  let month1 := ym.2 + 1
  let sn := norm sec nsec 1000000000
  let ms := norm min sn.1 60
  let hm := norm hour ms.1 60
  let dh := norm day hm.1 24
  let d := daysSinceEpoch year1 + daysBefore (month1 - 1)
    + (if isLeap year1 ∧ month1 ≥ 3 then 1 else 0) + (dh.1 - 1)
  ((d * 86400 + (dh.2 * 3600 + hm.2 * 60 + ms.2)) * 1000000000 + sn.2 : Int)

/-- Go's `Time.AddDate`, for a time in the location UTC. -/
def Time.AddDate (t : Time) (years months days : Int) : Time :=
  let ymd := t.Date
  let hms := t.Clock
  time.Date (ymd.1 + years) (ymd.2.1 + months) (ymd.2.2 + days) hms.1 hms.2.1 hms.2.2
    t.Nanosecond

/-- The absolute day number of the first day of the month `k + 1` of `year`, as
`time.Date` computes it. -/
def monthStart (year k : Int) : Int :=
  daysSinceEpoch year + daysBefore k + (if isLeap year ∧ k + 1 ≥ 3 then 1 else 0)

/-! ## `repository.GetUserFeatures` and the `ActiveFeatures` middleware -/

/-- The WHERE clause of the query of `repository.GetUserFeatures`, `$2` being
`currentTime`. -/
def grantSelected (userID : UUID) (currentTime : Time) (uf : UserFeature) : Bool :=
  decide (uf.UserID = userID) && decide (uf.Status = "active") &&
    decide (uf.StartDate ≤ currentTime) &&
    (match uf.EndDate with
      | none => true
      | some endDate => decide (endDate > currentTime))

/-- The rows that the JOIN of the query yields for one grant: one for every row of
`subscription_features` with the `id` of the grant's feature, carrying its name and
description. -/
def joinFeature (catalog : List SubscriptionFeature) (uf : UserFeature) : List UserFeature :=
  (catalog.filter (fun sf => decide (sf.ID = uf.FeatureID))).map
    (fun sf => { uf with FeatureName := sf.Name, FeatureDescription := sf.Description })

/-- `repository.GetUserFeatures`: `currentTime` is `time.Now()`; the rows are ordered by
`created_at` descending (rows with equal `created_at` in the order the sort leaves them,
which the query does not fix). -/
def repository.GetUserFeatures (env : Env) (userID : UUID) (w : World) :
    Except GoError (List UserFeature) × World :=
  let currentTime := env.now
  match env.faults.getUserFeatures with
  | some e =>
    (.error (.wrap "select user features" (.lib e)),
      w.record (.getUserFeatures userID false))
  | none =>
    let rows := (w.db.user_features.filter (grantSelected userID currentTime)).flatMap
      (joinFeature w.db.subscription_features)
    (.ok (rows.insertionSort (fun a b => b.CreatedAt ≤ a.CreatedAt)),
      w.record (.getUserFeatures userID true))

/-- The `ActiveFeatures` middleware of `internal/middleware/features.go`, around the
handler `next`; `uuidParse` is `uuid.Parse` (`none` when it returns an error) and the
repository is the one of `repository.go`. -/
def ActiveFeatures (uuidParse : String → Option UUID) (env : Env)
    (next : EchoContext → World → HandlerResult × World) (c : EchoContext) (w : World) :
    HandlerResult × World :=
  match c.userID with
  | .nil => next c w
  | .foreign _ => next c w
  | .str uidStr =>
    if uidStr = "" then next c w
    else
      match uuidParse uidStr with
      | none => next c w
      | some uid =>
        match repository.GetUserFeatures env uid w with
        | (.error _, w1) =>
          (.httpError StatusInternalServerError "failed to get user features", w1)
        | (.ok features, w1) =>
          let ctx := SetActiveFeatures c.requestContext features
          next { c with requestContext := ctx } w1

/-! ## `Handler.SubscribeToFeature` and the validator -/

/-- The validator of go-playground for a string field tagged `required,oneof=...`: the
empty string fails on `required`, a string that is none of the `allowed` ones fails on
`oneof`. `text` renders the failed tag as the text of the error. -/
def validateRequiredOneOf (text : String → String) (allowed : List String)
    (value : String) : Option String :=
  if value = "" then some (text "required")
  else if value ∈ allowed then none
  else some (text "oneof")

/-- The validation of the request of `Handler.CreateProfileResponse`:
`ResponseType` is tagged `required,oneof=like pass`. -/
def validateResponseType (text : String → String) (responseType : String) : Option String :=
  validateRequiredOneOf text ["like", "pass"] responseType

/-- The validation of the request of `Handler.SubscribeToFeature`: `Period` is tagged
`required,oneof=1_month 3_months 6_months 12_months`; `Value` has no tag. -/
def validatePeriod (text : String → String) (period : String) : Option String :=
  validateRequiredOneOf text ["1_month", "3_months", "6_months", "12_months"] period

/-- `Handler.SubscribeToFeature`. The collaborators of the handler are arguments:
`uuidParse` is `uuid.Parse`, `bind` is the outcome of `c.Bind(&req)` (the text of the
error, or the decoded `req.Period` and `req.Value`), `validate` is `c.Validate(&req)` as a
function of `req.Period`, and `featureSvc` is the `internal.FeatureService` of the
handler, which returns, with its error, the `UserFeature` behind the pointer it was
given. Logging is left out. -/
def Handler.SubscribeToFeature (uuidParse : String → Option UUID)
    (validate : String → Option String)
    (featureSvc : Context → UserFeature → String → World →
      Option GoError × UserFeature × World)
    (c : EchoContext) (bind : Except String (String × Option Int)) (w : World) :
    HandlerResult × World :=
  match c.userID with
  | .nil => (.httpError StatusBadRequest "user ID is required", w)
  | .foreign _ => (.httpError StatusBadRequest "user ID is required", w)
  | .str uid =>
    if uid = "" then (.httpError StatusBadRequest "user ID is required", w)
    else
      match uuidParse uid with
      | none => (.httpError StatusBadRequest "invalid user ID", w)
      | some userID =>
        match uuidParse c.paramID with
        | none => (.httpError StatusBadRequest "invalid feature ID", w)
        | some featureID =>
          match bind with
          | .error text => (.httpError StatusBadRequest text, w)
          | .ok (period, value) =>
            match validate period with
            | some text => (.httpError StatusBadRequest text, w)
            | none =>
              let userFeature : UserFeature :=
                { ID := 0, UserID := userID, FeatureID := featureID, Value := 0,
                  StartDate := 0, EndDate := none, Status := "active", CreatedAt := 0,
                  UpdatedAt := 0, FeatureName := "", FeatureDescription := "" }
              let userFeature1 :=
                match value with
                | some v => { userFeature with Value := v }
                | none => userFeature
              match featureSvc c.requestContext userFeature1 period w with
              | (some err, _, w1) =>
                if errorsIs err (.sentinel .ErrFeatureNotFound) then
                  (.httpError StatusNotFound "feature not found", w1)
                else if errorsIs err (.sentinel .ErrFeatureAlreadySubscribed) then
                  (.httpError StatusConflict "already subscribed to this feature", w1)
                else
                  (.httpError StatusInternalServerError "failed to subscribe to feature", w1)
              | (none, userFeature2, w1) => (.jsonUserFeature StatusCreated userFeature2, w1)

/-- Modelled from the spec: the table declaration of `user_features` is not part of the
sources; the specification gives its constraint: an insert fails as already subscribed
when an active, non-expired grant for the same (`user_id`, `feature_id`) already exists,
enforced by a uniqueness constraint on the currently valid grants, so the store rejects
the row with a unique violation (SQLSTATE 23505). A stored grant is active and
non-expired when its status is active and its `end_date` is null or later than `now`,
the `NOW()` of the insert. -/
def grantConflict (now : Time) (db : DB) (row : UserFeature) : Option String :=
  if db.user_features.any (fun g =>
      decide (g.UserID = row.UserID ∧ g.FeatureID = row.FeatureID ∧ g.Status = "active") &&
        (match g.EndDate with
          | none => true
          | some endDate => decide (endDate > now)))
  then some "23505" else none

/-- Modelled from the spec: the constraints of `profile_responses` (see
`pairUniqueSchema`) and of `user_features` (see `grantConflict`; the row carries the
`NOW()` of its insert as `created_at`). -/
def specSchema : Schema :=
  { pairUniqueSchema with user_features := fun db row => grantConflict row.CreatedAt db row }

/-- A grant is currently valid at the instant `t`: its status is active, it has started,
and it has no end or its end is later than `t` (the half-open interval from `startsAt`
to `endsAt`). -/
def currentlyValid (t : Time) (g : UserFeature) : Prop :=
  g.Status = "active" ∧ g.StartDate ≤ t ∧ (∀ endDate, g.EndDate = some endDate → t < endDate)

instance (t : Time) (g : UserFeature) : Decidable (currentlyValid t g) := by
  unfold currentlyValid
  cases h : g.EndDate with
  | none =>
    exact decidable_of_iff (g.Status = "active" ∧ g.StartDate ≤ t)
      ⟨fun ⟨a, b⟩ => ⟨a, b, fun _ he => by cases he⟩, fun ⟨a, b, _⟩ => ⟨a, b⟩⟩
  | some e =>
    exact decidable_of_iff (g.Status = "active" ∧ g.StartDate ≤ t ∧ t < e)
      ⟨fun ⟨a, b, c⟩ => ⟨a, b, fun _ he => by cases he; exact c⟩,
        fun ⟨a, b, c⟩ => ⟨a, b, c e rfl⟩⟩

/-- A grant of actor 7 for the feature 2 with the given identifier, validity and status,
as stored in `user_features`. -/
def storedGrant (id : UUID) (startDate : Time) (endDate : Option Time) (status : String) :
    UserFeature :=
  { ID := id, UserID := 7, FeatureID := 2, Value := 0, StartDate := startDate,
    EndDate := endDate, Status := status, CreatedAt := startDate, UpdatedAt := startDate,
    FeatureName := "", FeatureDescription := "" }

/-- A store with the catalog of `dbWithCatalog` and five grants: one that ends at `noon`,
one that starts at `noon`, one revoked, one of another actor, one without end. -/
def dbWithGrants : DB :=
  { dbWithCatalog with
    user_features :=
      [storedGrant 11 (noon - 48 * Hour) (some noon) "active",
       storedGrant 12 noon (some (noon + 24 * Hour)) "active",
       storedGrant 13 (noon - 24 * Hour) none "revoked",
       { storedGrant 14 (noon - 24 * Hour) none "active" with UserID := 8 },
       storedGrant 15 (noon - 72 * Hour) none "active"] }

/-- A handler that answers 204 whatever the request: a stand-in for the handler behind
the middleware in the concrete requests. -/
def nextNoContent (_c : EchoContext) (w : World) : HandlerResult × World :=
  (.noContent 204, w)

/-- A handler that answers 200 when the context it receives holds the active features and
the list is empty, and 204 otherwise. -/
def nextReadsFeatures (c : EchoContext) (w : World) : HandlerResult × World :=
  if GetActiveFeatures c.requestContext = ([], true) then (.noContent 200, w)
  else (.noContent 204, w)

/-- The request of actor 42, who has no grant. -/
def requestOfFortyTwo : EchoContext :=
  { userID := .str "42", paramID := "", requestContext := [] }

/-- A call at `noon` during which the query of `GetUserFeatures` fails. -/
def envFeaturesQueryFails : Env :=
  { envNoon with
    faults := { Faults.none with getUserFeatures := some (.failure "connection refused") } }

/-! ## Locations (`time.Location`) -/

/-- Go's `Time.Unix`: seconds since January 1, 1970 UTC. -/
def Time.Unix (t : Time) : Int := t / 1000000000 - 62135596800

/-- What Go's `Location.lookup` returns for an instant: the offset of the zone in force,
in seconds east of UTC, and the period in which that zone is in force, from `start` to
before `stop` (Go's `end`), in Unix seconds. -/
structure ZonePeriod where
  offset : Int
  start : Int
  stop : Int
  deriving DecidableEq, Repr

/-- Go's `time.Location`, by its method `lookup`: the zone period of the instant `sec`
seconds after the Unix epoch. The zones of a location and the transitions between them
(daylight-saving time) are what this function tells. -/
structure Location where
  lookup : Int → ZonePeriod

/-- Go's `alpha`: the start of the period of a zone that no transition precedes. -/
def Location.alpha : Int := -(2 ^ 63)

/-- Go's `omega`: the end of the period of a zone that no transition follows. -/
def Location.omega : Int := 2 ^ 63 - 1

/-- Go's `time.UTC`. -/
def Location.UTC : Location := ⟨fun _ => ⟨0, Location.alpha, Location.omega⟩⟩

/-- Go's `time.FixedZone(name, offset)`: one zone, `offset` seconds east of UTC, at all
times. -/
def Location.FixedZone (offset : Int) : Location :=
  ⟨fun _ => ⟨offset, Location.alpha, Location.omega⟩⟩

/-- The offset, in seconds east of UTC, of the zone in force at `t` in `loc`. -/
def Location.offsetAt (loc : Location) (t : Time) : Int := (loc.lookup t.Unix).offset

/-- Go's `Time.abs` for a time in `loc`: the instant at which a clock in UTC shows what
the wall clock of `loc` shows at `t`. -/
def Time.wall (loc : Location) (t : Time) : Time := t + loc.offsetAt t * 1000000000

/-- Go's `Time.Date` for a time in `loc`: year, month and day on the wall clock of `loc`. -/
def Time.DateIn (loc : Location) (t : Time) : Int × Int × Int := (t.wall loc).Date

/-- Go's `Time.Clock` for a time in `loc`. -/
def Time.ClockIn (loc : Location) (t : Time) : Int × Int × Int := (t.wall loc).Clock

/-- The zone offset that Go's `time.Date` settles on for a wall clock of `loc`, `wall`
being the instant at which a clock in UTC shows it: the location is looked up at `wall`
taken as an instant; a zone found with an offset other than 0 is kept when the instant it
gives lies in the period of that zone, and the location is looked up again at that
instant otherwise. -/
def Location.offsetOfWall (loc : Location) (wall : Time) : Int :=
  let unix := wall.Unix
  let p := loc.lookup unix
  if p.offset ≠ 0 then
    let utc := unix - p.offset
    if utc < p.start ∨ utc ≥ p.stop then (loc.lookup utc).offset else p.offset
  else 0

/-- Go's `time.Date(year, month, day, hour, min, sec, nsec, loc)`: the fields are
normalised as for UTC, and the offset of the zone found for that wall clock is taken
off. -/
def time.DateIn (loc : Location) (year month day hour min sec nsec : Int) : Time :=
  let wall := time.Date year month day hour min sec nsec
  wall - loc.offsetOfWall wall * 1000000000

/-- Go's `Time.AddDate` for a time in `loc`: the date and the clock are read on the wall
clock of `loc`, and `time.Date` sets the new date on that wall clock. -/
def Time.AddDateIn (loc : Location) (t : Time) (years months days : Int) : Time :=
  let ymd := t.DateIn loc
  let hms := t.ClockIn loc
  time.DateIn loc (ymd.1 + years) (ymd.2.1 + months) (ymd.2.2 + days) hms.1 hms.2.1 hms.2.2
    t.Nanosecond

/-- A location with the two transitions of Europe/Berlin in 2024: Central European Time,
3600 seconds east of UTC, until 2024-03-31 01:00:00 UTC; Central European Summer Time,
7200 seconds east, until 2024-10-27 01:00:00 UTC; Central European Time after. -/
def berlin2024 : Location :=
  ⟨fun sec =>
    if sec < 1711846800 then ⟨3600, Location.alpha, 1711846800⟩
    else if sec < 1729990800 then ⟨7200, 1711846800, 1729990800⟩
    else ⟨3600, 1729990800, Location.omega⟩⟩

/-- A call at 11:00 UTC on 2024-03-15, which is 12:00 in `berlin2024`, without
failures. -/
def envMarch15 : Env :=
  { envNoon with now := time.Date 2024 3 15 11 0 0 0, dbNow := time.Date 2024 3 15 11 0 0 0 }

/-- A call at 00:30 UTC on 2024-10-27, which is 02:30 in `berlin2024`, in the hour
before the clocks are set back from 03:00 to 02:00; without failures. -/
def envOctober27 : Env :=
  { envNoon with now := time.Date 2024 10 27 0 30 0 0, dbNow := time.Date 2024 10 27 0 30 0 0 }

/-- A call at 12:00 UTC on 2024-01-31, without failures. -/
def envJanuary31 : Env :=
  { envNoon with now := time.Date 2024 1 31 12 0 0 0, dbNow := time.Date 2024 1 31 12 0 0 0 }

/-- The `UserFeature` that `Handler.SubscribeToFeature` builds from a request and passes
to the service: value 0 when the request has none, status active. -/
def grantOfRequest (userID featureID : UUID) (value : Option Int) : UserFeature :=
  { ID := 0, UserID := userID, FeatureID := featureID, Value := value.getD 0,
    StartDate := 0, EndDate := none, Status := "active", CreatedAt := 0, UpdatedAt := 0,
    FeatureName := "", FeatureDescription := "" }

/-- The answer of `Handler.SubscribeToFeature` to the outcome of the service. -/
def subscribeAnswer (outcome : Option GoError × UserFeature × World) : HandlerResult × World :=
  match outcome with
  | (some err, _, w1) =>
    if errorsIs err (.sentinel .ErrFeatureNotFound) then
      (.httpError StatusNotFound "feature not found", w1)
    else if errorsIs err (.sentinel .ErrFeatureAlreadySubscribed) then
      (.httpError StatusConflict "already subscribed to this feature", w1)
    else
      (.httpError StatusInternalServerError "failed to subscribe to feature", w1)
  | (none, userFeature, w1) => (.jsonUserFeature StatusCreated userFeature, w1)

/-- The request has the identifier of an actor, the identifier of the target in its path
and a body that binds and passes the validation. -/
def wellFormed (uuidParse : String → Option UUID) (validate : String → Option String)
    (c : EchoContext) (userID targetID : UUID) (validated : String) : Prop :=
  ∃ uid, c.userID = .str uid ∧ uid ≠ "" ∧ uuidParse uid = some userID ∧
    uuidParse c.paramID = some targetID ∧ validate validated = none

/-- The validator of the concrete requests renders a failed tag by its name. -/
def tagText (tag : String) : String := tag

/-- The request of actor 7 about the feature 2. -/
def requestSevenFeatureTwo : EchoContext :=
  { userID := .str "7", paramID := "2", requestContext := [] }

/-- The request of actor 7 about the feature 3, which the catalog does not have. -/
def requestSevenFeatureThree : EchoContext :=
  { userID := .str "7", paramID := "3", requestContext := [] }

/-- A stand-in for `uuid.Parse` in the concrete requests about features: it knows the
texts of the identifiers 2, 3 and 7. -/
def parseFeatureIDs (s : String) : Option UUID :=
  if s = "2" then some 2 else if s = "3" then some 3 else if s = "7" then some 7 else none

/-- A call at `noon` during which the lookup of the feature fails. -/
def envLookupFails : Env :=
  { envNoon with
    faults := { Faults.none with getFeatureByID := some (.failure "connection refused") } }


/-- The stored grants of the capability `featureID` to the actor `userID` that are
currently valid at the instant `t`. -/
def validGrants (db : DB) (userID featureID : UUID) (t : Time) : List UserFeature :=
  db.user_features.filter
    (fun g => decide (g.UserID = userID ∧ g.FeatureID = featureID ∧ currentlyValid t g))

/-- A call at the instant `t`, store and application clocks agreeing, without failures. -/
def envAt (t : Time) : Env := { envNoon with now := t, dbNow := t }


/-! ## `repository.GetProfiles`, `profileService.GetProfiles` and `Handler.GetProfiles` -/

/-- The columns that the query of `repository.GetProfiles` selects: all but
`password_hash`, which stays the zero value in the scanned `User`. -/
def profileColumns (u : User) : User := { u with PasswordHash := "" }

/-- The rows of `users` that the WHERE clause of `repository.GetProfiles` selects:
`id != $1` and `id` not among the `to_user_id` of the rows of `profile_responses` with
`from_user_id = $1`. -/
def candidateRows (db : DB) (userID : UUID) : List User :=
  db.users.filter (fun u =>
    decide (u.ID ≠ userID) &&
      !((db.profile_responses.filter (fun r => decide (r.FromUserID = userID))).map
          (fun r => r.ToUserID)).contains u.ID)

/-- `repository.GetProfiles`. `random` is the order in which `ORDER BY RANDOM()` puts
the selected rows; the store rejects a negative `LIMIT` (SQLSTATE 2201W). -/
def repository.GetProfiles (random : List User → List User) (env : Env) (userID : UUID)
    (limit : Int) (w : World) : Except GoError (List User) × World :=
  match env.faults.getProfiles with
  | some e =>
    (.error (.wrap "select candidates" (.lib e)), w.record (.getProfiles userID limit false))
  | none =>
    if limit < 0 then
      (.error (.wrap "select candidates" (.lib (.pq "2201W"))),
        w.record (.getProfiles userID limit false))
    else
      (.ok (((random (candidateRows w.db userID)).take limit.toNat).map profileColumns),
        w.record (.getProfiles userID limit true))

/-- `profileService.GetProfiles`. -/
def profileService.GetProfiles (random : List User → List User) (env : Env) (ctx : Context)
    (userID : UUID) (w : World) : Except GoError (List User) × World :=
  let unlimitedResponses := HasFeature ctx FeatureDailyResponses
  let checked : Option GoError × World :=
    if !unlimitedResponses then
      let since := Time.Truncate env.now (24 * Hour)
      match repository.GetDailyInteractionCount env userID since w with
      | (.error err, w1) => (some (.wrap "get daily interaction count" err), w1)
      | (.ok count, w1) =>
        if count ≥ 10 then (some (.sentinel .ErrDailyInteractionLimitExceeded), w1)
        else (none, w1)
    else (none, w)
  match checked with
  | (some err, w1) => (.error err, w1)
  | (none, w1) => repository.GetProfiles random env userID 1 w1

/-- Go's `err.Error()`: the text of an error. `pqText` gives the text of a `*pq.Error`
from its SQLSTATE code. -/
def GoError.Error (pqText : String → String) : GoError → String
  | .sentinel .ErrConflictingResponse => "conflicting response"
  | .sentinel .ErrDailyLimitExceeded => "daily response limit exceeded"
  | .sentinel .ErrEmailAlreadyExists => "email already exists"
  | .sentinel .ErrInvalidCredentials => "invalid credentials"
  | .sentinel .ErrDailyInteractionLimitExceeded => "daily interaction limit exceeded"
  | .sentinel .ErrFeatureNotFound => "feature not found"
  | .sentinel .ErrFeatureAlreadySubscribed => "feature already subscribed"
  | .sentinel .ErrUserNotFound => "user not found"
  | .lib (.pq code) => pqText code
  | .lib .sqlErrNoRows => "sql: no rows in result set"
  | .lib (.failure msg) => msg
  | .wrap msg inner => msg ++ ": " ++ GoError.Error pqText inner

/-- `Handler.GetProfiles`; `errorText` is `err.Error()`. -/
def Handler.GetProfiles (uuidParse : String → Option UUID) (errorText : GoError → String)
    (profileSvc : Context → UUID → World → Except GoError (List User) × World)
    (c : EchoContext) (w : World) : HandlerResult × World :=
  match c.userID with
  | .nil => (.httpError StatusBadRequest "user ID is required", w)
  | .foreign _ => (.httpError StatusBadRequest "user ID is required", w)
  | .str uid =>
    if uid = "" then (.httpError StatusBadRequest "user ID is required", w)
    else
      match uuidParse uid with
      | none => (.httpError StatusBadRequest "invalid user ID", w)
      | some userID =>
        match profileSvc c.requestContext userID w with
        | (.error err, w1) =>
          if errorsIs err (.sentinel .ErrDailyInteractionLimitExceeded) then
            (.httpError StatusTooManyRequests "daily interaction limit exceeded", w1)
          else (.httpError StatusInternalServerError (errorText err), w1)
        | (.ok profiles, w1) => (.jsonUsers StatusOK profiles, w1)

/-- The answer of `Handler.CreateProfileResponse` to the outcome of the service. -/
def responseAnswer (outcome : Option GoError × World) : HandlerResult × World :=
  match outcome with
  | (some err, w1) =>
    if errorsIs err (.sentinel .ErrDailyInteractionLimitExceeded) then
      (.httpError StatusTooManyRequests "daily interaction limit exceeded", w1)
    else if errorsIs err (.sentinel .ErrConflictingResponse) then
      (.httpError StatusConflict "you already responded to this profile", w1)
    else
      (.httpError StatusInternalServerError "failed to create response", w1)
  | (none, w1) => (.noContent StatusCreated, w1)

/-- The status code of an answer. -/
def HandlerResult.code : HandlerResult → Nat
  | .httpError code _ => code
  | .noContent code => code
  | .jsonUserFeature code _ => code
  | .jsonUser code _ => code
  | .jsonToken code _ => code
  | .jsonUsers code _ => code

/-- A row of `users` with the identifier `id`. -/
def userRow (id : UUID) : User :=
  { ID := id, Email := "", PasswordHash := "hash", Name := "", Bio := "", BirthDate := 0,
    Gender := "other", CreatedAt := 0, UpdatedAt := 0 }

/-- A store with the users 7, 8, 9 and 10, in which actor 7 has responded to 8 and user 9
has responded to actor 7. -/
def dbWithProfiles : DB :=
  { users := [userRow 7, userRow 8, userRow 9, userRow 10], subscription_features := [],
    user_features := [],
    profile_responses :=
      [{ ID := 1, FromUserID := 7, ToUserID := 8, ResponseType := "pass", CreatedAt := 0,
          UpdatedAt := 0 },
       { ID := 2, FromUserID := 9, ToUserID := 7, ResponseType := "like", CreatedAt := 0,
          UpdatedAt := 0 }] }


/-! ## `PasswordValidator`, `Handler.SignUp` and the validation of a sign-up -/

/-- Go's `regexp.MustCompile(class).MatchString(s)` for a single character class: some
character of `s` is in the class. -/
def matchesClass (inClass : Char → Bool) (s : String) : Bool := s.toList.any inClass

/-- The characters of the class `[!@#$%^&*(),.?":{}|<>]`, by their code points. -/
def specialCharacters : List Char :=
  [33, 64, 35, 36, 37, 94, 38, 42, 40, 41, 44, 46, 63, 34, 58, 123, 125, 124, 60, 62].map
    Char.ofNat

/-- `PasswordValidator` of `handler.go`, as a function of the field it validates. -/
def PasswordValidator (password : String) : Bool :=
  let hasUpper := matchesClass (fun c => decide ('A' ≤ c ∧ c ≤ 'Z')) password
  let hasLower := matchesClass (fun c => decide ('a' ≤ c ∧ c ≤ 'z')) password
  let hasNumber := matchesClass (fun c => decide ('0' ≤ c ∧ c ≤ '9')) password
  let hasSpecial := matchesClass (fun c => specialCharacters.contains c) password
  hasUpper && hasLower && hasNumber && hasSpecial

/-- `SignUpRequest` of `handler.go`. -/
structure SignUpRequest where
  Email : String
  Password : String
  PasswordConfirm : String
  Name : String
  Bio : String
  BirthDate : Time
  Gender : String
  deriving DecidableEq, Repr

/-- A `validator.FieldError`: the field and the tag of the check that failed. -/
structure FieldError where
  Field : String
  Tag : String
  deriving DecidableEq, Repr

/-- The validator of go-playground on one field: the checks of its tag run in their
order, and the first one that fails gives the one error of the field. -/
def validateField (field : String) (checks : List (String × Bool)) : List FieldError :=
  match checks.find? (fun check => !check.2) with
  | some check => [{ Field := field, Tag := check.1 }]
  | none => []

/-- The validation `c.Validate(&req)` of a `SignUpRequest` by its struct tags, field after
field: `required` fails on the zero value, `min=8` on fewer than 8 characters, `password`
is `PasswordValidator`, `eqfield=Password` compares with the password, `oneof` lists the
values. `isEmail` is the check of the tag `email`. The empty list is the nil error. -/
def validateSignUp (isEmail : String → Bool) (req : SignUpRequest) : List FieldError :=
  validateField "Email"
    [("required", decide (req.Email ≠ "")), ("email", isEmail req.Email)] ++
  validateField "Password"
    [("required", decide (req.Password ≠ "")), ("min", decide (8 ≤ req.Password.length)),
      ("password", PasswordValidator req.Password)] ++
  validateField "PasswordConfirm"
    [("required", decide (req.PasswordConfirm ≠ "")),
      ("eqfield", decide (req.PasswordConfirm = req.Password))] ++
  validateField "Name" [("required", decide (req.Name ≠ ""))] ++
  validateField "BirthDate" [("required", decide (req.BirthDate ≠ 0))] ++
  validateField "Gender"
    [("required", decide (req.Gender ≠ "")),
      ("oneof", decide (req.Gender ∈ ["male", "female", "other"]))]

/-- The text of one `validator.FieldError` of the struct `structName`. -/
def fieldErrorText (structName : String) (e : FieldError) : String :=
  let q := String.singleton (Char.ofNat 39)
  "Key: " ++ q ++ structName ++ "." ++ e.Field ++ q ++ " Error:Field validation for " ++ q ++
    e.Field ++ q ++ " failed on the " ++ q ++ e.Tag ++ q ++ " tag"

/-- The text `err.Error()` of the `validator.ValidationErrors` of the struct
`structName`: the texts of the field errors, one per line. -/
def validationErrorText (structName : String) (verr : List FieldError) : String :=
  String.intercalate "\n" (verr.map (fieldErrorText structName))

/-- The message of `Handler.SignUp` for a password that fails the tag `password`. -/
def passwordMessage : String :=
  "password must contain at least one uppercase letter, one lowercase letter, " ++
    "one number, and one special character"

/-- `Handler.SignUp`. `bind` is the outcome of `c.Bind(&req)`, `validate` is
`c.Validate(&req)`, `errorText` is `err.Error()` of the validation error, and `userSvc`
is `h.userSvc.SignUp`, which returns, with its error, the `User` behind the pointer it
was given. Logging is left out. -/
def Handler.SignUp (validate : SignUpRequest → List FieldError)
    (errorText : List FieldError → String)
    (userSvc : Context → User → String → World → Option GoError × User × World)
    (c : EchoContext) (bind : Except String SignUpRequest) (w : World) :
    HandlerResult × World :=
  match bind with
  | .error _ => (.httpError StatusBadRequest "invalid request body", w)
  | .ok req =>
    let verr := validate req
    if verr ≠ [] then
      if verr.any (fun e => e.Tag == "password") then
        (.httpError StatusBadRequest passwordMessage, w)
      else (.httpError StatusBadRequest (errorText verr), w)
    else
      let user : User :=
        { ID := 0, Email := req.Email, PasswordHash := "", Name := req.Name, Bio := req.Bio,
          BirthDate := req.BirthDate, Gender := req.Gender, CreatedAt := 0, UpdatedAt := 0 }
      match userSvc c.requestContext user req.Password w with
      | (some err, _, w1) =>
        if errorsIs err (.sentinel .ErrEmailAlreadyExists) then
          (.httpError StatusConflict "email already exists", w1)
        else (.httpError StatusInternalServerError "failed to create user", w1)
      | (none, user1, w1) => (.jsonUser StatusCreated user1, w1)

/-- A stand-in for the check of the tag `email` in the concrete requests: the text has
an at sign. -/
def hasAtSign (s : String) : Bool := s.toList.contains (Char.ofNat 64)

/-- A sign-up request with the password `password`, all other fields valid. -/
def signUpRequest (password : String) : SignUpRequest :=
  { Email := "test@example.com", Password := password, PasswordConfirm := password,
    Name := "Test User", Bio := "Test Bio", BirthDate := time.Date 1990 1 1 0 0 0 0,
    Gender := "male" }

/-- A request without an actor, as the public routes get it. -/
def publicRequest : EchoContext := { userID := .nil, paramID := "", requestContext := [] }


/-! ## `repository.GetUserByEmail`, `userService.Login` and `Handler.Login` -/

/-- `repository.GetUserByEmail`: the first row of `users` with the email; no such row is
`sql.ErrNoRows`, which the function turns into `ErrUserNotFound`. -/
def repository.GetUserByEmail (env : Env) (email : String) (w : World) :
    Except GoError User × World :=
  let found : Except LibError User :=
    match env.faults.getUserByEmail with
    | some e => .error e
    | none =>
      match w.db.users.find? (fun u => decide (u.Email = email)) with
      | some u => .ok u
      | none => .error .sqlErrNoRows
  match found with
  | .error e =>
    if errorsIs (.lib e) (.lib .sqlErrNoRows) then
      (.error (.sentinel .ErrUserNotFound), w.record (.getUserByEmail email false))
    else
      (.error (.wrap "select user" (.lib e)), w.record (.getUserByEmail email false))
  | .ok u => (.ok u, w.record (.getUserByEmail email true))

/-- `userService.Login`: the token, or the error. `CompareHashAndPassword` is the one of
bcrypt (`none` when the password matches the hash); `SignedString` signs the token with
the claims `user_id`, `email` and `exp`. -/
def userService.Login (CompareHashAndPassword : String → String → Option LibError)
    (SignedString : UUID → String → Int → Except LibError String)
    (env : Env) (email password : String) (w : World) : Except GoError String × World :=
  match repository.GetUserByEmail env email w with
  | (.error err, w1) => (.error (.wrap "get user" err), w1)
  | (.ok user, w1) =>
    match CompareHashAndPassword user.PasswordHash password with
    | some _ => (.error (.sentinel .ErrInvalidCredentials), w1)
    | none =>
      match SignedString user.ID user.Email (Time.Unix (env.now + 24 * Hour)) with
      | .error err => (.error (.wrap "sign token" (.lib err)), w1)
      | .ok signedToken => (.ok signedToken, w1)

/-- The validation `c.Validate(&req)` of a `LoginRequest` by its struct tags. -/
def validateLogin (isEmail : String → Bool) (email password : String) : List FieldError :=
  validateField "Email" [("required", decide (email ≠ "")), ("email", isEmail email)] ++
  validateField "Password" [("required", decide (password ≠ ""))]

/-- `Handler.Login`. `bind` is the outcome of `c.Bind(&req)` (the email and the password
of the request), `validate` is `c.Validate(&req)`, `errorText` is `err.Error()` of the
validation error, and `userSvc` is `h.userSvc.Login`. Logging is left out. -/
def Handler.Login (validate : String → String → List FieldError)
    (errorText : List FieldError → String)
    (userSvc : Context → String → String → World → Except GoError String × World)
    (c : EchoContext) (bind : Except String (String × String)) (w : World) :
    HandlerResult × World :=
  match bind with
  | .error _ => (.httpError StatusBadRequest "invalid request body", w)
  | .ok (email, password) =>
    let verr := validate email password
    if verr ≠ [] then (.httpError StatusBadRequest (errorText verr), w)
    else
      match userSvc c.requestContext email password w with
      | (.error err, w1) =>
        if errorsIs err (.sentinel .ErrInvalidCredentials) then
          (.httpError StatusUnauthorized "invalid credentials", w1)
        else if errorsIs err (.sentinel .ErrUserNotFound) then
          (.httpError StatusUnauthorized "invalid credentials", w1)
        else (.httpError StatusInternalServerError "failed to login", w1)
      | (.ok token, w1) => (.jsonToken StatusOK token, w1)

/-- A stand-in for bcrypt in the concrete requests: the hash of a password is the
password with a mark before it. -/
def compareStandIn (hash password : String) : Option LibError :=
  if hash = "hash:" ++ password then none else some (.failure "mismatched hash and password")

/-- A stand-in for the signature of the token in the concrete requests. -/
def signStandIn (userID : UUID) (_email : String) (_exp : Int) : Except LibError String :=
  .ok (if userID = 7 then "token-of-7" else "token")

/-- The user 7, with the email test@example.com and the password Password123!. -/
def userSeven : User :=
  { ID := 7, Email := "test@example.com", PasswordHash := "hash:Password123!", Name := "",
    Bio := "", BirthDate := 0, Gender := "other", CreatedAt := 0, UpdatedAt := 0 }

/-- A store with the one user 7. -/
def dbWithUser : DB :=
  { users := [userSeven], subscription_features := [], user_features := [],
    profile_responses := [] }


/-! ## `Seeder.seedResponses` -/

/-- Go's `append(s, values...)` when the capacity of `s` has room for the values: the
values are written into the array of `s` right after its `len` elements, in place.
`array` is that array from the first element of `s` on; the result is the array after the
call, and the returned slice is its first `len + values.length` elements. -/
def appendInPlace (array : List UUID) (len : Nat) (values : List UUID) : List UUID :=
  array.take len ++ values ++ array.drop (len + values.length)

/-- The function that `seedResponses` passes to `rand.Shuffle`:
`candidates[i], candidates[j] = candidates[j], candidates[i]`. -/
def swapElements (candidates : List UUID) (i j : Nat) : List UUID :=
  (candidates.set i (candidates.getD j 0)).set j (candidates.getD i 0)

/-- Go's `rand.Shuffle(n, swap)`: for i from n - 1 down to 1, `swap(i, j)` with a random
j between 0 and i. The first argument here is n - 1, and `pick i` is the random number
drawn for i. -/
def randShuffle (pick : Nat → Nat) (swap : List UUID → Nat → Nat → List UUID) :
    Nat → List UUID → List UUID
  | 0, a => a
  | i + 1, a => randShuffle pick swap i (swap a (i + 1) (pick (i + 1) % (i + 2)))

/-- The loop of `seedResponses` over the candidates, which fills `respondTo`; the map
`existingResponses` is the list of its keys, a key being the pair of the sender and the
receiver. -/
def chooseRespondTo (responsesPerUser : Nat) (fromUserID : UUID) :
    List UUID → List UUID → List (UUID × UUID) → List UUID × List (UUID × UUID)
  | [], respondTo, existingResponses => (respondTo, existingResponses)
  | toUserID :: rest, respondTo, existingResponses =>
    if existingResponses.contains (fromUserID, toUserID) ||
        existingResponses.contains (toUserID, fromUserID) then
      chooseRespondTo responsesPerUser fromUserID rest respondTo existingResponses
    else
      let respondTo1 := respondTo ++ [toUserID]
      let existingResponses1 := (fromUserID, toUserID) :: existingResponses
      if respondTo1.length ≥ responsesPerUser then (respondTo1, existingResponses1)
      else chooseRespondTo responsesPerUser fromUserID rest respondTo1 existingResponses1

/-- The loop of `seedResponses` over `respondTo`, which inserts the responses: the pairs
inserted, and the error of the first statement that fails, if one does. -/
def insertResponses (execFails : UUID → UUID → Option LibError) (fromUserID : UUID) :
    List UUID → List (UUID × UUID) → Option GoError × List (UUID × UUID)
  | [], rows => (none, rows)
  | toUserID :: rest, rows =>
    if toUserID = fromUserID then insertResponses execFails fromUserID rest rows
    else
      match execFails fromUserID toUserID with
      | some e => (some (.wrap "insert response" (.lib e)), rows)
      | none => insertResponses execFails fromUserID rest (rows ++ [(fromUserID, toUserID)])

/-- What one iteration of the loop of `seedResponses` over `users` works with. -/
structure SeedIteration where
  /-- The element `users[i]` that the `range` clause reads at the start of the iteration. -/
  fromUserID : UUID
  /-- The slice `candidates` after the shuffle. -/
  candidates : List UUID
  respondTo : List UUID
  deriving DecidableEq, Repr

/-- The state of the loop of `seedResponses` over `users`. -/
structure SeedState where
  /-- The elements of the array of the slice `users`. -/
  users : List UUID
  existingResponses : List (UUID × UUID)
  /-- The pairs inserted so far. -/
  rows : List (UUID × UUID)
  /-- The iterations made so far. -/
  iterations : List SeedIteration
  deriving DecidableEq, Repr

/-- The loop `for i, fromUserID := range users` of `seedResponses`, from the iteration
`i` on, `remaining` iterations being left (the length of `users` is evaluated once, the
element `users[i]` is read when the iteration `i` starts). `users[:i]` has the capacity of
`users`, so `append(users[:i], users[i+1:]...)` writes into the array of `users`.
`pick i` gives the random numbers of the shuffle of the iteration `i`. -/
def seedLoop (pick : Nat → Nat → Nat) (execFails : UUID → UUID → Option LibError) :
    Nat → Nat → SeedState → Option GoError × SeedState
  | _, 0, st => (none, st)
  | i, remaining + 1, st =>
    let fromUserID := st.users.getD i 0
    let array1 := appendInPlace st.users i (st.users.drop (i + 1))
    let len := i + (st.users.drop (i + 1)).length
    let array2 := randShuffle (pick i) swapElements (len - 1) array1
    let candidates := array2.take len
    match chooseRespondTo 20 fromUserID candidates [] st.existingResponses with
    | (respondTo, existingResponses1) =>
      match insertResponses execFails fromUserID respondTo st.rows with
      | (some err, rows1) =>
        (some err,
          { users := array2, existingResponses := existingResponses1, rows := rows1,
            iterations := st.iterations ++ [⟨fromUserID, candidates, respondTo⟩] })
      | (none, rows1) =>
        seedLoop pick execFails (i + 1) remaining
          { users := array2, existingResponses := existingResponses1, rows := rows1,
            iterations := st.iterations ++ [⟨fromUserID, candidates, respondTo⟩] }

/-- The loop of `seedResponses` over the slice `users`, from its start. -/
def seedResponsesLoop (pick : Nat → Nat → Nat) (execFails : UUID → UUID → Option LibError)
    (users : List UUID) : Option GoError × SeedState :=
  seedLoop pick execFails 0 users.length
    { users := users, existingResponses := [], rows := [], iterations := [] }

/-- The shuffle that leaves every element in its place: the random number drawn for i
is i. -/
def pickSame (_iteration i : Nat) : Nat := i

/-- The shuffle that swaps every element with the first: the random number drawn is 0. -/
def pickFirst (_iteration _i : Nat) : Nat := 0

/-- No insert fails. -/
def execSucceeds (_fromUserID _toUserID : UUID) : Option LibError := none

/-- The events are those of one transaction that holds one insert into `table` and
nothing else: `BeginTx` alone when it fails; otherwise `BeginTx`, the insert and then
`Commit` when the insert succeeded, `Rollback` when it failed (followed by the line that
logs the error of a rollback that fails). -/
def isOneInsertTx (table : String) : List Event → Bool
  | [.beginTx false] => true
  | [.beginTx true, .insert t true, .commit _] => t == table
  | [.beginTx true, .insert t false, .rollback true] => t == table
  | [.beginTx true, .insert t false, .rollback false, .logPrintf _ _] => t == table
  | _ => false

/-- A store in which actor 7 has responded to the profile 20 on the day before `noon`,
and to nobody since. -/
def dbWithEarlierResponse : DB :=
  { users := [], subscription_features := [], user_features := [],
    profile_responses :=
      [{ ID := 99, FromUserID := 7, ToUserID := 20, ResponseType := "pass",
         CreatedAt := noon - 24 * Hour, UpdatedAt := noon - 24 * Hour }] }

/-! # Verification -/

/-! ## Basic facts -/

theorem truncate_day (now : Time) : Time.Truncate now (24 * Hour) = startOfUTCDay now := by
  unfold Time.Truncate startOfUTCDay Time.utcDay Hour
  rw [if_neg (by norm_num)]
  show @Eq Int _ _
  omega

theorem count_eq_interactionsSince (db : DB) (actor : UUID) (since : Time) :
    db.profile_responses.countP
        (fun r => decide (r.FromUserID = actor) && decide (since ≤ r.CreatedAt))
      = (interactionsSince db actor since).length := by
  unfold interactionsSince
  rw [List.countP_eq_length_filter]
  congr 2
  funext r
  simp [Bool.decide_and]

/-- A context extended by `SetActiveFeatures` answers `HasFeature` as before: the
features are stored under `activeFeaturesKey{}` and read under the string key. -/
theorem HasFeature_SetActiveFeatures (ctx : Context) (features : List UserFeature)
    (featureName : String) :
    HasFeature (SetActiveFeatures ctx features) featureName = HasFeature ctx featureName := by
  simp [HasFeature, SetActiveFeatures, Context.WithValue, Context.Value]

/-! ## C1: the unlimited-interactions feature -/

/-- C1 (fails on the code): the request context built by `SetActiveFeatures` carries a
feature named daily_responses, the actor has 10 interactions today, and
`CreateProfileResponse` returns `ErrDailyInteractionLimitExceeded` all the same, without
beginning a transaction: `HasFeature` reads the string key "active_features", under which
nothing is stored. -/
theorem C1_unlimited_feature_not_honoured :
    (GetActiveFeatures ctxUnlimited).2 = true ∧
    (GetActiveFeatures ctxUnlimited).1.any
        (fun f => f.FeatureName == FeatureDailyResponses) = true ∧
    HasFeature ctxUnlimited FeatureDailyResponses = false ∧
    profileService.CreateProfileResponse pairUniqueSchema envNoon ctxUnlimited 7 42 "like"
        ⟨dbWithResponsesToday 10, []⟩
      = (some (.sentinel .ErrDailyInteractionLimitExceeded),
          ⟨dbWithResponsesToday 10,
            [.getDailyInteractionCount 7 (739000 * (24 * Hour)) true]⟩) := by
  refine ⟨by decide, by decide, by decide, ?_⟩
  decide

/-! ## The stages of a call -/

theorem CreateProfileResponse_eq (S : Schema) (env : Env) (ctx : Context)
    (fromUserID toUserID : UUID) (responseType : String) (w : World) :
    profileService.CreateProfileResponse S env ctx fromUserID toUserID responseType w =
      match profileService.checkDailyLimit env ctx fromUserID w with
      | (some err, w1) => (some err, w1)
      | (none, w1) =>
        profileService.insertInTx S env fromUserID toUserID responseType w1 := rfl

/-- The four outcomes of the check of the daily limit. -/
theorem checkDailyLimit_cases (env : Env) (ctx : Context) (fromUserID : UUID) (w : World) :
    let since := startOfUTCDay env.now
    let count := (interactionsSince w.db fromUserID since).length
    let res := profileService.checkDailyLimit env ctx fromUserID w
    (HasFeature ctx FeatureDailyResponses = true ∧ res = (none, w)) ∨
    (HasFeature ctx FeatureDailyResponses = false ∧
      ∃ e, env.faults.getDailyInteractionCount = some e ∧
        res = (some (.wrap "get daily interaction count"
                  (.wrap "get daily interaction count" (.lib e))),
                w.record (.getDailyInteractionCount fromUserID since false))) ∨
    (HasFeature ctx FeatureDailyResponses = false ∧
      env.faults.getDailyInteractionCount = none ∧ DAILY_LIMIT ≤ count ∧
        res = (some (.sentinel .ErrDailyInteractionLimitExceeded),
                w.record (.getDailyInteractionCount fromUserID since true))) ∨
    (HasFeature ctx FeatureDailyResponses = false ∧
      env.faults.getDailyInteractionCount = none ∧ count < DAILY_LIMIT ∧
        res = (none, w.record (.getDailyInteractionCount fromUserID since true))) := by
  intro since count res
  have hcount : w.db.profile_responses.countP
        (fun r => decide (r.FromUserID = fromUserID) &&
          decide (startOfUTCDay env.now ≤ r.CreatedAt))
      = count := count_eq_interactionsSince _ _ _
  simp only [res, profileService.checkDailyLimit, truncate_day,
    repository.GetDailyInteractionCount, DAILY_LIMIT]
  cases hf : HasFeature ctx FeatureDailyResponses with
  | true => simp
  | false =>
    cases hr : env.faults.getDailyInteractionCount with
    | some e => simp [since]
    | none =>
      simp only [hcount]
      by_cases h : 10 ≤ count
      · simp [h, since]
      · simp [h, since]
        omega

/-- The four outcomes of the transaction that inserts the response. -/
theorem insertInTx_cases (S : Schema) (env : Env)
    (fromUserID toUserID : UUID) (responseType : String) (w : World) :
    let res := profileService.insertInTx S env fromUserID toUserID responseType w
    (∃ e, env.faults.beginTx = some e ∧
      res = (some (.wrap "begin transaction" (.lib e)), w.record (.beginTx false))) ∨
    (env.faults.beginTx = none ∧
      ∃ e, insertOutcome S env w.db fromUserID toUserID responseType = some e ∧
        res = (some (.wrap "create profile response"
            (if isPgUniqueViolation (.lib e) then .sentinel .ErrConflictingResponse
             else .wrap "create profile response" (.lib e))),
          ⟨w.db, w.trace ++ [.beginTx true, .insert "profile_responses" false] ++
            rollbackEvents env⟩)) ∨
    (env.faults.beginTx = none ∧
      insertOutcome S env w.db fromUserID toUserID responseType = none ∧
      ∃ e, env.faults.commit = some e ∧
        res = (some (.lib e),
          ⟨w.db, w.trace ++ [.beginTx true, .insert "profile_responses" true,
            .commit false]⟩)) ∨
    (env.faults.beginTx = none ∧
      insertOutcome S env w.db fromUserID toUserID responseType = none ∧
      env.faults.commit = none ∧
      res = (none,
        ⟨w.db.withResponse (persistedRow env fromUserID toUserID responseType),
          w.trace ++ [.beginTx true, .insert "profile_responses" true, .commit true]⟩)) := by
  intro res
  simp only [res, profileService.insertInTx, repository.BeginTx, insertOutcome, persistedRow,
    repository.CreateProfileResponse, DB.withResponse, rollbackEvents]
  cases hb : env.faults.beginTx with
  | some e => simp
  | none =>
    simp only [false_and, exists_false, false_or, true_and]
    cases hi : execInsert env.faults.insert
      (S.profile_responses w.db
        (profileResponseRow env
          (newProfileResponse env fromUserID toUserID responseType))) with
    | some e =>
      simp only [Tx.Rollback]
      cases hr : env.faults.rollback <;> by_cases hu : isPgUniqueViolation (.lib e) <;>
        simp [hu, World.record]
    | none =>
      simp only [Tx.Commit]
      cases hc : env.faults.commit <;> simp [World.record]

theorem errorsIs_refl (err : GoError) : errorsIs err err = true := by
  cases err <;> simp [errorsIs]

theorem errorsIs_wrap (msg : String) (inner target : GoError)
    (h : errorsIs inner target = true) : errorsIs (.wrap msg inner) target = true := by
  simp [errorsIs, h]

/-! ## C2: the daily limit -/

/-- C2: for a context without the unlimited-interactions feature and a count read
that returns, `CreateProfileResponse` returns `ErrDailyInteractionLimitExceeded` exactly
when the actor has 10 or more interactions with `created_at` at or after the start of
the UTC day of `time.Now()`; no other error it returns is that error; and when it denies,
the count read is the only call it makes on the store: no transaction, no insert, the
store unchanged. -/
theorem C2_denied_iff_daily_count_reached (S : Schema) (env : Env) (ctx : Context)
    (fromUserID toUserID : UUID) (responseType : String) (w : World)
    (hfeature : HasFeature ctx FeatureDailyResponses = false)
    (hread : env.faults.getDailyInteractionCount = none) :
    let count := (interactionsSince w.db fromUserID (startOfUTCDay env.now)).length
    let res :=
      profileService.CreateProfileResponse S env ctx fromUserID toUserID responseType w
    (res.1 = some (.sentinel .ErrDailyInteractionLimitExceeded) ↔ DAILY_LIMIT ≤ count) ∧
    ((∃ err, res.1 = some err ∧
        errorsIs err (.sentinel .ErrDailyInteractionLimitExceeded) = true)
      ↔ DAILY_LIMIT ≤ count) ∧
    (DAILY_LIMIT ≤ count →
      res.2.db = w.db ∧
      res.2.trace = w.trace ++
        [.getDailyInteractionCount fromUserID (startOfUTCDay env.now) true]) := by
  intro count res
  have hres : res = _ := CreateProfileResponse_eq S env ctx fromUserID toUserID responseType w
  rcases checkDailyLimit_cases env ctx fromUserID w with
    ⟨hf, _⟩ | ⟨_, e, he, _⟩ | ⟨_, _, hge, hc⟩ | ⟨_, _, hlt, hc⟩
  · rw [hfeature] at hf; cases hf
  · rw [hread] at he; cases he
  · rw [hc] at hres
    have hge' : DAILY_LIMIT ≤ count := hge
    simp [hres, hge', errorsIs, World.record]
  · rw [hc] at hres
    have hlt' : ¬ DAILY_LIMIT ≤ count := Nat.not_le.mpr hlt
    simp only [hres, hlt', iff_false, not_exists, not_and, false_implies, and_true]
    rcases insertInTx_cases S env fromUserID toUserID responseType
        (w.record (.getDailyInteractionCount fromUserID (startOfUTCDay env.now) true)) with
      ⟨e, _, h⟩ | ⟨_, e, _, h⟩ | ⟨_, _, e, _, h⟩ | ⟨_, _, _, h⟩
    · simp [h, errorsIs]
    · by_cases hu : isPgUniqueViolation (.lib e) <;> simp [h, hu, errorsIs]
    · simp [h, errorsIs]
    · simp [h]

/-- C2 at a concrete input: the tenth interaction of the day is allowed, the eleventh is
denied. -/
theorem C2_denied_iff_daily_count_reached_witness :
    (profileService.CreateProfileResponse pairUniqueSchema envNoon [] 7 42 "like"
        ⟨dbWithResponsesToday 10, []⟩).1
      = some (.sentinel .ErrDailyInteractionLimitExceeded) ∧
    (profileService.CreateProfileResponse pairUniqueSchema envNoon [] 7 42 "like"
        ⟨dbWithResponsesToday 9, []⟩).1 = none := by
  have h10 := C2_denied_iff_daily_count_reached pairUniqueSchema envNoon [] 7 42 "like"
    ⟨dbWithResponsesToday 10, []⟩ (by decide) (by decide)
  exact ⟨h10.1.mpr (by decide), by decide⟩

/-! ## C4: the window of the daily count -/

/-- C4: for every instant `now`, the start of the window `now.Truncate(24h)` is a whole
multiple of 24h since the zero time, it is 00:00:00 UTC of the UTC day of `now`
(same day number, clock 0), `since <= now < since + 24h`; interactions created before
it add nothing to the daily count, and an actor all of whose interactions were created
before it has a daily count of 0. -/
theorem C4_window_starts_at_utc_midnight (now : Time) :
    let since := Time.Truncate now (24 * Hour)
    since = now.utcDay * (24 * Hour) ∧
    since.utcDay = now.utcDay ∧ since.utcClock = 0 ∧
    since ≤ now ∧ now < since + 24 * Hour ∧
    (∀ (env : Env) (actor : UUID) (db : DB) (tr : List Event) (old : List ProfileResponse),
      (∀ r ∈ old, r.CreatedAt < since) →
      (repository.GetDailyInteractionCount env actor since
          ⟨{ db with profile_responses := old ++ db.profile_responses }, tr⟩).1
        = (repository.GetDailyInteractionCount env actor since ⟨db, tr⟩).1) ∧
    ∀ (env : Env) (actor : UUID) (w : World),
      env.faults.getDailyInteractionCount = none →
      (∀ r ∈ w.db.profile_responses, r.FromUserID = actor → r.CreatedAt < since) →
      (repository.GetDailyInteractionCount env actor since w).1 = .ok 0 := by
  intro since
  have hs : since = now.utcDay * (24 * Hour) := truncate_day now
  refine ⟨hs, ?_, ?_, ?_, ?_, ?_, ?_⟩
  · rw [hs]; unfold Time.utcDay Hour; show @Eq Int _ _; omega
  · rw [hs]; unfold Time.utcClock Time.utcDay Hour; show @Eq Int _ _; omega
  · rw [hs]; unfold Time.utcDay Hour; show @LE.le Int _ _ _; omega
  · rw [hs]; unfold Time.utcDay Hour; show @LT.lt Int _ _ _; omega
  · intro env actor db tr old hold
    have hzero : old.countP
        (fun r => decide (r.FromUserID = actor) && decide (since ≤ r.CreatedAt)) = 0 := by
      rw [List.countP_eq_zero]
      intro r hr
      have := hold r hr
      simp only [Bool.and_eq_true, decide_eq_true_eq, not_and, not_le]
      exact fun _ => this
    cases hf : env.faults.getDailyInteractionCount with
    | some e => simp [repository.GetDailyInteractionCount, hf]
    | none => simp [repository.GetDailyInteractionCount, hf, List.countP_append, hzero]
  · intro env actor w hread hold
    simp only [repository.GetDailyInteractionCount, hread]
    congr 1
    rw [List.countP_eq_zero]
    intro r hr
    have := hold r hr
    simp only [Bool.and_eq_true, decide_eq_true_eq, not_and, not_le]
    exact this

/-- C4 at a concrete input: at noon, nine interactions recorded the day before count
for nothing. -/
theorem C4_window_starts_at_utc_midnight_witness :
    Time.Truncate noon (24 * Hour) = 739000 * (24 * Hour) ∧
    (repository.GetDailyInteractionCount envNoon 7 (Time.Truncate noon (24 * Hour))
        ⟨{ users := [], subscription_features := [], user_features := [],
           profile_responses := (List.range 9).map (fun i =>
             { responseToday i with CreatedAt := noon - 13 * Hour }) }, []⟩).1
      = .ok 0 :=
  ⟨by decide,
    (C4_window_starts_at_utc_midnight noon).2.2.2.2.2.2 envNoon 7 _ (by decide)
      (by decide)⟩

/-! ## C3: at most ten interactions a day -/

theorem startOfUTCDay_le_of_utcDay (t : Time) (D : Int) (h : t.utcDay = D) :
    D * (24 * Hour) ≤ t := by
  subst h
  unfold Time.utcDay Hour
  show @LE.le Int _ _ _
  omega

theorem interactionsSince_withResponse (db : DB) (actor : UUID) (since : Time)
    (row : ProfileResponse) (hfrom : row.FromUserID = actor) (hat : since ≤ row.CreatedAt) :
    (interactionsSince (db.withResponse row) actor since).length
      = (interactionsSince db actor since).length + 1 := by
  simp [interactionsSince, DB.withResponse, List.filter_append, hfrom, hat]

/-- One call of an actor without the unlimited feature, made on the UTC day `D` by both
clocks: a success needs fewer than 10 interactions today and adds one; a failure leaves
the store as it is; with 10 or more interactions today the call fails. -/
theorem call_step (S : Schema) (actor : UUID) (D : Int) (c : Call) (w : World)
    (hfeature : HasFeature c.ctx FeatureDailyResponses = false)
    (hnow : c.env.now.utcDay = D) (hdb : c.env.dbNow.utcDay = D) :
    let n := (interactionsSince w.db actor (D * (24 * Hour))).length
    let r := profileService.CreateProfileResponse S c.env c.ctx actor c.toUserID
      c.responseType w
    (r.1 = none → n < 10 ∧
      (interactionsSince r.2.db actor (D * (24 * Hour))).length = n + 1) ∧
    (r.1 ≠ none → r.2.db = w.db) ∧
    (10 ≤ n → r.1 ≠ none ∧
      (c.env.faults.getDailyInteractionCount = none →
        r.1 = some (.sentinel .ErrDailyInteractionLimitExceeded))) := by
  intro n r
  have hres : r = _ :=
    CreateProfileResponse_eq S c.env c.ctx actor c.toUserID c.responseType w
  have hsince : startOfUTCDay c.env.now = D * (24 * Hour) := by
    unfold startOfUTCDay; rw [hnow]
  have hrow := startOfUTCDay_le_of_utcDay c.env.dbNow D hdb
  rcases checkDailyLimit_cases c.env c.ctx actor w with
    ⟨hf, _⟩ | ⟨_, e, he, hc⟩ | ⟨_, hnone, hge, hc⟩ | ⟨_, _, hlt, hc⟩
  · rw [hfeature] at hf; cases hf
  · rw [hc] at hres
    simp [hres, he, World.record]
  · rw [hc] at hres
    simp [hres, World.record]
  · rw [hc] at hres
    rw [hsince] at hlt
    have hlt' : n < 10 := hlt
    have hnot : ¬ 10 ≤ n := Nat.not_le.mpr hlt'
    simp only [hnot, false_implies, and_true, hlt', true_and]
    simp only at hres
    rcases insertInTx_cases S c.env actor c.toUserID c.responseType
        (w.record (.getDailyInteractionCount actor (startOfUTCDay c.env.now) true)) with
      ⟨e, _, h⟩ | ⟨_, e, _, h⟩ | ⟨_, _, e, _, h⟩ | ⟨_, _, _, h⟩
    · rw [hres, h]; simp [World.record]
    · rw [hres, h]; simp [World.record]
    · rw [hres, h]; simp [World.record]
    · rw [hres, h]
      simp only [ne_eq, not_true_eq_false, false_implies, and_true, true_implies]
      exact interactionsSince_withResponse _ _ _ _ rfl hrow

theorem runCalls_append (S : Schema) (actor : UUID) (pre post : List Call) (w : World) :
    runCalls S actor (pre ++ post) w =
      ((runCalls S actor pre w).1 ++ (runCalls S actor post (runCalls S actor pre w).2).1,
        (runCalls S actor post (runCalls S actor pre w).2).2) := by
  induction pre generalizing w with
  | nil => simp [runCalls]
  | cons c cs ih => simp [runCalls, ih]

theorem runCalls_length (S : Schema) (actor : UUID) (calls : List Call) (w : World) :
    (runCalls S actor calls w).1.length = calls.length := by
  induction calls generalizing w with
  | nil => simp [runCalls]
  | cons c cs ih => simp [runCalls, ih]

/-- Along a run on the UTC day `D`, the number of interactions of the actor on that day
grows by the number of successes, and does not pass 10 once it is at most 10. -/
theorem runCalls_count (S : Schema) (actor : UUID) (D : Int) (calls : List Call) (w : World)
    (hcalls : ∀ c ∈ calls, HasFeature c.ctx FeatureDailyResponses = false ∧
      c.env.now.utcDay = D ∧ c.env.dbNow.utcDay = D) :
    (interactionsSince (runCalls S actor calls w).2.db actor (D * (24 * Hour))).length
      = (interactionsSince w.db actor (D * (24 * Hour))).length
        + successes (runCalls S actor calls w).1 ∧
    ((interactionsSince w.db actor (D * (24 * Hour))).length ≤ 10 →
      (interactionsSince w.db actor (D * (24 * Hour))).length
        + successes (runCalls S actor calls w).1 ≤ 10) := by
  induction calls generalizing w with
  | nil => simp [runCalls, successes]
  | cons c cs ih =>
    obtain ⟨hf, hnow, hdb⟩ := hcalls c (List.mem_cons_self _ _)
    have hrest := ih
      (profileService.CreateProfileResponse S c.env c.ctx actor c.toUserID
        c.responseType w).2
      (fun c' hc' => hcalls c' (List.mem_cons_of_mem _ hc'))
    have hstep := call_step S actor D c w hf hnow hdb
    simp only at hstep
    simp only [runCalls, successes, List.countP_cons] at hrest ⊢
    cases hr : (profileService.CreateProfileResponse S c.env c.ctx actor c.toUserID
        c.responseType w).1 with
    | none =>
      obtain ⟨hlt, hlen⟩ := hstep.1 hr
      rw [hlen] at hrest
      simp only [Option.isNone_none, if_true]
      omega
    | some e =>
      have hsame := hstep.2.1 (by rw [hr]; simp)
      rw [hsame] at hrest
      simp only [Option.isNone_some, Bool.false_eq_true, if_false]
      omega

/-- C3: in a sequential run of `CreateProfileResponse` calls by one actor without the
unlimited feature, all made on one UTC day (by the clock of the application and by the
clock of the store) that starts with no interaction of the actor, at most 10 calls
succeed; and a call made after the tenth success fails and adds no row, its error being
`ErrDailyInteractionLimitExceeded` when its count read returns. -/
theorem C3_at_most_ten_successes_a_day (S : Schema) (actor : UUID) (D : Int)
    (calls : List Call) (w0 : World)
    (hcalls : ∀ c ∈ calls, HasFeature c.ctx FeatureDailyResponses = false ∧
      c.env.now.utcDay = D ∧ c.env.dbNow.utcDay = D)
    (hstart : interactionsSince w0.db actor (D * (24 * Hour)) = []) :
    successes (runCalls S actor calls w0).1 ≤ 10 ∧
    ∀ (pre : List Call) (c : Call) (post : List Call),
      calls = pre ++ c :: post →
      10 ≤ successes (runCalls S actor pre w0).1 →
      let w1 := (runCalls S actor pre w0).2
      let r := profileService.CreateProfileResponse S c.env c.ctx actor c.toUserID
        c.responseType w1
      (runCalls S actor calls w0).1[pre.length]? = some r.1 ∧
      r.1 ≠ none ∧ r.2.db = w1.db ∧
      (c.env.faults.getDailyInteractionCount = none →
        r.1 = some (.sentinel .ErrDailyInteractionLimitExceeded)) := by
  refine ⟨?_, ?_⟩
  · have h := (runCalls_count S actor D calls w0 hcalls).2
    rw [hstart] at h
    simpa using h
  · intro pre c post hsplit hten w1 r
    have hpre : ∀ c' ∈ pre, HasFeature c'.ctx FeatureDailyResponses = false ∧
        c'.env.now.utcDay = D ∧ c'.env.dbNow.utcDay = D := by
      intro c' hc'
      exact hcalls c' (by rw [hsplit]; exact List.mem_append_left _ hc')
    obtain ⟨hf, hnow, hdb⟩ := hcalls c (by rw [hsplit]; simp)
    have hcount := (runCalls_count S actor D pre w0 hpre).1
    rw [hstart] at hcount
    simp only [List.length_nil, Nat.zero_add] at hcount
    have hstep := call_step S actor D c w1 hf hnow hdb
    simp only at hstep
    have hfull : 10 ≤ (interactionsSince w1.db actor (D * (24 * Hour))).length := by
      rw [hcount]; exact hten
    have hlen := runCalls_length S actor pre w0
    refine ⟨?_, (hstep.2.2 hfull).1, hstep.2.1 (hstep.2.2 hfull).1, (hstep.2.2 hfull).2⟩
    rw [hsplit, runCalls_append]
    simp only [runCalls]
    rw [List.getElem?_append_right (by rw [hlen])]
    simp [hlen]

/-- C3 at a concrete input: of twelve calls made at noon from an empty store, ten
succeed. -/
theorem C3_at_most_ten_successes_a_day_witness :
    successes (runCalls pairUniqueSchema 7 (callsAtNoon 12) ⟨dbWithResponsesToday 0, []⟩).1
      ≤ 10 ∧
    successes (runCalls pairUniqueSchema 7 (callsAtNoon 12) ⟨dbWithResponsesToday 0, []⟩).1
      = 10 :=
  ⟨(C3_at_most_ten_successes_a_day pairUniqueSchema 7 739000 (callsAtNoon 12)
      ⟨dbWithResponsesToday 0, []⟩ (by decide) (by decide)).1, by decide⟩

/-- The five outcomes of `SubscribeToFeature`. -/
theorem SubscribeToFeature_cases (AddDate : Time → Int → Int → Int → Time) (S : Schema)
    (env : Env) (feature : UserFeature) (period : String) (w : World) :
    let res := featureService.SubscribeToFeature AddDate S env feature period w
    let grant := grantToStore AddDate env feature period
    let found : Event := .getFeatureByID feature.FeatureID true
    (featureFound env w.db feature.FeatureID = false ∧
      res = (some (.sentinel .ErrFeatureNotFound), feature,
        ⟨w.db, w.trace ++ [.getFeatureByID feature.FeatureID false]⟩)) ∨
    (featureFound env w.db feature.FeatureID = true ∧
      ∃ e, env.faults.beginTx = some e ∧
        res = (some (.wrap "begin transaction" (.lib e)), grant,
          ⟨w.db, w.trace ++ [found, .beginTx false]⟩)) ∨
    (featureFound env w.db feature.FeatureID = true ∧ env.faults.beginTx = none ∧
      ∃ e, grantInsertOutcome AddDate S env w.db feature period = some e ∧
        res = (some (.wrap "create user feature"
            (insertError .ErrFeatureAlreadySubscribed "insert user feature" e)), grant,
          ⟨w.db, w.trace ++ [found, .beginTx true, .insert "user_features" false] ++
            rollbackEvents env⟩)) ∨
    (featureFound env w.db feature.FeatureID = true ∧ env.faults.beginTx = none ∧
      grantInsertOutcome AddDate S env w.db feature period = none ∧
      ∃ e, env.faults.commit = some e ∧
        res = (some (.lib e), grant,
          ⟨w.db, w.trace ++ [found, .beginTx true, .insert "user_features" true,
            .commit false]⟩)) ∨
    (featureFound env w.db feature.FeatureID = true ∧ env.faults.beginTx = none ∧
      grantInsertOutcome AddDate S env w.db feature period = none ∧
      env.faults.commit = none ∧
      res = (none, grant,
        ⟨{ w.db with user_features := w.db.user_features ++ [userFeatureRow env grant] },
          w.trace ++ [found, .beginTx true, .insert "user_features" true,
            .commit true]⟩)) := by
  intro res grant found
  simp only [res, grant, found, featureService.SubscribeToFeature, repository.GetFeatureByID,
    featureFound, grantInsertOutcome, grantToStore, insertError, rollbackEvents]
  cases hl : env.faults.getFeatureByID with
  | some e => simp [World.record]
  | none =>
    cases hfind : w.db.subscription_features.find? (fun f => decide (f.ID = feature.FeatureID)) with
    | none => simp [World.record]
    | some f =>
      simp only [repository.BeginTx]
      cases hb : env.faults.beginTx with
      | some e => simp [World.record]
      | none =>
        simp only [repository.CreateUserFeature, World.record]
        cases hi : execInsert env.faults.insert
          (S.user_features w.db (userFeatureRow env
            { feature with StartDate := env.now,
                           EndDate := some (AddDate env.now 0 (months period) 0) })) with
        | some e =>
          simp only [Tx.Rollback]
          cases hr : env.faults.rollback <;> by_cases hu : isPgUniqueViolation (.lib e) <;>
            simp [hu, World.record]
        | none =>
          simp only [Tx.Commit]
          cases hc : env.faults.commit <;> simp [World.record]

/-! ## C5: where the check read is made -/

/-- C5 (fails on the code): in a successful `CreateProfileResponse` the count read is the
first call on the store and `BeginTx` comes after it, and in a successful
`SubscribeToFeature` the catalog lookup comes before `BeginTx`: in both the check read is
not inside the transaction of the insert. -/
theorem C5_check_read_not_inside_tx :
    (profileService.CreateProfileResponse pairUniqueSchema envNoon [] 7 42 "like"
        ⟨dbWithResponsesToday 0, []⟩).2.trace
      = [.getDailyInteractionCount 7 (739000 * (24 * Hour)) true, .beginTx true,
          .insert "profile_responses" true, .commit true] ∧
    checksInsideTx false
      (profileService.CreateProfileResponse pairUniqueSchema envNoon [] 7 42 "like"
        ⟨dbWithResponsesToday 0, []⟩).2.trace = false ∧
    (featureService.SubscribeToFeature addDate30 pairUniqueSchema envNoon grantRequest
        "1_month" ⟨dbWithCatalog, []⟩).2.2.trace
      = [.getFeatureByID 2 true, .beginTx true, .insert "user_features" true,
          .commit true] ∧
    checksInsideTx false
      (featureService.SubscribeToFeature addDate30 pairUniqueSchema envNoon grantRequest
        "1_month" ⟨dbWithCatalog, []⟩).2.2.trace = false := by
  refine ⟨by decide, by decide, by decide, by decide⟩

/-- What the events of one transaction with one insert are for the checks of a trace:
they begin with `BeginTx`, none of them is a check read, and they end the transaction
they begin. -/
theorem isOneInsertTx_facts (table : String) (tx : List Event)
    (h : isOneInsertTx table tx = true) :
    tx ≠ [] ∧ checksBeforeTx tx = true ∧ (∀ inTx, checksInsideTx inTx tx = true) ∧
      (∃ ok rest, tx = .beginTx ok :: rest) := by
  unfold isOneInsertTx at h
  split at h
  · exact ⟨by simp, rfl, fun _ => rfl, _, _, rfl⟩
  · exact ⟨by simp, rfl, fun _ => rfl, _, _, rfl⟩
  · exact ⟨by simp, rfl, fun _ => rfl, _, _, rfl⟩
  · exact ⟨by simp, rfl, fun _ => rfl, _, _, rfl⟩
  · cases h

/-- The transaction of `CreateProfileResponse`: its events are those of one transaction
that holds the insert into `profile_responses` only, and the call returns nil exactly when
the insert succeeded and `Commit` did. -/
theorem insertInTx_transaction (S : Schema) (env : Env) (fromUserID toUserID : UUID)
    (responseType : String) (w : World) :
    ∃ tx,
      (profileService.insertInTx S env fromUserID toUserID responseType w).2.trace
        = w.trace ++ tx ∧
      isOneInsertTx "profile_responses" tx = true ∧
      ((profileService.insertInTx S env fromUserID toUserID responseType w).1 = none ↔
        tx = [.beginTx true, .insert "profile_responses" true, .commit true]) := by
  rcases insertInTx_cases S env fromUserID toUserID responseType w with
    ⟨e, _, h⟩ | ⟨_, e, _, h⟩ | ⟨_, _, e, _, h⟩ | ⟨_, _, _, h⟩
  · rw [h]
    exact ⟨[.beginTx false], rfl, rfl, by simp⟩
  · rw [h]
    refine ⟨[.beginTx true, .insert "profile_responses" false] ++ rollbackEvents env,
      by simp, ?_, ?_⟩
    · unfold rollbackEvents
      cases env.faults.rollback <;> rfl
    · unfold rollbackEvents
      cases env.faults.rollback <;> simp
  · rw [h]
    exact ⟨[.beginTx true, .insert "profile_responses" true, .commit false], by simp, rfl,
      by simp⟩
  · rw [h]
    exact ⟨[.beginTx true, .insert "profile_responses" true, .commit true], by simp, rfl,
      by simp⟩

/-- C5 as the code has it: every execution of `CreateProfileResponse` and of
`SubscribeToFeature` makes its check read first (the count read, unless `HasFeature` finds
the unlimited feature; the catalog lookup), before `BeginTx`, on the committed state and
outside the transaction. When the check does not pass (the count read fails or the count
has reached the limit; the lookup finds no feature) nothing follows. When it passes, one
transaction follows, which holds the insert only: `BeginTx`, then, if a transaction
begins, the insert, then `Commit` if the insert succeeded and `Rollback` if it failed. The
call returns nil exactly when the insert succeeded and `Commit` did. -/
theorem C5_check_read_before_begin_tx (AddDate : Time → Int → Int → Int → Time)
    (S : Schema) (env : Env) (ctx : Context) (fromUserID toUserID : UUID)
    (responseType : String) (feature : UserFeature) (period : String) (w : World) :
    (∃ checks tx,
      (profileService.CreateProfileResponse S env ctx fromUserID toUserID responseType
          w).2.trace = w.trace ++ checks ++ tx ∧
      checks = (if HasFeature ctx FeatureDailyResponses = true then []
        else [Event.getDailyInteractionCount fromUserID (startOfUTCDay env.now)
          env.faults.getDailyInteractionCount.isNone]) ∧
      (tx = [] ↔ HasFeature ctx FeatureDailyResponses = false ∧
        (env.faults.getDailyInteractionCount ≠ none ∨
          DAILY_LIMIT ≤ (interactionsSince w.db fromUserID (startOfUTCDay env.now)).length)) ∧
      (tx ≠ [] → isOneInsertTx "profile_responses" tx = true) ∧
      ((profileService.CreateProfileResponse S env ctx fromUserID toUserID responseType
          w).1 = none ↔
        tx = [.beginTx true, .insert "profile_responses" true, .commit true]) ∧
      checksBeforeTx (checks ++ tx) = true ∧
      checksInsideTx false (checks ++ tx) = HasFeature ctx FeatureDailyResponses) ∧
    (∃ tx,
      (featureService.SubscribeToFeature AddDate S env feature period w).2.2.trace
        = w.trace ++ [Event.getFeatureByID feature.FeatureID
            (featureFound env w.db feature.FeatureID)] ++ tx ∧
      (tx = [] ↔ featureFound env w.db feature.FeatureID = false) ∧
      (tx ≠ [] → isOneInsertTx "user_features" tx = true) ∧
      ((featureService.SubscribeToFeature AddDate S env feature period w).1 = none ↔
        tx = [.beginTx true, .insert "user_features" true, .commit true]) ∧
      checksBeforeTx ([Event.getFeatureByID feature.FeatureID
          (featureFound env w.db feature.FeatureID)] ++ tx) = true ∧
      checksInsideTx false ([Event.getFeatureByID feature.FeatureID
          (featureFound env w.db feature.FeatureID)] ++ tx) = false) := by
  constructor
  · rw [CreateProfileResponse_eq]
    rcases checkDailyLimit_cases env ctx fromUserID w with
      ⟨hf, hc⟩ | ⟨hf, e, he, hc⟩ | ⟨hf, hr, hge, hc⟩ | ⟨hf, hr, hlt, hc⟩
    · rw [hc]
      simp only
      obtain ⟨tx, htrace, hone, hnone⟩ :=
        insertInTx_transaction S env fromUserID toUserID responseType w
      obtain ⟨hne, hbefore, hinside, _⟩ := isOneInsertTx_facts _ tx hone
      refine ⟨[], tx, by rw [htrace]; simp, by rw [if_pos hf], ?_, fun _ => hone, hnone,
        by simpa using hbefore, ?_⟩
      · simp [hne, hf]
      · rw [hf]
        simpa using hinside false
    · rw [hc]
      simp only
      refine ⟨[.getDailyInteractionCount fromUserID (startOfUTCDay env.now) false], [],
        by simp [World.record], by simp [hf, he], ?_, by simp, by simp, rfl,
        by rw [hf]; rfl⟩
      simp [hf, he]
    · rw [hc]
      simp only
      refine ⟨[.getDailyInteractionCount fromUserID (startOfUTCDay env.now) true], [],
        by simp [World.record], by simp [hf, hr], ?_, by simp, by simp, rfl,
        by rw [hf]; rfl⟩
      simp [hf, hge]
    · rw [hc]
      simp only
      obtain ⟨tx, htrace, hone, hnone⟩ :=
        insertInTx_transaction S env fromUserID toUserID responseType
          (w.record (.getDailyInteractionCount fromUserID (startOfUTCDay env.now) true))
      obtain ⟨hne, hbefore, hinside, ok, rest, hshape⟩ := isOneInsertTx_facts _ tx hone
      refine ⟨[.getDailyInteractionCount fromUserID (startOfUTCDay env.now) true], tx,
        by rw [htrace]; simp [World.record], by simp [hf, hr], ?_, fun _ => hone, hnone,
        ?_, ?_⟩
      · simp [hne, hf, hr, Nat.not_le.mpr hlt]
      · show checksBeforeTx tx = true
        exact hbefore
      · rw [hf, hshape]
        rfl
  · rcases SubscribeToFeature_cases AddDate S env feature period w with
      ⟨hn, h⟩ | ⟨hf, e, _, h⟩ | ⟨hf, _, e, _, h⟩ | ⟨hf, _, _, e, _, h⟩ | ⟨hf, _, _, _, h⟩
    · rw [h, hn]
      exact ⟨[], by simp, by simp, by simp, by simp, rfl, rfl⟩
    · rw [h, hf]
      exact ⟨[.beginTx false], by simp, by simp, fun _ => rfl, by simp, rfl, rfl⟩
    · rw [h, hf]
      refine ⟨[.beginTx true, .insert "user_features" false] ++ rollbackEvents env,
        by simp, by simp, fun _ => ?_, ?_, ?_, ?_⟩ <;>
      · unfold rollbackEvents
        cases env.faults.rollback <;> simp [isOneInsertTx, checksBeforeTx, checksInsideTx,
          Event.isTxEvent, Event.isCheckRead]
    · rw [h, hf]
      exact ⟨[.beginTx true, .insert "user_features" true, .commit false], by simp, by simp,
        fun _ => rfl, by simp, rfl, rfl⟩
    · rw [h, hf]
      exact ⟨[.beginTx true, .insert "user_features" true, .commit true], by simp, by simp,
        fun _ => rfl, by simp, rfl, rfl⟩

/-! ## C7: a unique violation is a conflict -/

theorem checkDailyLimit_underQuota (env : Env) (ctx : Context) (actor : UUID) (w : World)
    (h : underQuota env ctx actor w.db) :
    ∃ evs, profileService.checkDailyLimit env ctx actor w = (none, ⟨w.db, w.trace ++ evs⟩) := by
  rcases checkDailyLimit_cases env ctx actor w with
    ⟨_, hc⟩ | ⟨hf, e, he, _⟩ | ⟨hf, _, hge, _⟩ | ⟨_, _, _, hc⟩
  · exact ⟨[], by rw [hc]; simp⟩
  · rcases h with h | ⟨h, _⟩
    · rw [hf] at h; cases h
    · rw [he] at h; cases h
  · rcases h with h | ⟨_, h⟩
    · rw [hf] at h; cases h
    · exact absurd hge (Nat.not_le.mpr h)
  · exact ⟨_, by rw [hc]; rfl⟩

/-- A call under quota whose transaction begins and whose insert the store rejects with
a unique violation returns the wrapped `ErrConflictingResponse` and persists nothing. -/
theorem CreateProfileResponse_of_violation (S : Schema) (env : Env) (ctx : Context)
    (fromUserID toUserID : UUID) (responseType : String) (w : World)
    (hquota : underQuota env ctx fromUserID w.db)
    (hbegin : env.faults.beginTx = none)
    (hviolation :
      insertOutcome S env w.db fromUserID toUserID responseType = some (.pq "23505")) :
    ∃ evs, profileService.CreateProfileResponse S env ctx fromUserID toUserID
      responseType w
      = (some (.wrap "create profile response" (.sentinel .ErrConflictingResponse)),
          ⟨w.db, w.trace ++ evs ++ [.beginTx true, .insert "profile_responses" false] ++
            rollbackEvents env⟩) := by
  obtain ⟨evs, hcheck⟩ := checkDailyLimit_underQuota env ctx fromUserID w hquota
  refine ⟨evs, ?_⟩
  rw [CreateProfileResponse_eq, hcheck]
  simp only
  rcases insertInTx_cases S env fromUserID toUserID responseType
      ⟨w.db, w.trace ++ evs⟩ with
    ⟨e, he, _⟩ | ⟨_, e, he, h⟩ | ⟨_, he, _⟩ | ⟨_, he, _⟩
  · rw [hbegin] at he; cases he
  · rw [hviolation] at he
    cases he
    rw [h]
    simp [isPgUniqueViolation, errorsAsPq]
  · rw [hviolation] at he; cases he
  · rw [hviolation] at he; cases he

/-- A call under quota whose transaction begins, whose insert the store accepts and
whose commit returns, returns `nil` and persists the row. -/
theorem CreateProfileResponse_of_accepted (S : Schema) (env : Env) (ctx : Context)
    (fromUserID toUserID : UUID) (responseType : String) (w : World)
    (hquota : underQuota env ctx fromUserID w.db)
    (hbegin : env.faults.beginTx = none) (hcommit : env.faults.commit = none)
    (haccepted : insertOutcome S env w.db fromUserID toUserID responseType = none) :
    ∃ evs, profileService.CreateProfileResponse S env ctx fromUserID toUserID
      responseType w
      = (none, ⟨w.db.withResponse (persistedRow env fromUserID toUserID responseType),
          w.trace ++ evs ++ [.beginTx true, .insert "profile_responses" true,
            .commit true]⟩) := by
  obtain ⟨evs, hcheck⟩ := checkDailyLimit_underQuota env ctx fromUserID w hquota
  refine ⟨evs, ?_⟩
  rw [CreateProfileResponse_eq, hcheck]
  simp only
  rcases insertInTx_cases S env fromUserID toUserID responseType
      ⟨w.db, w.trace ++ evs⟩ with
    ⟨e, he, _⟩ | ⟨_, e, he, _⟩ | ⟨_, _, e, he, _⟩ | ⟨_, _, _, h⟩
  · rw [hbegin] at he; cases he
  · rw [haccepted] at he; cases he
  · rw [hcommit] at he; cases he
  · exact h

/-- C7: when the call is under quota, the transaction begins and the store rejects the
insert with a unique violation (SQLSTATE 23505), `repository.CreateProfileResponse`
returns `ErrConflictingResponse`, the error of `profileService.CreateProfileResponse`
satisfies `errors.Is(err, ErrConflictingResponse)` and is not the daily-limit error,
nothing is persisted, and the handler of a well-formed request answers 409 with the
message of the conflict, not 500. -/
theorem C7_unique_violation_answers_conflict (S : Schema) (env : Env) (ctx : Context)
    (fromUserID toUserID : UUID) (responseType : String) (w : World)
    (hquota : underQuota env ctx fromUserID w.db)
    (hbegin : env.faults.beginTx = none)
    (hviolation :
      insertOutcome S env w.db fromUserID toUserID responseType = some (.pq "23505")) :
    (∀ w1 : World,
      (repository.CreateProfileResponse S env ⟨w.db⟩
          (newProfileResponse env fromUserID toUserID responseType) w1).1
        = some (.sentinel .ErrConflictingResponse)) ∧
    (∃ err,
      (profileService.CreateProfileResponse S env ctx fromUserID toUserID responseType w).1
        = some err ∧
      errorsIs err (.sentinel .ErrConflictingResponse) = true ∧
      errorsIs err (.sentinel .ErrDailyInteractionLimitExceeded) = false) ∧
    (profileService.CreateProfileResponse S env ctx fromUserID toUserID responseType w).2.db
      = w.db ∧
    ∀ (uuidParse : String → Option UUID) (validate : String → Option String)
      (c : EchoContext) (uid : String),
      c.userID = .str uid → uid ≠ "" → uuidParse uid = some fromUserID →
      uuidParse c.paramID = some toUserID → validate responseType = none →
      c.requestContext = ctx →
      (Handler.CreateProfileResponse uuidParse validate
          (profileService.CreateProfileResponse S env) c (.ok responseType) w).1
        = .httpError StatusConflict "you already responded to this profile" := by
  have hrepo : ∀ w1 : World,
      (repository.CreateProfileResponse S env ⟨w.db⟩
          (newProfileResponse env fromUserID toUserID responseType) w1).1
        = some (.sentinel .ErrConflictingResponse) := by
    intro w1
    have hv : execInsert env.faults.insert (S.profile_responses w.db
        (profileResponseRow env (newProfileResponse env fromUserID toUserID responseType)))
        = some (.pq "23505") := hviolation
    simp [repository.CreateProfileResponse, hv, isPgUniqueViolation, errorsAsPq]
  obtain ⟨evs, hsvc⟩ := CreateProfileResponse_of_violation S env ctx fromUserID toUserID
    responseType w hquota hbegin hviolation
  refine ⟨hrepo, ⟨_, by rw [hsvc], by decide, by decide⟩, by rw [hsvc], ?_⟩
  intro uuidParse validate c uid huid hne hfrom hto hvalid hctx
  simp [Handler.CreateProfileResponse, huid, hne, hfrom, hto, hvalid, hctx, hsvc, errorsIs]

/-- C7 at a concrete input: actor 7 responds a second time to the profile 20. -/
theorem C7_unique_violation_answers_conflict_witness :
    (Handler.CreateProfileResponse parseKnown validateLikePass
        (profileService.CreateProfileResponse pairUniqueSchema envNoon) requestSevenToTwenty
        (.ok "like") ⟨dbWithResponsesToday 1, []⟩).1
      = .httpError 409 "you already responded to this profile" :=
  (C7_unique_violation_answers_conflict pairUniqueSchema envNoon [] 7 20 "like"
      ⟨dbWithResponsesToday 1, []⟩ (by decide) (by decide) (by decide)).2.2.2
    parseKnown validateLikePass requestSevenToTwenty "7" (by decide) (by decide)
    (by decide) (by decide) (by decide) (by decide)

/-! ## C8: one interaction for an ordered pair -/

theorem insertOutcome_pairUnique (env : Env) (db : DB) (a b : UUID) (kind : String)
    (hinsert : env.faults.insert = none) :
    insertOutcome pairUniqueSchema env db a b kind
      = if pairRows db a b = [] then none else some (.pq "23505") := by
  simp only [insertOutcome, hinsert, execInsert, pairUniqueSchema, persistedRow,
    profileResponseRow, newProfileResponse, pairRows]
  simp only [List.any_eq_true, decide_eq_true_eq, List.filter_eq_nil_iff]
  split_ifs with h1 h2
  · obtain ⟨x, hx, h3⟩ := h1
    exact absurd h3 (by simpa using h2 x hx)
  · rfl
  · rfl
  · exfalso
    apply ‹¬ ∀ r ∈ db.profile_responses, _›
    intro x hx h3
    exact h1 ⟨x, hx, by simpa using h3⟩

theorem pairRows_withResponse (db : DB) (a b : UUID) (row : ProfileResponse) :
    pairRows (db.withResponse row) a b
      = pairRows db a b ++ (if row.FromUserID = a ∧ row.ToUserID = b then [row] else []) := by
  by_cases h : row.FromUserID = a ∧ row.ToUserID = b
  · simp [pairRows, DB.withResponse, List.filter_append, h]
  · simp only [pairRows, DB.withResponse, List.filter_append, h, if_false]
    simp [h]

/-- C8 (fails on the code as modelled): for A = B the call for (B, A) is the call for
(A, B) a third time; after one success and one conflict it is rejected as a conflict as
well. -/
theorem C8_self_pair_reverse_call_conflicts :
    let w0 : World := ⟨dbWithResponsesToday 0, []⟩
    let r1 := profileService.CreateProfileResponse pairUniqueSchema (envNoonWith 900) [] 7 7
      "like" w0
    let r2 := profileService.CreateProfileResponse pairUniqueSchema (envNoonWith 901) [] 7 7
      "pass" r1.2
    let r3 := profileService.CreateProfileResponse pairUniqueSchema (envNoonWith 902) [] 7 7
      "like" r2.2
    underQuota (envNoonWith 900) [] 7 w0.db ∧ underQuota (envNoonWith 901) [] 7 r1.2.db ∧
    underQuota (envNoonWith 902) [] 7 r2.2.db ∧
    r1.1 = none ∧
    r2.1 = some (.wrap "create profile response" (.sentinel .ErrConflictingResponse)) ∧
    r3.1 = some (.wrap "create profile response" (.sentinel .ErrConflictingResponse)) ∧
    r3.1 ≠ none := by
  decide

/-- C8 as the code has it, the store rejecting a repeated ordered pair: for distinct
actors A and B with no interaction between them yet, any kinds, and calls that are under
quota and meet no infrastructure failure, the first call for (A, B) succeeds, the second
returns an error that is `ErrConflictingResponse`, the store then holds exactly one
interaction from A to B, and the call for (B, A) that follows succeeds and leaves that
one interaction from A to B. -/
theorem C8_pair_recorded_once (A B : UUID) (kind1 kind2 kind3 : String)
    (env1 env2 env3 : Env) (ctx1 ctx2 ctx3 : Context) (w0 : World)
    (hAB : A ≠ B)
    (hfaults : env1.faults = Faults.none ∧ env2.faults = Faults.none ∧
      env3.faults = Faults.none)
    (hfresh : pairRows w0.db A B = [] ∧ pairRows w0.db B A = [])
    (hquota1 : underQuota env1 ctx1 A w0.db)
    (hquota2 : underQuota env2 ctx2 A
      (profileService.CreateProfileResponse pairUniqueSchema env1 ctx1 A B kind1 w0).2.db)
    (hquota3 : underQuota env3 ctx3 B
      (profileService.CreateProfileResponse pairUniqueSchema env2 ctx2 A B kind2
        (profileService.CreateProfileResponse pairUniqueSchema env1 ctx1 A B kind1
          w0).2).2.db) :
    let r1 := profileService.CreateProfileResponse pairUniqueSchema env1 ctx1 A B kind1 w0
    let r2 := profileService.CreateProfileResponse pairUniqueSchema env2 ctx2 A B kind2 r1.2
    let r3 := profileService.CreateProfileResponse pairUniqueSchema env3 ctx3 B A kind3 r2.2
    r1.1 = none ∧
    (∃ err, r2.1 = some err ∧ errorsIs err (.sentinel .ErrConflictingResponse) = true) ∧
    (pairRows r2.2.db A B).length = 1 ∧
    r3.1 = none ∧
    (pairRows r3.2.db A B).length = 1 := by
  intro r1 r2 r3
  obtain ⟨hf1, hf2, hf3⟩ := hfaults
  obtain ⟨hAB0, hBA0⟩ := hfresh
  have hnone : ∀ env : Env, env.faults = Faults.none →
      env.faults.beginTx = none ∧ env.faults.commit = none ∧ env.faults.insert = none := by
    intro env h
    rw [h]
    exact ⟨rfl, rfl, rfl⟩
  obtain ⟨hb1, hc1, hi1⟩ := hnone env1 hf1
  obtain ⟨hb2, _, hi2⟩ := hnone env2 hf2
  obtain ⟨hb3, hc3, hi3⟩ := hnone env3 hf3
  -- the first call
  obtain ⟨evs1, h1⟩ := CreateProfileResponse_of_accepted pairUniqueSchema env1 ctx1 A B kind1
    w0 hquota1 hb1 hc1 (by rw [insertOutcome_pairUnique _ _ _ _ _ hi1, if_pos hAB0])
  have hr1 : r1 = _ := h1
  have hrows1 : pairRows r1.2.db A B = [persistedRow env1 A B kind1] := by
    rw [hr1]
    simp only
    rw [pairRows_withResponse, hAB0]
    simp [persistedRow, profileResponseRow, newProfileResponse]
  have hrev1 : pairRows r1.2.db B A = [] := by
    rw [hr1]
    simp only
    rw [pairRows_withResponse, hBA0]
    have : ¬ ((persistedRow env1 A B kind1).FromUserID = B ∧
        (persistedRow env1 A B kind1).ToUserID = A) := by
      simp [persistedRow, profileResponseRow, newProfileResponse, hAB]
    simp [this]
  -- the second call
  obtain ⟨evs2, h2⟩ := CreateProfileResponse_of_violation pairUniqueSchema env2 ctx2 A B kind2
    r1.2 hquota2 hb2 (by rw [insertOutcome_pairUnique _ _ _ _ _ hi2, hrows1]; simp)
  have hr2 : r2 = _ := h2
  have hdb2 : r2.2.db = r1.2.db := by rw [hr2]
  -- the call for the reverse pair
  have hquota3' : underQuota env3 ctx3 B r2.2.db := hquota3
  obtain ⟨evs3, h3⟩ := CreateProfileResponse_of_accepted pairUniqueSchema env3 ctx3 B A kind3
    r2.2 hquota3' hb3 hc3
    (by rw [insertOutcome_pairUnique _ _ _ _ _ hi3, hdb2, if_pos hrev1])
  have hr3 : r3 = _ := h3
  refine ⟨by rw [hr1], ⟨_, by rw [hr2], by decide⟩, by rw [hdb2, hrows1]; rfl, by rw [hr3], ?_⟩
  rw [hr3]
  simp only
  rw [pairRows_withResponse, hdb2, hrows1]
  have : ¬ ((persistedRow env3 B A kind3).FromUserID = A ∧
      (persistedRow env3 B A kind3).ToUserID = B) := by
    simp [persistedRow, profileResponseRow, newProfileResponse, Ne.symm hAB]
  simp [this]

/-- C8 at a concrete input: actor 7 responds twice to the profile 42, then 42 responds
to 7. -/
theorem C8_pair_recorded_once_witness :
    (profileService.CreateProfileResponse pairUniqueSchema (envNoonWith 900) [] 7 42 "like"
        ⟨dbWithResponsesToday 0, []⟩).1 = none ∧
    (pairRows
      (profileService.CreateProfileResponse pairUniqueSchema (envNoonWith 902) [] 42 7 "like"
        (profileService.CreateProfileResponse pairUniqueSchema (envNoonWith 901) [] 7 42
          "pass"
          (profileService.CreateProfileResponse pairUniqueSchema (envNoonWith 900) [] 7 42
            "like" ⟨dbWithResponsesToday 0, []⟩).2).2).2.db 7 42).length = 1 :=
  have h := C8_pair_recorded_once 7 42 "like" "pass" "like" (envNoonWith 900)
    (envNoonWith 901) (envNoonWith 902) [] [] [] ⟨dbWithResponsesToday 0, []⟩
    (by decide) (by decide) (by decide) (by decide) (by decide) (by decide)
  ⟨h.1, h.2.2.2.2⟩

/-! ## C9: all or nothing -/

/-- C9: a call of `CreateProfileResponse` either returns `nil`, after `BeginTx`, a
successful insert and a successful `Commit`, and adds exactly the one row; or it returns
an error, commits nothing and leaves the store as it was. `Commit` is called only right
after a successful insert; when the quota is denied, the count read fails, `BeginTx`
fails or the insert fails, `Commit` is not called at all. -/
theorem C9_one_row_or_none (S : Schema) (env : Env) (ctx : Context)
    (fromUserID toUserID : UUID) (responseType : String) (w : World) :
    let res :=
      profileService.CreateProfileResponse S env ctx fromUserID toUserID responseType w
    ∃ evs, res.2.trace = w.trace ++ evs ∧
      ((res.1 = none ∧
          res.2.db = w.db.withResponse (persistedRow env fromUserID toUserID responseType) ∧
          ∃ pre, evs = pre ++
            [.beginTx true, .insert "profile_responses" true, .commit true]) ∨
        (res.1 ≠ none ∧ res.2.db = w.db ∧ Event.commit true ∉ evs)) ∧
      (∀ ok, Event.commit ok ∈ evs →
        ∃ pre, evs = pre ++ [.beginTx true, .insert "profile_responses" true, .commit ok]) ∧
      ((res.1 = some (.sentinel .ErrDailyInteractionLimitExceeded) ∨
          Event.getDailyInteractionCount fromUserID (startOfUTCDay env.now) false ∈ evs ∨
          Event.beginTx false ∈ evs ∨ Event.insert "profile_responses" false ∈ evs) →
        ∀ ok, Event.commit ok ∉ evs) := by
  intro res
  have hres : res = _ := CreateProfileResponse_eq S env ctx fromUserID toUserID responseType w
  have hrb : ∀ ok, Event.commit ok ∉ rollbackEvents env := by
    intro ok
    unfold rollbackEvents
    cases env.faults.rollback <;> simp
  rcases checkDailyLimit_cases env ctx fromUserID w with
    ⟨_, hc⟩ | ⟨_, e, _, hc⟩ | ⟨_, _, _, hc⟩ | ⟨_, _, _, hc⟩
  · rw [hc] at hres
    simp only at hres
    rcases insertInTx_cases S env fromUserID toUserID responseType w with
      ⟨e, _, h⟩ | ⟨_, e, _, h⟩ | ⟨_, _, e, _, h⟩ | ⟨_, _, _, h⟩
    · rw [h] at hres
      refine ⟨[.beginTx false], by rw [hres]; rfl, Or.inr ⟨by rw [hres]; simp,
        by rw [hres]; rfl, by simp⟩, by simp, by simp⟩
    · rw [h] at hres
      refine ⟨[.beginTx true, .insert "profile_responses" false] ++ rollbackEvents env,
        by rw [hres]; simp, Or.inr ⟨by rw [hres]; simp, by rw [hres], ?_⟩, ?_, ?_⟩
      · simpa using hrb true
      · intro ok hok
        exact absurd hok (by simpa using hrb ok)
      · intro _ ok
        simpa using hrb ok
    · rw [h] at hres
      refine ⟨[.beginTx true, .insert "profile_responses" true, .commit false],
        by rw [hres], Or.inr ⟨by rw [hres]; simp, by rw [hres], by simp⟩, ?_, ?_⟩
      · intro ok hok
        have : ok = false := by simpa using hok
        subst this
        exact ⟨[], rfl⟩
      · rw [hres]
        simp
    · rw [h] at hres
      refine ⟨[.beginTx true, .insert "profile_responses" true, .commit true],
        by rw [hres], Or.inl ⟨by rw [hres], by rw [hres], [], rfl⟩, ?_, ?_⟩
      · intro ok hok
        have : ok = true := by simpa using hok
        subst this
        exact ⟨[], rfl⟩
      · rw [hres]
        simp
  · rw [hc] at hres
    refine ⟨[.getDailyInteractionCount fromUserID (startOfUTCDay env.now) false],
      by rw [hres]; rfl, Or.inr ⟨by rw [hres]; simp, by rw [hres]; rfl, by simp⟩,
      by simp, by simp⟩
  · rw [hc] at hres
    refine ⟨[.getDailyInteractionCount fromUserID (startOfUTCDay env.now) true],
      by rw [hres]; rfl, Or.inr ⟨by rw [hres]; simp, by rw [hres]; rfl, by simp⟩,
      by simp, by simp⟩
  · rw [hc] at hres
    simp only at hres
    rcases insertInTx_cases S env fromUserID toUserID responseType
        (w.record (.getDailyInteractionCount fromUserID (startOfUTCDay env.now) true)) with
      ⟨e, _, h⟩ | ⟨_, e, _, h⟩ | ⟨_, _, e, _, h⟩ | ⟨_, _, _, h⟩
    · rw [h] at hres
      refine ⟨[.getDailyInteractionCount fromUserID (startOfUTCDay env.now) true,
          .beginTx false], by rw [hres]; simp [World.record],
        Or.inr ⟨by rw [hres]; simp, by rw [hres]; rfl, by simp⟩, by simp, by simp⟩
    · rw [h] at hres
      refine ⟨.getDailyInteractionCount fromUserID (startOfUTCDay env.now) true ::
          ([.beginTx true, .insert "profile_responses" false] ++ rollbackEvents env),
        by rw [hres]; simp [World.record],
        Or.inr ⟨by rw [hres]; simp, by rw [hres]; rfl, ?_⟩, ?_, ?_⟩
      · simpa using hrb true
      · intro ok hok
        exact absurd hok (by simpa using hrb ok)
      · intro _ ok
        simpa using hrb ok
    · rw [h] at hres
      refine ⟨[.getDailyInteractionCount fromUserID (startOfUTCDay env.now) true,
          .beginTx true, .insert "profile_responses" true, .commit false],
        by rw [hres]; simp [World.record],
        Or.inr ⟨by rw [hres]; simp, by rw [hres]; rfl, by simp⟩, ?_, ?_⟩
      · intro ok hok
        have : ok = false := by simpa using hok
        subst this
        exact ⟨[_], rfl⟩
      · rw [hres]
        simp
    · rw [h] at hres
      refine ⟨[.getDailyInteractionCount fromUserID (startOfUTCDay env.now) true,
          .beginTx true, .insert "profile_responses" true, .commit true],
        by rw [hres]; simp [World.record],
        Or.inl ⟨by rw [hres], by rw [hres]; rfl, [_], rfl⟩, ?_, ?_⟩
      · intro ok hok
        have : ok = true := by simpa using hok
        subst this
        exact ⟨[_], rfl⟩
      · rw [hres]
        simp

/-- C9 at a concrete input: the eleventh call of the day fails and leaves the store as it
was. -/
theorem C9_one_row_or_none_witness :
    (profileService.CreateProfileResponse pairUniqueSchema envNoon [] 7 42 "like"
        ⟨dbWithResponsesToday 10, []⟩).2.db = dbWithResponsesToday 10 := by
  obtain ⟨evs, _, h | h, _, _⟩ := C9_one_row_or_none pairUniqueSchema envNoon [] 7 42 "like"
    ⟨dbWithResponsesToday 10, []⟩
  · exact absurd h.1 (by decide)
  · exact h.2.1

/-! ## C10: a failed rollback does not replace the error of the insert -/

/-- The outcome of `SignUp` when the insert fails. -/
theorem SignUp_of_insert_failure (GenerateFromPassword : String → Except LibError String)
    (S : Schema) (env : Env) (user : User) (password hashed : String) (w : World)
    (e : LibError)
    (hhash : GenerateFromPassword password = .ok hashed)
    (hbegin : env.faults.beginTx = none)
    (hinsert : userInsertOutcome S env w.db user hashed = some e) :
    userService.SignUp GenerateFromPassword S env user password w
      = (some (.wrap "create user" (insertError .ErrEmailAlreadyExists "insert user" e)),
          userToStore env user hashed,
          ⟨w.db, w.trace ++ [.beginTx true, .insert "users" false] ++ rollbackEvents env⟩) ∧
    ∀ w1 : World,
      (repository.CreateUser S env ⟨w.db⟩ (userToStore env user hashed) w1).1
        = .error (insertError .ErrEmailAlreadyExists "insert user" e) := by
  have hi : execInsert env.faults.insert
      (S.users w.db { userToStore env user hashed with ID := env.dbNewID }) = some e := hinsert
  simp only [userToStore] at hi
  constructor
  · simp only [userService.SignUp, hhash, repository.BeginTx, hbegin, repository.CreateUser,
      hi, insertError, rollbackEvents, userToStore, Tx.Rollback]
    cases hr : env.faults.rollback <;> by_cases hu : isPgUniqueViolation (.lib e) <;>
      simp [hu, World.record]
  · intro w1
    simp only [repository.CreateUser, userToStore, hi, insertError]
    by_cases hu : isPgUniqueViolation (.lib e) <;> simp [hu]

theorem mem_rollbackEvents (env : Env) (r : LibError) (h : env.faults.rollback = some r) :
    Event.logPrintf "failed to rollback transaction" (.lib r) ∈ rollbackEvents env := by
  simp [rollbackEvents, h]

/-- C10: when the insert fails and the rollback that follows fails too,
`CreateProfileResponse`, `SubscribeToFeature` and `SignUp` each return the error that the
repository insert returned, wrapped (so `errors.Is` against it holds), never the error
of the rollback, which is logged; nothing is persisted. -/
theorem C10_insert_error_survives_failed_rollback
    (AddDate : Time → Int → Int → Int → Time)
    (GenerateFromPassword : String → Except LibError String)
    (S : Schema) (env : Env) (e r : LibError) (w : World)
    (hbegin : env.faults.beginTx = none)
    (hrollback : env.faults.rollback = some r) :
    (∀ (ctx : Context) (fromUserID toUserID : UUID) (responseType : String),
      underQuota env ctx fromUserID w.db →
      insertOutcome S env w.db fromUserID toUserID responseType = some e →
      let repoErr := insertError .ErrConflictingResponse "create profile response" e
      let res :=
        profileService.CreateProfileResponse S env ctx fromUserID toUserID responseType w
      (∀ w1 : World, (repository.CreateProfileResponse S env ⟨w.db⟩
          (newProfileResponse env fromUserID toUserID responseType) w1).1 = some repoErr) ∧
      res.1 = some (.wrap "create profile response" repoErr) ∧
      errorsIs (.wrap "create profile response" repoErr) repoErr = true ∧
      res.1 ≠ some (.lib r) ∧
      Event.logPrintf "failed to rollback transaction" (.lib r) ∈ res.2.trace ∧
      res.2.db = w.db) ∧
    (∀ (feature : UserFeature) (period : String),
      featureFound env w.db feature.FeatureID = true →
      grantInsertOutcome AddDate S env w.db feature period = some e →
      let repoErr := insertError .ErrFeatureAlreadySubscribed "insert user feature" e
      let res := featureService.SubscribeToFeature AddDate S env feature period w
      (∀ w1 : World, (repository.CreateUserFeature S env ⟨w.db⟩
          (grantToStore AddDate env feature period) w1).1 = some repoErr) ∧
      res.1 = some (.wrap "create user feature" repoErr) ∧
      errorsIs (.wrap "create user feature" repoErr) repoErr = true ∧
      res.1 ≠ some (.lib r) ∧
      Event.logPrintf "failed to rollback transaction" (.lib r) ∈ res.2.2.trace ∧
      res.2.2.db = w.db) ∧
    (∀ (user : User) (password hashed : String),
      GenerateFromPassword password = .ok hashed →
      userInsertOutcome S env w.db user hashed = some e →
      let repoErr := insertError .ErrEmailAlreadyExists "insert user" e
      let res := userService.SignUp GenerateFromPassword S env user password w
      (∀ w1 : World, (repository.CreateUser S env ⟨w.db⟩ (userToStore env user hashed)
          w1).1 = .error repoErr) ∧
      res.1 = some (.wrap "create user" repoErr) ∧
      errorsIs (.wrap "create user" repoErr) repoErr = true ∧
      res.1 ≠ some (.lib r) ∧
      Event.logPrintf "failed to rollback transaction" (.lib r) ∈ res.2.2.trace ∧
      res.2.2.db = w.db) := by
  have hlog := mem_rollbackEvents env r hrollback
  refine ⟨?_, ?_, ?_⟩
  · intro ctx fromUserID toUserID responseType hquota hinsert repoErr res
    have hrepo : ∀ w1 : World, (repository.CreateProfileResponse S env ⟨w.db⟩
        (newProfileResponse env fromUserID toUserID responseType) w1).1 = some repoErr := by
      intro w1
      have hi : execInsert env.faults.insert (S.profile_responses w.db
          (profileResponseRow env (newProfileResponse env fromUserID toUserID responseType)))
          = some e := hinsert
      simp only [repository.CreateProfileResponse, hi, repoErr, insertError]
      by_cases hu : isPgUniqueViolation (.lib e) <;> simp [hu]
    obtain ⟨evs, hcheck⟩ := checkDailyLimit_underQuota env ctx fromUserID w hquota
    have hres : res = (some (.wrap "create profile response" repoErr),
        ⟨w.db, w.trace ++ evs ++ [.beginTx true, .insert "profile_responses" false] ++
          rollbackEvents env⟩) := by
      show profileService.CreateProfileResponse S env ctx fromUserID toUserID
        responseType w = _
      rw [CreateProfileResponse_eq, hcheck]
      simp only
      rcases insertInTx_cases S env fromUserID toUserID responseType
          ⟨w.db, w.trace ++ evs⟩ with
        ⟨e', he, _⟩ | ⟨_, e', he, h⟩ | ⟨_, he, _⟩ | ⟨_, he, _⟩
      · rw [hbegin] at he; cases he
      · rw [hinsert] at he
        cases he
        rw [h]
        rfl
      · rw [hinsert] at he; cases he
      · rw [hinsert] at he; cases he
    refine ⟨hrepo, by rw [hres], errorsIs_wrap _ _ _ (errorsIs_refl _), by rw [hres]; simp,
      ?_, by rw [hres]⟩
    rw [hres]
    exact List.mem_append_right _ hlog
  · intro feature period hfound hinsert repoErr res
    have hrepo : ∀ w1 : World, (repository.CreateUserFeature S env ⟨w.db⟩
        (grantToStore AddDate env feature period) w1).1 = some repoErr := by
      intro w1
      have hi : execInsert env.faults.insert (S.user_features w.db
          (userFeatureRow env (grantToStore AddDate env feature period))) = some e := hinsert
      simp only [repository.CreateUserFeature, hi, repoErr, insertError]
      by_cases hu : isPgUniqueViolation (.lib e) <;> simp [hu]
    have hres : res = (some (.wrap "create user feature" repoErr),
        grantToStore AddDate env feature period,
        ⟨w.db, w.trace ++ [.getFeatureByID feature.FeatureID true, .beginTx true,
          .insert "user_features" false] ++ rollbackEvents env⟩) := by
      rcases SubscribeToFeature_cases AddDate S env feature period w with
        ⟨hn, _⟩ | ⟨_, e', he, _⟩ | ⟨_, _, e', he, h⟩ | ⟨_, _, he, _⟩ | ⟨_, _, he, _⟩
      · rw [hfound] at hn; cases hn
      · rw [hbegin] at he; cases he
      · rw [hinsert] at he
        cases he
        exact h
      · rw [hinsert] at he; cases he
      · rw [hinsert] at he; cases he
    refine ⟨hrepo, by rw [hres], errorsIs_wrap _ _ _ (errorsIs_refl _), by rw [hres]; simp,
      ?_, by rw [hres]⟩
    rw [hres]
    exact List.mem_append_right _ hlog
  · intro user password hashed hhash hinsert repoErr res
    obtain ⟨hres, hrepo⟩ := SignUp_of_insert_failure GenerateFromPassword S env user
      password hashed w e hhash hbegin hinsert
    have hres' : res = _ := hres
    refine ⟨hrepo, by rw [hres'], errorsIs_wrap _ _ _ (errorsIs_refl _),
      by rw [hres']; simp, ?_, by rw [hres']⟩
    rw [hres']
    exact List.mem_append_right _ hlog

/-- C10 at a concrete input: the insert fails with a lost connection, the rollback with a
broken pipe; the three services return the wrapped error of the insert. -/
theorem C10_insert_error_survives_failed_rollback_witness :
    (profileService.CreateProfileResponse pairUniqueSchema envInsertAndRollbackFail [] 7 42
        "like" ⟨dbWithCatalog, []⟩).1
      = some (.wrap "create profile response"
          (.wrap "create profile response" (.lib (.failure "connection reset")))) ∧
    (featureService.SubscribeToFeature addDate30 pairUniqueSchema envInsertAndRollbackFail
        grantRequest "1_month" ⟨dbWithCatalog, []⟩).1
      = some (.wrap "create user feature"
          (.wrap "insert user feature" (.lib (.failure "connection reset")))) ∧
    (userService.SignUp hashStub pairUniqueSchema envInsertAndRollbackFail newUser "Passw0rd!"
        ⟨dbWithCatalog, []⟩).1
      = some (.wrap "create user"
          (.wrap "insert user" (.lib (.failure "connection reset")))) :=
  have h := C10_insert_error_survives_failed_rollback addDate30 hashStub pairUniqueSchema
    envInsertAndRollbackFail (.failure "connection reset") (.failure "broken pipe")
    ⟨dbWithCatalog, []⟩ (by decide) (by decide)
  ⟨(h.1 [] 7 42 "like" (by decide) (by decide)).2.1,
    (h.2.1 grantRequest "1_month" (by decide) (by decide)).2.1,
    (h.2.2 newUser "Passw0rd!" "hashed" rfl (by decide)).2.1⟩

/-! ## C6: concurrent calls -/

set_option maxRecDepth 100000

theorem countP_set_of_getElem? {α : Type} (q : α → Bool) (l : List α) (i : Nat) (p p' : α)
    (hp : l[i]? = some p) :
    (l.set i p').countP q + (if q p then 1 else 0)
      = l.countP q + (if q p' then 1 else 0) := by
  induction l generalizing i with
  | nil => simp at hp
  | cons a as ih =>
    cases i with
    | zero =>
      simp only [List.getElem?_cons_zero, Option.some.injEq] at hp
      subst hp
      simp only [List.set_cons_zero, List.countP_cons]
      omega
    | succ n =>
      simp only [List.getElem?_cons_succ] at hp
      have := ih n hp
      simp only [List.set_cons_succ, List.countP_cons]
      omega

theorem set_of_getElem? {α : Type} (l : List α) (i : Nat) (p : α) (hp : l[i]? = some p) :
    l.set i p = l := by
  induction l generalizing i with
  | nil => simp
  | cons a as ih =>
    cases i with
    | zero =>
      simp only [List.getElem?_cons_zero, Option.some.injEq] at hp
      simp [hp]
    | succ n =>
      simp only [List.getElem?_cons_succ] at hp
      simp [ih n hp]

theorem targets_ne (calls : List Call) (hnodup : (calls.map (fun c => c.toUserID)).Nodup)
    (i j : Nat) (ci cj : Call) (hi : calls[i]? = some ci) (hj : calls[j]? = some cj)
    (hij : i ≠ j) : ci.toUserID ≠ cj.toUserID := by
  intro heq
  obtain ⟨hil, hic⟩ := List.getElem?_eq_some_iff.mp hi
  obtain ⟨hjl, hjc⟩ := List.getElem?_eq_some_iff.mp hj
  have hi' : i < (calls.map (fun c => c.toUserID)).length := by simpa using hil
  have hj' : j < (calls.map (fun c => c.toUserID)).length := by simpa using hjl
  have : (calls.map (fun c => c.toUserID))[i] = (calls.map (fun c => c.toUserID))[j] := by
    simp [hic, hjc, heq]
  exact hij ((hnodup.getElem_inj_iff).mp this)

/-- The step of a call, by its phase, when the calls have no unlimited feature, are made
on the UTC day `D`, meet no infrastructure failure, and the invariant holds: a call at its
start is denied when the store has 10 interactions of the day or more and passes the
check otherwise, leaving the store as it is; a call that passed the check inserts its
row; a call that has returned does nothing. -/
theorem Concurrent.step_cases {actor : UUID} {D : Int} {calls : List Call} {s : Concurrent}
    (hcalls : ∀ c ∈ calls, HasFeature c.ctx FeatureDailyResponses = false ∧
      c.env.now.utcDay = D ∧ c.env.dbNow.utcDay = D ∧ c.env.faults = Faults.none)
    (inv : RaceInv actor D calls s) (i : Nat) (c : Call) (p : Phase)
    (hc : calls[i]? = some c) (hp : s.phases[i]? = some p) :
    let n := (interactionsSince s.world.db actor (D * (24 * Hour))).length
    let s1 := s.step pairUniqueSchema actor calls i
    (p = Phase.start ∧ 10 ≤ n ∧ s1.world.db = s.world.db ∧
      s1.phases = s.phases.set i
        (Phase.done (some (.sentinel .ErrDailyInteractionLimitExceeded)))) ∨
    (p = Phase.start ∧ n < 10 ∧ s1.world.db = s.world.db ∧
      s1.phases = s.phases.set i Phase.checked) ∨
    (p = Phase.checked ∧
      s1.world.db
        = s.world.db.withResponse (persistedRow c.env actor c.toUserID c.responseType) ∧
      s1.phases = s.phases.set i (Phase.done none)) ∨
    ((∃ err, p = Phase.done err) ∧ s1 = s) := by
  intro n s1
  obtain ⟨hf, hnow, hdbnow, hfaults⟩ := hcalls c (List.getElem?_mem hc)
  have hsince : startOfUTCDay c.env.now = D * (24 * Hour) := by
    unfold startOfUTCDay; rw [hnow]
  have hs1 : s1 = ⟨(stepCall pairUniqueSchema actor c p s.world).2,
      s.phases.set i (stepCall pairUniqueSchema actor c p s.world).1⟩ := by
    simp only [s1, Concurrent.step, hc, hp]
  cases p with
  | start =>
    simp only [stepCall] at hs1
    rcases checkDailyLimit_cases c.env c.ctx actor s.world with
      ⟨hf', _⟩ | ⟨_, e, he, _⟩ | ⟨_, _, hge, h⟩ | ⟨_, _, hlt, h⟩
    · rw [hf] at hf'; cases hf'
    · rw [hfaults] at he; cases he
    · rw [h] at hs1
      rw [hsince] at hge
      exact Or.inl ⟨rfl, hge, by rw [hs1]; rfl, by rw [hs1]⟩
    · rw [h] at hs1
      rw [hsince] at hlt
      exact Or.inr (Or.inl ⟨rfl, hlt, by rw [hs1]; rfl, by rw [hs1]⟩)
  | checked =>
    simp only [stepCall] at hs1
    have hfresh := inv.fresh i c hc (by rw [hp]; simp)
    have hout : insertOutcome pairUniqueSchema c.env s.world.db actor c.toUserID
        c.responseType = none := by
      rw [insertOutcome_pairUnique _ _ _ _ _ (by rw [hfaults]; rfl), if_pos hfresh]
    rcases insertInTx_cases pairUniqueSchema c.env actor c.toUserID c.responseType
        s.world with ⟨e, he, _⟩ | ⟨_, e, he, _⟩ | ⟨_, _, e, he, _⟩ | ⟨_, _, _, h⟩
    · rw [hfaults] at he; cases he
    · rw [hout] at he; cases he
    · rw [hfaults] at he; cases he
    · rw [h] at hs1
      exact Or.inr (Or.inr (Or.inl ⟨rfl, by rw [hs1], by rw [hs1]⟩))
  | done err =>
    simp only [stepCall] at hs1
    rw [set_of_getElem? _ _ _ hp] at hs1
    exact Or.inr (Or.inr (Or.inr ⟨⟨err, rfl⟩, hs1⟩))

/-- A step that leaves the store as it is and moves a call that has not succeeded to a
phase other than success keeps the invariant. -/
theorem RaceInv.of_same_db {actor : UUID} {D : Int} {calls : List Call} {s s1 : Concurrent}
    (inv : RaceInv actor D calls s) (i : Nat) (p x : Phase)
    (hp : s.phases[i]? = some p) (hpn : p ≠ Phase.done none) (hxn : x ≠ Phase.done none)
    (hdb : s1.world.db = s.world.db) (hphases : s1.phases = s.phases.set i x)
    (hx : ∀ e, x = Phase.done (some e) →
      e = .sentinel .ErrDailyInteractionLimitExceeded ∧
        10 ≤ (interactionsSince s.world.db actor (D * (24 * Hour))).length) :
    RaceInv actor D calls s1 := by
  have hil : i < s.phases.length := (List.getElem?_eq_some_iff.mp hp).1
  refine ⟨by rw [hphases]; simpa using inv.len, ?_, ?_, ?_⟩
  · have h := countP_set_of_getElem? (fun p => decide (p = Phase.done none)) s.phases i p x hp
    simp only [hpn, hxn, decide_False, Bool.false_eq_true, if_false, Nat.add_zero] at h
    simp only [Concurrent.successes, hdb, hphases, h]
    exact inv.count
  · intro j c hj hne
    rw [hdb]
    apply inv.fresh j c hj
    by_cases hij : i = j
    · subst hij
      rw [hp]
      simpa using hpn
    · rw [hphases, List.getElem?_set_ne hij] at hne
      exact hne
  · intro j e hj
    rw [hdb]
    by_cases hij : i = j
    · subst hij
      rw [hphases, List.getElem?_set_self hil] at hj
      exact hx e (Option.some.inj hj)
    · rw [hphases, List.getElem?_set_ne hij] at hj
      exact inv.denied j e hj

/-- Every step of every call keeps the invariant, when the calls moreover have distinct
targets. -/
theorem RaceInv.step {actor : UUID} {D : Int} {calls : List Call} {s : Concurrent}
    (hcalls : ∀ c ∈ calls, HasFeature c.ctx FeatureDailyResponses = false ∧
      c.env.now.utcDay = D ∧ c.env.dbNow.utcDay = D ∧ c.env.faults = Faults.none)
    (hnodup : (calls.map (fun c => c.toUserID)).Nodup)
    (inv : RaceInv actor D calls s) (i : Nat) :
    RaceInv actor D calls (s.step pairUniqueSchema actor calls i) := by
  cases hc : calls[i]? with
  | none => simpa only [Concurrent.step, hc] using inv
  | some c =>
    cases hp : s.phases[i]? with
    | none => simpa only [Concurrent.step, hc, hp] using inv
    | some p =>
      obtain ⟨_, _, hdbnow, _⟩ := hcalls c (List.getElem?_mem hc)
      have hil : i < s.phases.length := (List.getElem?_eq_some_iff.mp hp).1
      rcases Concurrent.step_cases hcalls inv i c p hc hp with
        ⟨hstart, hge, hdb, hph⟩ | ⟨hstart, _, hdb, hph⟩ | ⟨hchecked, hdb, hph⟩ | ⟨_, hsame⟩
      · subst hstart
        exact inv.of_same_db i _ _ hp (by simp) (by simp) hdb hph
          (fun e he => ⟨by simpa using he.symm, hge⟩)
      · subst hstart
        exact inv.of_same_db i _ _ hp (by simp) (by simp) hdb hph
          (fun e he => by simp at he)
      · subst hchecked
        have hrow := startOfUTCDay_le_of_utcDay c.env.dbNow D hdbnow
        have hlen := interactionsSince_withResponse s.world.db actor (D * (24 * Hour))
          (persistedRow c.env actor c.toUserID c.responseType) rfl hrow
        refine ⟨by rw [hph]; simpa using inv.len, ?_, ?_, ?_⟩
        · have hcnt := countP_set_of_getElem? (fun p => decide (p = Phase.done none))
            s.phases i Phase.checked (Phase.done none) hp
          simp only [decide_True, if_true, decide_False, Bool.false_eq_true, if_false,
            Nat.add_zero, reduceCtorEq] at hcnt
          simp only [Concurrent.successes, hdb, hph, hlen, hcnt]
          have := inv.count
          simp only [Concurrent.successes] at this
          omega
        · intro j cj hj hne
          have hij : i ≠ j := by
            intro hij
            subst hij
            rw [hph, List.getElem?_set_self hil] at hne
            exact hne rfl
          rw [hph, List.getElem?_set_ne hij] at hne
          rw [hdb, pairRows_withResponse, inv.fresh j cj hj hne]
          have hto := targets_ne calls hnodup i j c cj hc hj hij
          have : ¬ ((persistedRow c.env actor c.toUserID c.responseType).FromUserID = actor
              ∧ (persistedRow c.env actor c.toUserID c.responseType).ToUserID
                = cj.toUserID) := by
            simp [persistedRow, profileResponseRow, newProfileResponse, hto]
          simp [this]
        · intro j e hj
          have hij : i ≠ j := by
            intro hij
            subst hij
            rw [hph, List.getElem?_set_self hil] at hj
            simp at hj
          rw [hph, List.getElem?_set_ne hij] at hj
          obtain ⟨h1, h2⟩ := inv.denied j e hj
          rw [hdb, hlen]
          exact ⟨h1, by omega⟩
      · rw [hsame]
        exact inv

theorem RaceInv.runSchedule {actor : UUID} {D : Int} {calls : List Call}
    (hcalls : ∀ c ∈ calls, HasFeature c.ctx FeatureDailyResponses = false ∧
      c.env.now.utcDay = D ∧ c.env.dbNow.utcDay = D ∧ c.env.faults = Faults.none)
    (hnodup : (calls.map (fun c => c.toUserID)).Nodup)
    (schedule : List Nat) (s : Concurrent) (inv : RaceInv actor D calls s) :
    RaceInv actor D calls (DatingApp.runSchedule pairUniqueSchema actor calls schedule s) := by
  induction schedule generalizing s with
  | nil => exact inv
  | cons i rest ih => exact ih _ (inv.step hcalls hnodup i)

theorem RaceInv.initial (actor : UUID) (D : Int) (calls : List Call) (w0 : World)
    (hfresh : ∀ c ∈ calls, pairRows w0.db actor c.toUserID = [])
    (hstart : interactionsSince w0.db actor (D * (24 * Hour)) = []) :
    RaceInv actor D calls (Concurrent.initial calls w0) := by
  refine ⟨by simp [Concurrent.initial], ?_, ?_, ?_⟩
  · simp [Concurrent.initial, Concurrent.successes, hstart, List.countP_replicate]
  · intro i c hc _
    exact hfresh c (List.getElem?_mem hc)
  · intro i e hi
    simp only [Concurrent.initial, List.getElem?_map] at hi
    cases hci : calls[i]? with
    | none => rw [hci] at hi; simp at hi
    | some c => rw [hci] at hi; simp at hi

theorem countP_add_countP_of_exclusive {α : Type} (q1 q2 : α → Bool) (l : List α)
    (h : ∀ a ∈ l, (q1 a = true ∧ q2 a = false) ∨ (q1 a = false ∧ q2 a = true)) :
    l.countP q1 + l.countP q2 = l.length := by
  induction l with
  | nil => simp
  | cons a as ih =>
    have hrest := ih (fun b hb => h b (List.mem_cons_of_mem _ hb))
    simp only [List.countP_cons, List.length_cons]
    rcases h a (List.mem_cons_self _ _) with ⟨h1, h2⟩ | ⟨h1, h2⟩ <;> simp [h1, h2] <;> omega

/-- When every call has returned: each returned `nil` or the daily-limit error, and at
least 10 calls (all of them, if they are fewer) returned `nil`. -/
theorem RaceInv.finished {actor : UUID} {D : Int} {calls : List Call} {s : Concurrent}
    (inv : RaceInv actor D calls s) (hfin : s.finished = true) :
    s.successes + s.denials = calls.length ∧ min calls.length 10 ≤ s.successes := by
  have hall : ∀ p ∈ s.phases, p = Phase.done none ∨
      p = Phase.done (some (.sentinel .ErrDailyInteractionLimitExceeded)) := by
    intro p hp
    have hd : p.isDone = true := by
      simp only [Concurrent.finished, List.all_eq_true] at hfin
      exact hfin p hp
    obtain ⟨i, hi⟩ := List.mem_iff_getElem?.mp hp
    cases p with
    | start => simp [Phase.isDone] at hd
    | checked => simp [Phase.isDone] at hd
    | done err =>
      cases err with
      | none => exact Or.inl rfl
      | some e =>
        rw [(inv.denied i e hi).1]
        exact Or.inr rfl
  have hsum : s.successes + s.denials = calls.length := by
    rw [← inv.len]
    apply countP_add_countP_of_exclusive
    intro p hp
    rcases hall p hp with h | h <;> subst h <;> simp
  refine ⟨hsum, ?_⟩
  by_cases hden : s.denials = 0
  · omega
  · have hpos : 0 < s.denials := Nat.pos_of_ne_zero hden
    obtain ⟨p, hp, hq⟩ := List.countP_pos_iff.mp hpos
    have hpe : p = Phase.done (some (.sentinel .ErrDailyInteractionLimitExceeded)) := by
      simpa using hq
    obtain ⟨i, hi⟩ := List.mem_iff_getElem?.mp hp
    rw [hpe] at hi
    have := (inv.denied i _ hi).2
    rw [inv.count] at this
    omega

theorem Concurrent.step_of_none (S : Schema) (actor : UUID) (calls : List Call) (i : Nat)
    (s : Concurrent) (h : calls[i]? = none ∨ s.phases[i]? = none) :
    s.step S actor calls i = s := by
  unfold Concurrent.step
  rcases h with h | h
  · rw [h]
  · rw [h]
    cases calls[i]? <;> rfl

/-- A call that takes its two steps with no step of another call in between keeps the
invariant, leaves no call between its check and its transaction, and keeps the number
of successes at 10 at most. -/
theorem RaceInv.two_steps {actor : UUID} {D : Int} {calls : List Call} {s : Concurrent}
    (hcalls : ∀ c ∈ calls, HasFeature c.ctx FeatureDailyResponses = false ∧
      c.env.now.utcDay = D ∧ c.env.dbNow.utcDay = D ∧ c.env.faults = Faults.none)
    (hnodup : (calls.map (fun c => c.toUserID)).Nodup)
    (inv : RaceInv actor D calls s) (hquiet : s.quiet = true) (hten : s.successes ≤ 10)
    (i : Nat) :
    let s2 := (s.step pairUniqueSchema actor calls i).step pairUniqueSchema actor calls i
    RaceInv actor D calls s2 ∧ s2.quiet = true ∧ s2.successes ≤ 10 := by
  intro s2
  have hinv2 : RaceInv actor D calls s2 := (inv.step hcalls hnodup i).step hcalls hnodup i
  refine ⟨hinv2, ?_⟩
  have hq : ∀ p ∈ s.phases, p ≠ Phase.checked := by
    simpa [Concurrent.quiet] using hquiet
  cases hc : calls[i]? with
  | none =>
    have h1 := Concurrent.step_of_none pairUniqueSchema actor calls i s (Or.inl hc)
    have : s2 = s := by simp only [s2, h1]
    rw [this]
    exact ⟨hquiet, hten⟩
  | some c =>
    cases hp : s.phases[i]? with
    | none =>
      have h1 := Concurrent.step_of_none pairUniqueSchema actor calls i s (Or.inr hp)
      have : s2 = s := by simp only [s2, h1]
      rw [this]
      exact ⟨hquiet, hten⟩
    | some p =>
      have hil : i < s.phases.length := (List.getElem?_eq_some_iff.mp hp).1
      have hinv1 := inv.step hcalls hnodup i
      obtain ⟨_, _, hdbnow, _⟩ := hcalls c (List.getElem?_mem hc)
      rcases Concurrent.step_cases hcalls inv i c p hc hp with
        ⟨_, _, hdb, hph⟩ | ⟨_, hlt, hdb, hph⟩ | ⟨hchecked, _⟩ | ⟨_, hsame⟩
      · -- denied: the second step does nothing
        have hp1 : (s.step pairUniqueSchema actor calls i).phases[i]?
            = some (Phase.done (some (.sentinel .ErrDailyInteractionLimitExceeded))) := by
          rw [hph, List.getElem?_set_self hil]
        rcases Concurrent.step_cases hcalls hinv1 i c _ hc hp1 with
          ⟨h, _⟩ | ⟨h, _⟩ | ⟨h, _⟩ | ⟨_, hsame2⟩
        · cases h
        · cases h
        · cases h
        · have hs2 : s2 = s.step pairUniqueSchema actor calls i := hsame2
          refine ⟨?_, ?_⟩
          · rw [hs2]
            simp only [Concurrent.quiet, List.all_eq_true, decide_eq_true_eq, hph]
            intro a ha
            rcases List.mem_or_eq_of_mem_set ha with h | h
            · exact hq a h
            · rw [h]; simp
          · rw [← hinv2.count, hs2, hdb, inv.count]
            exact hten
      · -- the check passes and the insert follows at once
        have hp1 : (s.step pairUniqueSchema actor calls i).phases[i]?
            = some Phase.checked := by
          rw [hph, List.getElem?_set_self hil]
        rcases Concurrent.step_cases hcalls hinv1 i c _ hc hp1 with
          ⟨h, _⟩ | ⟨h, _⟩ | ⟨_, hdb2, hph2⟩ | ⟨⟨err, h⟩, _⟩
        · cases h
        · cases h
        · have hrow := startOfUTCDay_le_of_utcDay c.env.dbNow D hdbnow
          have hlen := interactionsSince_withResponse s.world.db actor (D * (24 * Hour))
            (persistedRow c.env actor c.toUserID c.responseType) rfl hrow
          refine ⟨?_, ?_⟩
          · have hph2' : s2.phases = s.phases.set i (Phase.done none) := by
              rw [show s2.phases = _ from hph2, hph, List.set_set]
            simp only [Concurrent.quiet, List.all_eq_true, decide_eq_true_eq, hph2']
            intro a ha
            rcases List.mem_or_eq_of_mem_set ha with h | h
            · exact hq a h
            · rw [h]; simp
          · rw [← hinv2.count, show s2.world.db = _ from hdb2, hdb, hlen]
            omega
        · cases h
      · exact absurd hchecked (hq p (List.getElem?_mem hp))
      · have hs2 : s2 = s := by
          simp only [s2, hsame]
        rw [hs2]
        exact ⟨hquiet, hten⟩

theorem runSchedule_separately {actor : UUID} {D : Int} {calls : List Call}
    (hcalls : ∀ c ∈ calls, HasFeature c.ctx FeatureDailyResponses = false ∧
      c.env.now.utcDay = D ∧ c.env.dbNow.utcDay = D ∧ c.env.faults = Faults.none)
    (hnodup : (calls.map (fun c => c.toUserID)).Nodup)
    (order : List Nat) (s : Concurrent)
    (inv : RaceInv actor D calls s) (hquiet : s.quiet = true) (hten : s.successes ≤ 10) :
    (runSchedule pairUniqueSchema actor calls (separately order) s).successes ≤ 10 := by
  induction order generalizing s with
  | nil => simpa [separately, runSchedule] using hten
  | cons i rest ih =>
    obtain ⟨h1, h2, h3⟩ := inv.two_steps hcalls hnodup hquiet hten i
    have := ih _ h1 h2 h3
    simpa [separately, runSchedule, List.flatMap_cons] using this

/-- C6 (fails on the code): twenty concurrent calls of actor 7 toward twenty profiles, on
a day with no interaction of the actor yet; in the interleaving in which every call reads
the count before any call inserts, every count read returns 0 and all twenty calls
succeed, none is denied. -/
theorem C6_twenty_successes_when_checks_come_first :
    (runSchedule pairUniqueSchema 7 (callsAtNoon 20) (checksFirst 20)
      (Concurrent.initial (callsAtNoon 20) ⟨dbWithResponsesToday 0, []⟩)).finished = true ∧
    (runSchedule pairUniqueSchema 7 (callsAtNoon 20) (checksFirst 20)
      (Concurrent.initial (callsAtNoon 20) ⟨dbWithResponsesToday 0, []⟩)).successes = 20 ∧
    (runSchedule pairUniqueSchema 7 (callsAtNoon 20) (checksFirst 20)
      (Concurrent.initial (callsAtNoon 20) ⟨dbWithResponsesToday 0, []⟩)).denials = 0 ∧
    (interactionsSince
      (runSchedule pairUniqueSchema 7 (callsAtNoon 20) (checksFirst 20)
        (Concurrent.initial (callsAtNoon 20) ⟨dbWithResponsesToday 0, []⟩)).world.db
      7 (startOfUTCDay noon)).length = 20 := by
  refine ⟨by decide, by decide, by decide, by decide⟩

/-- C6 as the code has it: concurrent calls of one actor without the unlimited feature,
toward distinct targets, on a UTC day that starts with no interaction of the actor,
without infrastructure failure, the store rejecting a repeated ordered pair only. In
every interleaving the interactions of the day in the store are as many as the calls that
succeeded and a call fails with `ErrDailyInteractionLimitExceeded` only; once all calls
have returned, at least 10 of them (all, if they are fewer) succeeded. When the calls do
not overlap, at most 10 succeed, hence exactly 10 of 10 or more calls. -/
theorem C6_at_least_ten_succeed (actor : UUID) (D : Int) (calls : List Call) (w0 : World)
    (hcalls : ∀ c ∈ calls, HasFeature c.ctx FeatureDailyResponses = false ∧
      c.env.now.utcDay = D ∧ c.env.dbNow.utcDay = D ∧ c.env.faults = Faults.none)
    (hnodup : (calls.map (fun c => c.toUserID)).Nodup)
    (hfresh : ∀ c ∈ calls, pairRows w0.db actor c.toUserID = [])
    (hstart : interactionsSince w0.db actor (D * (24 * Hour)) = []) :
    (∀ schedule : List Nat,
      let final := runSchedule pairUniqueSchema actor calls schedule
        (Concurrent.initial calls w0)
      (interactionsSince final.world.db actor (D * (24 * Hour))).length = final.successes ∧
      (∀ (i : Nat) (e : GoError), final.phases[i]? = some (Phase.done (some e)) →
        e = .sentinel .ErrDailyInteractionLimitExceeded ∧ 10 ≤ final.successes) ∧
      (final.finished = true →
        final.successes + final.denials = calls.length ∧
        min calls.length 10 ≤ final.successes)) ∧
    (∀ order : List Nat,
      let final := runSchedule pairUniqueSchema actor calls (separately order)
        (Concurrent.initial calls w0)
      final.successes ≤ 10 ∧
      (final.finished = true → final.successes = min calls.length 10)) := by
  have hinit := RaceInv.initial actor D calls w0 hfresh hstart
  constructor
  · intro schedule final
    have inv : RaceInv actor D calls final :=
      RaceInv.runSchedule hcalls hnodup schedule _ hinit
    refine ⟨inv.count, ?_, inv.finished⟩
    intro i e hi
    obtain ⟨h1, h2⟩ := inv.denied i e hi
    rw [inv.count] at h2
    exact ⟨h1, h2⟩
  · intro order final
    have inv : RaceInv actor D calls final :=
      RaceInv.runSchedule hcalls hnodup (separately order) _ hinit
    have hq0 : (Concurrent.initial calls w0).quiet = true := by
      simp [Concurrent.initial, Concurrent.quiet]
    have hs0 : (Concurrent.initial calls w0).successes ≤ 10 := by
      rw [← hinit.count]
      show (interactionsSince w0.db actor (D * (24 * Hour))).length ≤ 10
      rw [hstart]
      simp
    have hle : final.successes ≤ 10 :=
      runSchedule_separately hcalls hnodup order _ hinit hq0 hs0
    refine ⟨hle, ?_⟩
    intro hfin
    obtain ⟨hsum, hmin⟩ := inv.finished hfin
    omega

/-- C6 at a concrete input: the twenty calls of actor 7; when every count read comes
first, twenty succeed; when the calls run one after another, ten do. -/
theorem C6_at_least_ten_succeed_witness :
    10 ≤ (runSchedule pairUniqueSchema 7 (callsAtNoon 20) (checksFirst 20)
      (Concurrent.initial (callsAtNoon 20) ⟨dbWithResponsesToday 0, []⟩)).successes ∧
    (runSchedule pairUniqueSchema 7 (callsAtNoon 20) (oneByOne 20)
      (Concurrent.initial (callsAtNoon 20) ⟨dbWithResponsesToday 0, []⟩)).successes = 10 :=
  have h := C6_at_least_ten_succeed 7 739000 (callsAtNoon 20) ⟨dbWithResponsesToday 0, []⟩
    (by decide) (by decide) (by decide) (by decide)
  ⟨((h.1 (checksFirst 20)).2.2 (by decide)).2,
    ((h.2 (List.range 20)).2 (by decide))⟩

/-- Why the targets of the calls are taken without an earlier response of the actor: with
a response of actor 7 toward the profile 20 on the day before, the twenty calls run one
after another give 10 successes and 9 denials, and the call toward the profile 20 fails
with `ErrConflictingResponse`. -/
theorem run_with_earlier_response_has_conflict :
    (interactionsSince dbWithEarlierResponse 7 (startOfUTCDay noon)).length = 0 ∧
    (runSchedule pairUniqueSchema 7 (callsAtNoon 20) (oneByOne 20)
      (Concurrent.initial (callsAtNoon 20) ⟨dbWithEarlierResponse, []⟩)).successes = 10 ∧
    (runSchedule pairUniqueSchema 7 (callsAtNoon 20) (oneByOne 20)
      (Concurrent.initial (callsAtNoon 20) ⟨dbWithEarlierResponse, []⟩)).denials = 9 ∧
    (runSchedule pairUniqueSchema 7 (callsAtNoon 20) (oneByOne 20)
      (Concurrent.initial (callsAtNoon 20) ⟨dbWithEarlierResponse, []⟩)).phases[0]?
      = some (Phase.done (some (.wrap "create profile response"
          (.sentinel .ErrConflictingResponse)))) := by
  refine ⟨by decide, by decide, by decide, by decide⟩

/-! ## Go's calendar -/

theorem daysSinceEpoch_eq (year : Int) :
    daysSinceEpoch year
      = 365 * (year - 1) + (year - 1) / 4 - (year - 1) / 100 + (year - 1) / 400 := by
  unfold daysSinceEpoch
  simp only
  omega

theorem isLeap_iff (year : Int) :
    isLeap year = true ↔ year % 4 = 0 ∧ (year % 100 ≠ 0 ∨ year % 400 = 0) := by
  simp [isLeap]

/-- The arithmetic of the split of a day number into 400-year, 100-year, 4-year and
1-year cycles. -/
theorem year_split_arith (d a d1 q1 d2 n4 d3 q3 y yd : Int)
    (ha : a = d / 146097) (hd1 : d1 = d - 146097 * a) (hq1 : q1 = d1 / 36524)
    (hd2 : d2 = d1 - 36524 * (q1 - q1 / 4)) (hn4 : n4 = d2 / 1461)
    (hd3 : d3 = d2 - 1461 * n4) (hq3 : q3 = d3 / 365)
    (hy : y = 1 + 400 * a + 100 * (q1 - q1 / 4) + 4 * n4 + (q3 - q3 / 4))
    (hyd : yd = d3 - 365 * (q3 - q3 / 4)) :
    365 * (y - 1) + (y - 1) / 4 - (y - 1) / 100 + (y - 1) / 400 + yd = d ∧ 0 ≤ yd ∧
      ((y % 4 = 0 ∧ (y % 100 ≠ 0 ∨ y % 400 = 0)) → yd < 366) ∧
      (¬ (y % 4 = 0 ∧ (y % 100 ≠ 0 ∨ y % 400 = 0)) → yd < 365) := by
  have hd1b : 0 ≤ d1 ∧ d1 < 146097 := by omega
  have hq1b : 0 ≤ q1 ∧ q1 ≤ 4 := by omega
  have hd2b : 0 ≤ d2 ∧ d2 < 36525 := by omega
  have hn4b : 0 ≤ n4 ∧ n4 ≤ 24 := by omega
  have hd3b : 0 ≤ d3 ∧ d3 < 1461 := by omega
  have hq3b : 0 ≤ q3 ∧ q3 ≤ 4 := by omega
  obtain ⟨hq1l, hq1u⟩ := hq1b
  obtain ⟨hq3l, hq3u⟩ := hq3b
  interval_cases q1 <;> interval_cases q3 <;> omega

/-- The year found by `absYear` starts at most `yday` days before the day, and `yday` is a
day of that year. -/
theorem absYear_spec (d : Int) :
    daysSinceEpoch (absYear d).1 + (absYear d).2 = d ∧ 0 ≤ (absYear d).2 ∧
      (absYear d).2 < 365 + (if isLeap (absYear d).1 = true then 1 else 0) := by
  have h := year_split_arith d _ _ _ _ _ _ _ (absYear d).1 (absYear d).2
    rfl rfl rfl rfl rfl rfl rfl rfl rfl
  rw [daysSinceEpoch_eq]
  refine ⟨h.1, h.2.1, ?_⟩
  by_cases hl : isLeap (absYear d).1 = true
  · rw [if_pos hl]
    have := h.2.2.1 ((isLeap_iff _).mp hl)
    omega
  · rw [if_neg hl]
    have := h.2.2.2 (fun hc => hl ((isLeap_iff _).mpr hc))
    omega

theorem daysBefore_table :
    daysBefore 0 = 0 ∧ daysBefore 1 = 31 ∧ daysBefore 2 = 59 ∧ daysBefore 3 = 90 ∧
    daysBefore 4 = 120 ∧ daysBefore 5 = 151 ∧ daysBefore 6 = 181 ∧ daysBefore 7 = 212 ∧
    daysBefore 8 = 243 ∧ daysBefore 9 = 273 ∧ daysBefore 10 = 304 ∧ daysBefore 11 = 334 ∧
    daysBefore 12 = 365 := by decide

/-- The month and the day that `monthDay` finds in a year without February 29 give back
the day of the year; March starts on day 59. -/
theorem monthDay_false (yday : Int) (h0 : 0 ≤ yday) (h1 : yday < 365) :
    1 ≤ (monthDay false yday).1 ∧ (monthDay false yday).1 ≤ 12 ∧
      1 ≤ (monthDay false yday).2 ∧
      daysBefore ((monthDay false yday).1 - 1) + ((monthDay false yday).2 - 1) = yday ∧
      (59 ≤ yday ↔ 3 ≤ (monthDay false yday).1) := by
  obtain ⟨t0, t1, t2, t3, t4, t5, t6, t7, t8, t9, t10, t11, t12⟩ := daysBefore_table
  simp only [monthDay, Bool.false_eq_true, false_and, if_false]
  have hm : 0 ≤ yday / 31 ∧ yday / 31 ≤ 11 := by omega
  generalize hmv : yday / 31 = m at hm ⊢
  obtain ⟨hml, hmu⟩ := hm
  interval_cases m
  all_goals norm_num only
  all_goals simp only [t0, t1, t2, t3, t4, t5, t6, t7, t8, t9, t10, t11, t12]
  all_goals split_ifs
  all_goals norm_num only
  all_goals simp only [t0, t1, t2, t3, t4, t5, t6, t7, t8, t9, t10, t11, t12]
  all_goals first
    | (refine ⟨trivial, trivial, ?_, ?_, ?_⟩ <;>
        first | omega | (simp only [iff_true, iff_false, not_le]; omega))
    | (exfalso; omega)

/-- The month and the day that `monthDay` finds give back the day of the year. -/
theorem monthDay_spec (leap : Bool) (yday : Int) (h0 : 0 ≤ yday)
    (h1 : yday < 365 + (if leap = true then 1 else 0)) :
    1 ≤ (monthDay leap yday).1 ∧ (monthDay leap yday).1 ≤ 12 ∧ 1 ≤ (monthDay leap yday).2 ∧
      daysBefore ((monthDay leap yday).1 - 1)
        + (if leap = true ∧ (monthDay leap yday).1 ≥ 3 then 1 else 0)
        + ((monthDay leap yday).2 - 1) = yday := by
  cases leap with
  | false =>
    simp only [Bool.false_eq_true, if_false, Int.add_zero, false_and] at h1 ⊢
    obtain ⟨a, b, c, d, _⟩ := monthDay_false yday h0 h1
    exact ⟨a, b, c, d⟩
  | true =>
    simp only [if_true, true_and] at h1 ⊢
    by_cases h59 : yday = 31 + 29 - 1
    · have hmd : monthDay true yday = (2, 29) := by simp [monthDay, h59]
      rw [hmd]
      obtain ⟨_, t1, _⟩ := daysBefore_table
      simp only [show (2 : Int) - 1 = 1 from rfl, t1]
      subst h59
      decide
    · by_cases hgt : yday > 31 + 29 - 1
      · have h59n : ¬ yday = 59 := h59
        have hgtn : 59 < yday := hgt
        have hmd : monthDay true yday = monthDay false (yday - 1) := by
          simp [monthDay, h59n, hgtn]
        rw [hmd]
        obtain ⟨a, b, c, d, e⟩ := monthDay_false (yday - 1) (by omega) (by omega)
        have h3 : 3 ≤ (monthDay false (yday - 1)).1 := e.mp (by omega)
        refine ⟨a, b, c, ?_⟩
        rw [if_pos h3]
        omega
      · have h59n : ¬ yday = 59 := h59
        have hgtn : ¬ 59 < yday := hgt
        have hmd : monthDay true yday = monthDay false yday := by
          simp [monthDay, h59n, hgtn]
        rw [hmd]
        obtain ⟨a, b, c, d, e⟩ := monthDay_false yday h0 (by omega)
        have h3 : ¬ 3 ≤ (monthDay false yday).1 := fun h => by
          have := e.mpr h
          omega
        refine ⟨a, b, c, ?_⟩
        rw [if_neg h3]
        omega

/-- The date that `absDate` finds for a day number gives back the day number. -/
theorem absDate_spec (d : Int) :
    1 ≤ (absDate d).2.1 ∧ (absDate d).2.1 ≤ 12 ∧ 1 ≤ (absDate d).2.2 ∧
      daysSinceEpoch (absDate d).1 + daysBefore ((absDate d).2.1 - 1)
        + (if isLeap (absDate d).1 = true ∧ (absDate d).2.1 ≥ 3 then 1 else 0)
        + ((absDate d).2.2 - 1) = d := by
  obtain ⟨hy, h0, h1⟩ := absYear_spec d
  obtain ⟨a, b, c, e⟩ := monthDay_spec (isLeap (absYear d).1) (absYear d).2 h0 h1
  simp only [absDate]
  exact ⟨a, b, c, by omega⟩
/-- A time is the first day of its month, plus the days of the month before it, plus the
time elapsed on its day. -/
theorem Time.eq_of_Date (t : Time) :
    1 ≤ t.Date.2.1 ∧ t.Date.2.1 ≤ 12 ∧ 1 ≤ t.Date.2.2 ∧
      t = (monthStart t.Date.1 (t.Date.2.1 - 1) + (t.Date.2.2 - 1)) * (24 * Hour)
            + t.utcClock := by
  obtain ⟨a, b, c, d⟩ := absDate_spec t.utcDay
  refine ⟨a, b, c, ?_⟩
  have hd : monthStart t.Date.1 (t.Date.2.1 - 1) + (t.Date.2.2 - 1) = t.utcDay := by
    unfold monthStart Time.Date
    rw [show (absDate t.utcDay).2.1 - 1 + 1 = (absDate t.utcDay).2.1 by omega]
    exact d
  rw [hd]
  unfold Time.utcDay Time.utcClock Hour
  show @Eq Int _ _
  omega

/-- The value of `AddDate(0, k, 0)`: the same day of the month and the same time of the
day, `k` months later, a day past the end of that month running into the next month. -/
theorem Time.AddDate_months (t : Time) (k : Int) :
    t.AddDate 0 k 0
      = (monthStart (t.Date.1 + (t.Date.2.1 + k - 1) / 12) ((t.Date.2.1 + k - 1) % 12)
          + (t.Date.2.2 - 1)) * (24 * Hour) + t.utcClock := by
  unfold Time.AddDate time.Date norm monthStart Time.Clock Time.Nanosecond
  simp only [Int.add_zero]
  have hc : 0 ≤ t.utcClock ∧ t.utcClock < 86400000000000 := by
    unfold Time.utcClock Hour
    constructor
    · show @LE.le Int _ _ _
      omega
    · show @LT.lt Int _ _ _
      omega
  generalize t.utcClock = c at hc ⊢
  generalize t.Date.2.2 = dd
  rw [show (t.Date.2.1 + k - 1) % 12 + 1 - 1 = (t.Date.2.1 + k - 1) % 12 by omega]
  generalize monthStartDays :
    daysSinceEpoch (t.Date.1 + (t.Date.2.1 + k - 1) / 12)
      + daysBefore ((t.Date.2.1 + k - 1) % 12) = base
  generalize (if isLeap (t.Date.1 + (t.Date.2.1 + k - 1) / 12) = true ∧
      (t.Date.2.1 + k - 1) % 12 + 1 ≥ 3 then (1 : Int) else 0) = adj
  unfold Hour
  show @Eq Int _ _
  omega
/-- January 1 of the next year is 365 days later, 366 in a leap year. -/
theorem daysSinceEpoch_succ (year : Int) :
    daysSinceEpoch (year + 1) = daysSinceEpoch year + 365 + (if isLeap year = true then 1 else 0) := by
  rw [daysSinceEpoch_eq, daysSinceEpoch_eq]
  by_cases hl : isLeap year = true
  · rw [if_pos hl]
    rw [isLeap_iff] at hl
    omega
  · rw [if_neg hl]
    rw [isLeap_iff] at hl
    omega

theorem monthStart_eq (year k : Int) :
    monthStart year k = daysSinceEpoch year + daysBefore k
      + (if k + 1 ≥ 3 then (if isLeap year = true then 1 else 0) else 0) := by
  unfold monthStart
  by_cases h1 : isLeap year = true <;> by_cases h2 : k + 1 ≥ 3 <;> simp [h1, h2]

/-- The month that is 1, 3, 6 or 12 months later starts at least 28 days later. -/
theorem monthStart_lt (year month j : Int) (h1 : 1 ≤ month) (h12 : month ≤ 12)
    (hj : j = 1 ∨ j = 3 ∨ j = 6 ∨ j = 12) :
    monthStart year (month - 1) + 28
      ≤ monthStart (year + (month + j - 1) / 12) ((month + j - 1) % 12) := by
  obtain ⟨t0, t1, t2, t3, t4, t5, t6, t7, t8, t9, t10, t11, t12⟩ := daysBefore_table
  have hnext := daysSinceEpoch_succ year
  generalize hL : (if isLeap year = true then (1 : Int) else 0) = L at hnext
  have hLb : 0 ≤ L ∧ L ≤ 1 := by
    rw [← hL]
    split_ifs <;> omega
  generalize hL1 : (if isLeap (year + 1) = true then (1 : Int) else 0) = L1
  have hL1b : 0 ≤ L1 ∧ L1 ≤ 1 := by
    rw [← hL1]
    split_ifs <;> omega
  rw [monthStart_eq, monthStart_eq]
  rcases hj with rfl | rfl | rfl | rfl <;> interval_cases month
  all_goals norm_num only [Int.add_zero]
  all_goals simp only [t0, t1, t2, t3, t4, t5, t6, t7, t8, t9, t10, t11, hL, hL1, hnext,
      Int.add_zero, if_true, if_false]
  all_goals omega
/-- `AddDate(0, j, 0)` with `j` one of 1, 3, 6, 12 gives a time at least 28 days later. -/
theorem Time.AddDate_later (t : Time) (j : Int) (hj : j = 1 ∨ j = 3 ∨ j = 6 ∨ j = 12) :
    t + 28 * (24 * Hour) ≤ t.AddDate 0 j 0 := by
  obtain ⟨h1, h12, _, ht⟩ := Time.eq_of_Date t
  have hm := monthStart_lt t.Date.1 t.Date.2.1 j h1 h12 hj
  have ha := Time.AddDate_months t j
  rw [ha]
  generalize monthStart (t.Date.1 + (t.Date.2.1 + j - 1) / 12) ((t.Date.2.1 + j - 1) % 12)
    = later at hm ⊢
  generalize monthStart t.Date.1 (t.Date.2.1 - 1) = start at hm ht
  generalize t.Date.2.2 = dd at ht ⊢
  generalize t.utcClock = c at ht ⊢
  subst ht
  unfold Hour
  show @LE.le Int _ _ _
  omega

/-- `AddDate(0, 0, 0)` gives the time itself. -/
theorem Time.AddDate_zero (t : Time) : t.AddDate 0 0 0 = t := by
  obtain ⟨h1, h12, _, ht⟩ := Time.eq_of_Date t
  have ha := Time.AddDate_months t 0
  rw [show (t.Date.2.1 + 0 - 1) / 12 = 0 by omega,
    show (t.Date.2.1 + 0 - 1) % 12 = t.Date.2.1 - 1 by omega, Int.add_zero] at ha
  rw [ha]
  exact ht.symm

/-! ## C11: the grants that `GetUserFeatures` returns -/

theorem grantSelected_iff (userID : UUID) (t : Time) (g : UserFeature) :
    grantSelected userID t g = true ↔ g.UserID = userID ∧ currentlyValid t g := by
  unfold grantSelected currentlyValid
  cases h : g.EndDate with
  | none => simp [and_assoc]
  | some e => simp [and_assoc]

/-- C11: when the query returns, the rows of `repository.GetUserFeatures` for an actor at
the instant `t` of `time.Now()` are, up to their order, the rows of the join for the
grants of the actor that are currently valid at `t` (status active, `start_date <= t`,
`end_date` null or later than `t`), and for no other grant; with every grant referring to
exactly one row of the catalog, each such grant gives exactly one row, itself with the
name and description of its feature. A grant that ends at `t` is not selected, a grant
that starts at `t` is. -/
theorem C11_returns_the_currently_valid_grants (env : Env) (userID : UUID) (w : World)
    (hread : env.faults.getUserFeatures = none) :
    ∃ rows, (repository.GetUserFeatures env userID w).1 = .ok rows ∧
      rows.Perm
        ((w.db.user_features.filter
            (fun g => decide (g.UserID = userID ∧ currentlyValid env.now g))).flatMap
          (joinFeature w.db.subscription_features)) ∧
      (∀ row ∈ rows, ∃ g ∈ w.db.user_features, ∃ sf ∈ w.db.subscription_features,
        sf.ID = g.FeatureID ∧
        row = { g with FeatureName := sf.Name, FeatureDescription := sf.Description } ∧
        g.UserID = userID ∧ currentlyValid env.now g) ∧
      ((∀ g ∈ w.db.user_features,
          (w.db.subscription_features.filter
            (fun sf => decide (sf.ID = g.FeatureID))).length = 1) →
        rows.length
          = (w.db.user_features.filter
              (fun g => decide (g.UserID = userID ∧ currentlyValid env.now g))).length ∧
        ∀ g ∈ w.db.user_features, g.UserID = userID → currentlyValid env.now g →
          ∃ sf ∈ w.db.subscription_features, sf.ID = g.FeatureID ∧
            { g with FeatureName := sf.Name, FeatureDescription := sf.Description }
              ∈ rows) ∧
      (∀ g : UserFeature, g.EndDate = some env.now →
        grantSelected userID env.now g = false) ∧
      (∀ g : UserFeature, g.UserID = userID → g.Status = "active" →
        g.StartDate = env.now → (∀ e, g.EndDate = some e → env.now < e) →
        grantSelected userID env.now g = true) := by
  have hsel : (fun g => decide (g.UserID = userID ∧ currentlyValid env.now g))
      = grantSelected userID env.now := by
    funext g
    by_cases h : grantSelected userID env.now g = true
    · rw [h]
      simpa using (grantSelected_iff userID env.now g).mp h
    · have hn : ¬ (g.UserID = userID ∧ currentlyValid env.now g) :=
        fun hc => h ((grantSelected_iff userID env.now g).mpr hc)
      simp only [Bool.not_eq_true] at h
      rw [h]
      simpa using hn
  rw [hsel]
  refine ⟨List.insertionSort (fun a b => b.CreatedAt ≤ a.CreatedAt)
      ((w.db.user_features.filter (grantSelected userID env.now)).flatMap
        (joinFeature w.db.subscription_features)),
    by simp only [repository.GetUserFeatures, hread], ?_, ?_, ?_, ?_, ?_⟩
  · exact List.perm_insertionSort _ _
  · intro row hrow
    have hmem := (List.perm_insertionSort _ _).mem_iff.mp hrow
    obtain ⟨g, hg, hrowg⟩ := List.mem_flatMap.mp hmem
    obtain ⟨hgm, hgs⟩ := List.mem_filter.mp hg
    obtain ⟨hu, hv⟩ := (grantSelected_iff userID env.now g).mp hgs
    simp only [joinFeature, List.mem_map, List.mem_filter, decide_eq_true_eq] at hrowg
    obtain ⟨sf, ⟨hsf, hid⟩, hr⟩ := hrowg
    exact ⟨g, hgm, sf, hsf, hid, hr.symm, hu, hv⟩
  · intro hone
    constructor
    · rw [(List.perm_insertionSort _ _).length_eq, List.length_flatMap]
      have : ∀ l : List UserFeature, (∀ g ∈ l, g ∈ w.db.user_features) →
          (l.map (fun g => (joinFeature w.db.subscription_features g).length)).sum
            = l.length := by
        intro l hl
        induction l with
        | nil => rfl
        | cons a as ih =>
          have ha := hone a (hl a (List.mem_cons_self _ _))
          simp only [List.map_cons, List.sum_cons, List.length_cons, joinFeature,
            List.length_map, ha]
          rw [← ih (fun g hg => hl g (List.mem_cons_of_mem _ hg))]
          simp only [joinFeature, List.length_map]
          omega
      exact this _ (fun g hg => (List.mem_filter.mp hg).1)
    · intro g hg hu hv
      have h1 := hone g hg
      obtain ⟨sf, hsf⟩ : ∃ sf, sf ∈ w.db.subscription_features.filter
          (fun sf => decide (sf.ID = g.FeatureID)) := by
        cases hl : w.db.subscription_features.filter
            (fun sf => decide (sf.ID = g.FeatureID)) with
        | nil => rw [hl] at h1; simp at h1
        | cons a as => exact ⟨a, List.mem_cons_self _ _⟩
      obtain ⟨hsfm, hid⟩ := List.mem_filter.mp hsf
      refine ⟨sf, hsfm, by simpa using hid, ?_⟩
      apply (List.perm_insertionSort _ _).mem_iff.mpr
      apply List.mem_flatMap.mpr
      refine ⟨g, List.mem_filter.mpr ⟨hg, (grantSelected_iff userID env.now g).mpr ⟨hu, hv⟩⟩,
        ?_⟩
      simp only [joinFeature, List.mem_map]
      exact ⟨sf, hsf, rfl⟩
  · intro g hend
    have hn : ¬ (g.UserID = userID ∧ currentlyValid env.now g) := by
      rintro ⟨_, _, _, h⟩
      exact absurd (h env.now hend) (lt_irrefl _)
    cases hs : grantSelected userID env.now g with
    | false => rfl
    | true => exact absurd ((grantSelected_iff userID env.now g).mp hs) hn
  · intro g hu hs hstart hend
    exact (grantSelected_iff userID env.now g).mpr ⟨hu, hs, le_of_eq hstart, hend⟩

/-- C11 at a concrete input: of five grants at noon, the one that starts at noon and the
one without end are returned; the one that ends at noon, the revoked one and the one of
another actor are not. -/
theorem C11_returns_the_currently_valid_grants_witness :
    (repository.GetUserFeatures envNoon 7 ⟨dbWithGrants, []⟩).1.toOption
      = some
        [{ storedGrant 12 noon (some (noon + 24 * Hour)) "active" with
            FeatureName := "daily_responses" },
         { storedGrant 15 (noon - 72 * Hour) none "active" with
            FeatureName := "daily_responses" }] ∧
    grantSelected 7 envNoon.now (storedGrant 11 (noon - 48 * Hour) (some noon) "active")
      = false := by
  obtain ⟨rows, _, _, _, _, hend, _⟩ :=
    C11_returns_the_currently_valid_grants envNoon 7 ⟨dbWithGrants, []⟩ (by decide)
  exact ⟨by decide, hend _ (by decide)⟩

/-! ## C12: the `ActiveFeatures` middleware -/

theorem GetUserFeatures_error_iff (env : Env) (userID : UUID) (w : World) :
    (∃ err, (repository.GetUserFeatures env userID w).1 = .error err)
      ↔ env.faults.getUserFeatures ≠ none := by
  unfold repository.GetUserFeatures
  cases h : env.faults.getUserFeatures <;> simp

/-- C12: for a request with the identifier of an actor (a non-empty string that
`uuid.Parse` accepts), the middleware answers 500 'failed to get user features' without
calling the next handler exactly when `GetUserFeatures` returns an error, which it does
exactly when the store fails; otherwise it calls the next handler once, with the features
attached to the request context by `SetActiveFeatures`. For an actor without grants the
attached list is empty and the next handler is called. -/
theorem C12_middleware_fails_iff_store_fails (uuidParse : String → Option UUID) (env : Env)
    (c : EchoContext) (w : World) (uid : String) (actor : UUID)
    (huid : c.userID = .str uid) (hne : uid ≠ "") (hparse : uuidParse uid = some actor) :
    ((∃ err, (repository.GetUserFeatures env actor w).1 = .error err) ↔
      ∀ next, (ActiveFeatures uuidParse env next c w).1
        = .httpError StatusInternalServerError "failed to get user features") ∧
    ((∃ err, (repository.GetUserFeatures env actor w).1 = .error err) ↔
      env.faults.getUserFeatures ≠ none) ∧
    (∀ features, (repository.GetUserFeatures env actor w).1 = .ok features →
      ∀ next, ActiveFeatures uuidParse env next c w
        = next { c with requestContext := SetActiveFeatures c.requestContext features }
            (repository.GetUserFeatures env actor w).2) ∧
    (env.faults.getUserFeatures = none → (∀ g ∈ w.db.user_features, g.UserID ≠ actor) →
      (∀ next, ActiveFeatures uuidParse env next c w
        = next { c with requestContext := SetActiveFeatures c.requestContext [] }
            (repository.GetUserFeatures env actor w).2) ∧
      GetActiveFeatures (SetActiveFeatures c.requestContext []) = ([], true)) := by
  have hstep : ∀ next, ActiveFeatures uuidParse env next c w
      = match repository.GetUserFeatures env actor w with
        | (.error _, w1) =>
          (.httpError StatusInternalServerError "failed to get user features", w1)
        | (.ok features, w1) =>
          next { c with requestContext := SetActiveFeatures c.requestContext features } w1 := by
    intro next
    obtain ⟨cu, cp, cc⟩ := c
    simp only at huid
    subst huid
    simp only [ActiveFeatures, hne, if_false, hparse]
  have hok : ∀ features, (repository.GetUserFeatures env actor w).1 = .ok features →
      ∀ next, ActiveFeatures uuidParse env next c w
        = next { c with requestContext := SetActiveFeatures c.requestContext features }
            (repository.GetUserFeatures env actor w).2 := by
    intro features hf next
    rw [hstep]
    cases hr : repository.GetUserFeatures env actor w with
    | mk r w1 =>
      rw [hr] at hf
      simp only at hf
      subst hf
      rfl
  refine ⟨⟨?_, ?_⟩, GetUserFeatures_error_iff env actor w, hok, ?_⟩
  · rintro ⟨err, herr⟩ next
    rw [hstep]
    cases hr : repository.GetUserFeatures env actor w with
    | mk r w1 =>
      rw [hr] at herr
      simp only at herr
      subst herr
      rfl
  · intro hall
    cases hr : (repository.GetUserFeatures env actor w).1 with
    | error err => exact ⟨err, rfl⟩
    | ok features =>
      have h1 := hall nextNoContent
      rw [hok features hr nextNoContent] at h1
      simp [nextNoContent] at h1
  · intro hread hnone
    have hempty : (repository.GetUserFeatures env actor w).1 = .ok [] := by
      have hfil : w.db.user_features.filter (grantSelected actor env.now) = [] := by
        rw [List.filter_eq_nil_iff]
        intro g hg hsel
        exact hnone g hg ((grantSelected_iff actor env.now g).mp hsel).1
      simp [repository.GetUserFeatures, hread, hfil]
    exact ⟨hok [] hempty, by simp [GetActiveFeatures, SetActiveFeatures, Context.WithValue,
      Context.Value]⟩

/-- C12 at a concrete input: for actor 42, who has no grant, the next handler runs and
finds the empty list of features in its context; when the query fails the answer is 500
and the next handler does not run. -/
theorem C12_middleware_fails_iff_store_fails_witness :
    (ActiveFeatures parseKnown envNoon nextReadsFeatures requestOfFortyTwo
        ⟨dbWithGrants, []⟩).1 = .noContent 200 ∧
    (ActiveFeatures parseKnown envFeaturesQueryFails nextReadsFeatures requestOfFortyTwo
        ⟨dbWithGrants, []⟩).1 = .httpError 500 "failed to get user features" :=
  have h := C12_middleware_fails_iff_store_fails parseKnown envNoon requestOfFortyTwo
    ⟨dbWithGrants, []⟩ "42" 42 rfl (by decide) (by decide)
  have h2 := C12_middleware_fails_iff_store_fails parseKnown envFeaturesQueryFails
    requestOfFortyTwo ⟨dbWithGrants, []⟩ "42" 42 rfl (by decide) (by decide)
  ⟨by rw [(h.2.2.2 (by decide) (by decide)).1 nextReadsFeatures]; decide,
    h2.1.mp (h2.2.1.mpr (by decide)) nextReadsFeatures⟩

/-! ## C13 and C14: the dates of a grant -/

theorem months_values :
    months "1_month" = 1 ∧ months "3_months" = 3 ∧ months "6_months" = 6 ∧
      months "12_months" = 12 := by decide

theorem months_of_period (period : String)
    (hperiod : period ∈ ["1_month", "3_months", "6_months", "12_months"]) :
    months period = 1 ∨ months period = 3 ∨ months period = 6 ∨ months period = 12 := by
  simp only [List.mem_cons, List.mem_singleton, List.not_mem_nil, or_false] at hperiod
  rcases hperiod with rfl | rfl | rfl | rfl <;> decide

theorem Time.Nanosecond_wall (loc : Location) (t : Time) :
    (t.wall loc).Nanosecond = t.Nanosecond := by
  unfold Time.Nanosecond Time.utcClock Time.wall Hour
  generalize loc.offsetAt t = o
  show @Eq Int _ _
  omega

/-- Go's `AddDate` in a location: `AddDate` on the wall clock, less the offset of the zone
that `time.Date` finds for the new wall clock. -/
theorem Time.AddDateIn_eq (loc : Location) (t : Time) (years months days : Int) :
    Time.AddDateIn loc t years months days
      = (t.wall loc).AddDate years months days
        - loc.offsetOfWall ((t.wall loc).AddDate years months days) * 1000000000 := by
  simp only [Time.AddDateIn, time.DateIn, Time.DateIn, Time.ClockIn, Time.AddDate,
    Time.Nanosecond_wall]

/-- The offset that `time.Date` settles on is within the bounds of the offsets of the
location. -/
theorem Location.offsetOfWall_bound (loc : Location) (B : Int) (hB : 0 < B)
    (hzone : ∀ sec, -B < (loc.lookup sec).offset ∧ (loc.lookup sec).offset < B)
    (wall : Time) : -B < loc.offsetOfWall wall ∧ loc.offsetOfWall wall < B := by
  unfold Location.offsetOfWall
  simp only
  split_ifs
  · exact hzone _
  · exact hzone _
  · constructor <;> omega

theorem Location.offsetAt_FixedZone (offset : Int) (t : Time) :
    (Location.FixedZone offset).offsetAt t = offset := rfl

theorem Location.offsetOfWall_FixedZone (offset : Int) (wall : Time) :
    (Location.FixedZone offset).offsetOfWall wall = offset := by
  unfold Location.offsetOfWall Location.FixedZone
  simp only
  split_ifs with h0 h1
  · rfl
  · rfl
  · exact (not_not.1 h0).symm

/-- In a location, `AddDate(0, j, 0)` with `j` one of 1, 3, 6, 12 gives a time at least
28 days later, but for the difference of the zone offsets at the two ends. -/
theorem Time.AddDateIn_later (loc : Location) (t : Time) (j : Int)
    (hj : j = 1 ∨ j = 3 ∨ j = 6 ∨ j = 12) :
    t + (28 * 86400 + loc.offsetAt t - loc.offsetOfWall ((t.wall loc).AddDate 0 j 0))
        * 1000000000
      ≤ Time.AddDateIn loc t 0 j 0 := by
  have h := Time.AddDate_later (t.wall loc) j hj
  rw [Time.AddDateIn_eq]
  generalize (t.wall loc).AddDate 0 j 0 = r at h ⊢
  revert h
  unfold Time.wall Hour
  generalize loc.offsetAt t = oa
  generalize loc.offsetOfWall r = ow
  show (@LE.le Int _ _ _) → (@LE.le Int _ _ _)
  omega

/-- C13: for a period of the four, a feature that the lookup finds and every instant
`time.Now()`, in every location (daylight-saving transitions included): the grant that
`SubscribeToFeature` passes to the store and hands back has `StartDate` equal to
`time.Now()` and `EndDate` equal to Go's `AddDate(0, m, 0)` of it in that location, with
m = 1, 3, 6, 12 for the four periods; `EndDate` is at least 28 days after `StartDate`, but
for the difference of the zone offsets at the two ends, and so strictly later in every
location whose zone offsets are less than 14 days; when the call succeeds the stored row
carries these dates. -/
theorem C13_grant_runs_from_now_for_m_months (loc : Location) (S : Schema) (env : Env)
    (feature : UserFeature) (period : String) (w : World)
    (hperiod : period ∈ ["1_month", "3_months", "6_months", "12_months"])
    (hfound : featureFound env w.db feature.FeatureID = true) :
    let res := featureService.SubscribeToFeature (Time.AddDateIn loc) S env feature period w
    let grant := grantToStore (Time.AddDateIn loc) env feature period
    (months "1_month" = 1 ∧ months "3_months" = 3 ∧ months "6_months" = 6 ∧
      months "12_months" = 12) ∧
    res.2.1 = grant ∧
    grant.StartDate = env.now ∧
    grant.EndDate = some (Time.AddDateIn loc env.now 0 (months period) 0) ∧
    grant.StartDate
        + (28 * 86400 + loc.offsetAt env.now
            - loc.offsetOfWall ((env.now.wall loc).AddDate 0 (months period) 0)) * 1000000000
      ≤ Time.AddDateIn loc env.now 0 (months period) 0 ∧
    ((∀ sec, -(14 * 86400) < (loc.lookup sec).offset ∧
        (loc.lookup sec).offset < 14 * 86400) →
      grant.StartDate < Time.AddDateIn loc env.now 0 (months period) 0) ∧
    (res.1 = none → ∃ row, res.2.2.db.user_features = w.db.user_features ++ [row] ∧
      row.StartDate = grant.StartDate ∧ row.EndDate = grant.EndDate) := by
  intro res grant
  have hm := months_of_period period hperiod
  have hlater := Time.AddDateIn_later loc env.now (months period) hm
  have hlt : (∀ sec, -(14 * 86400) < (loc.lookup sec).offset ∧
        (loc.lookup sec).offset < 14 * 86400) →
      env.now < Time.AddDateIn loc env.now 0 (months period) 0 := by
    intro hzone
    have h1 := hzone env.now.Unix
    have h2 := Location.offsetOfWall_bound loc (14 * 86400) (by norm_num) hzone
      ((env.now.wall loc).AddDate 0 (months period) 0)
    revert hlater h1 h2
    unfold Location.offsetAt
    generalize Time.AddDateIn loc env.now 0 (months period) 0 = r
    generalize (loc.lookup env.now.Unix).offset = oa
    generalize loc.offsetOfWall ((env.now.wall loc).AddDate 0 (months period) 0) = ow
    intro hlater h1 h2
    revert hlater
    show (@LE.le Int _ _ _) → (@LT.lt Int _ _ _)
    omega
  refine ⟨months_values, ?_, rfl, rfl, hlater, hlt, ?_⟩
  · rcases SubscribeToFeature_cases (Time.AddDateIn loc) S env feature period w with
      ⟨hn, _⟩ | ⟨_, e, _, h⟩ | ⟨_, _, e, _, h⟩ | ⟨_, _, _, e, _, h⟩ | ⟨_, _, _, _, h⟩
    · rw [hfound] at hn; cases hn
    all_goals (show (featureService.SubscribeToFeature _ S env feature period w).2.1 = _)
    all_goals rw [h]
  · intro hnone
    rcases SubscribeToFeature_cases (Time.AddDateIn loc) S env feature period w with
      ⟨hn, _⟩ | ⟨_, e, _, h⟩ | ⟨_, _, e, _, h⟩ | ⟨_, _, _, e, _, h⟩ | ⟨_, _, _, _, h⟩
    · rw [hfound] at hn; cases hn
    · have : res.1 = _ := congrArg (·.1) h
      rw [hnone] at this; cases this
    · have : res.1 = _ := congrArg (·.1) h
      rw [hnone] at this; cases this
    · have : res.1 = _ := congrArg (·.1) h
      rw [hnone] at this; cases this
    · refine ⟨userFeatureRow env grant, ?_, rfl, rfl⟩
      show (featureService.SubscribeToFeature _ S env feature period w).2.2.db.user_features = _
      rw [h]

theorem berlin2024_offsets (sec : Int) :
    -(14 * 86400) < (berlin2024.lookup sec).offset ∧
      (berlin2024.lookup sec).offset < 14 * 86400 := by
  unfold berlin2024
  simp only
  split_ifs <;> decide

/-- C13 at a concrete input: one month from 12:00 on 2024-03-15 in `berlin2024`, across
the start of summer time, is 12:00 on 2024-04-15 there, which is 10:00 UTC: 31 days less
one hour later. -/
theorem C13_grant_runs_from_now_for_m_months_witness :
    (featureService.SubscribeToFeature (Time.AddDateIn berlin2024) specSchema envMarch15
        grantRequest "1_month" ⟨dbWithCatalog, []⟩).2.1.StartDate
      = time.Date 2024 3 15 11 0 0 0 ∧
    (featureService.SubscribeToFeature (Time.AddDateIn berlin2024) specSchema envMarch15
        grantRequest "1_month" ⟨dbWithCatalog, []⟩).2.1.EndDate
      = some (time.Date 2024 4 15 10 0 0 0) ∧
    time.Date 2024 3 15 11 0 0 0
      < Time.AddDateIn berlin2024 envMarch15.now 0 (months "1_month") 0 :=
  have h := C13_grant_runs_from_now_for_m_months berlin2024 specSchema envMarch15
    grantRequest "1_month" ⟨dbWithCatalog, []⟩ (by decide) (by decide)
  ⟨by rw [h.2.1]; rfl, by decide, h.2.2.2.2.2.1 berlin2024_offsets⟩

theorem utcDay_of_day_and_clock (d : Int) (t : Time) :
    Time.utcDay (d * (24 * Hour) + t.utcClock) = d := by
  unfold Time.utcDay Time.utcClock Hour
  show @Eq Int _ _
  omega

/-- Three months after a time on 2024-01-31 is a time on 2024-05-01: April 31 runs into
May. -/
theorem Time.AddDate_january_31 (t : Time) (h : t.Date = (2024, 1, 31)) :
    (t.AddDate 0 3 0).Date = (2024, 5, 1) := by
  rw [Time.AddDate_months, h]
  simp only
  unfold Time.Date
  rw [utcDay_of_day_and_clock]
  decide

/-- C14 (fails on the code): `SubscribeToFeature` with the period 3_months at 12:00 UTC on
2024-01-31 gives an `EndDate` on 2024-05-01, not on 2024-04-30. -/
theorem C14_end_date_is_may_first :
    ((featureService.SubscribeToFeature (Time.AddDateIn Location.UTC) specSchema envJanuary31
        grantRequest "3_months" ⟨dbWithCatalog, []⟩).2.1.EndDate.map (Time.DateIn Location.UTC))
      = some (2024, 5, 1) ∧
    ((featureService.SubscribeToFeature (Time.AddDateIn Location.UTC) specSchema envJanuary31
        grantRequest "3_months" ⟨dbWithCatalog, []⟩).2.1.EndDate.map (Time.DateIn Location.UTC))
      ≠ some (2024, 4, 30) ∧
    Time.DateIn Location.UTC envJanuary31.now = (2024, 1, 31) ∧
    (featureService.SubscribeToFeature (Time.AddDateIn Location.UTC) specSchema envJanuary31
        grantRequest "3_months" ⟨dbWithCatalog, []⟩).1 = none := by
  refine ⟨by decide, by decide, by decide, by decide⟩

/-- C14 as the code has it: `SubscribeToFeature` with the period 3_months, for a feature
that the lookup finds, at an instant on 2024-01-31 by the calendar of its location:
`AddDate` sets April 31 on the wall clock, which Go normalises to May 1, and `EndDate` is
the time that `time.Date` gives for that wall clock. Its calendar date in the location is
2024-05-01 whenever the zone that `time.Date` finds for the wall clock is the one in force
at the time it gives, and so in every location at a fixed offset from UTC. -/
theorem C14_three_months_from_january_31 (loc : Location) (S : Schema) (env : Env)
    (feature : UserFeature) (w : World)
    (hday : Time.DateIn loc env.now = (2024, 1, 31))
    (hfound : featureFound env w.db feature.FeatureID = true) :
    ∃ endDate wall,
      (featureService.SubscribeToFeature (Time.AddDateIn loc) S env feature "3_months"
          w).2.1.EndDate = some endDate ∧
      wall = (env.now.wall loc).AddDate 0 3 0 ∧
      wall.Date = (2024, 5, 1) ∧
      endDate = wall - loc.offsetOfWall wall * 1000000000 ∧
      (loc.offsetAt endDate = loc.offsetOfWall wall →
        Time.DateIn loc endDate = (2024, 5, 1)) ∧
      (∀ offset, loc = Location.FixedZone offset →
        Time.DateIn loc endDate = (2024, 5, 1)) := by
  have hgrant : (featureService.SubscribeToFeature (Time.AddDateIn loc) S env feature
      "3_months" w).2.1 = grantToStore (Time.AddDateIn loc) env feature "3_months" := by
    rcases SubscribeToFeature_cases (Time.AddDateIn loc) S env feature "3_months" w with
      ⟨hn, _⟩ | ⟨_, e, _, h⟩ | ⟨_, _, e, _, h⟩ | ⟨_, _, _, e, _, h⟩ | ⟨_, _, _, _, h⟩
    · rw [hfound] at hn; cases hn
    all_goals rw [h]
  have hwall : ((env.now.wall loc).AddDate 0 3 0).Date = (2024, 5, 1) :=
    Time.AddDate_january_31 _ hday
  have hcond : loc.offsetAt (Time.AddDateIn loc env.now 0 3 0)
        = loc.offsetOfWall ((env.now.wall loc).AddDate 0 3 0) →
      Time.DateIn loc (Time.AddDateIn loc env.now 0 3 0) = (2024, 5, 1) := by
    intro hsame
    unfold Time.DateIn Time.wall
    rw [hsame, Time.AddDateIn_eq]
    have hcancel : ((env.now.wall loc).AddDate 0 3 0
        - loc.offsetOfWall ((env.now.wall loc).AddDate 0 3 0) * 1000000000
        + loc.offsetOfWall ((env.now.wall loc).AddDate 0 3 0) * 1000000000 : Int)
        = (env.now.wall loc).AddDate 0 3 0 := by
      generalize (env.now.wall loc).AddDate 0 3 0 = r
      generalize loc.offsetOfWall r = ow
      show @Eq Int _ _
      omega
    rw [hcancel]
    exact hwall
  refine ⟨Time.AddDateIn loc env.now 0 3 0, (env.now.wall loc).AddDate 0 3 0,
    by rw [hgrant]; rfl, rfl, hwall, Time.AddDateIn_eq loc env.now 0 3 0, hcond, ?_⟩
  intro offset hloc
  apply hcond
  rw [hloc, Location.offsetAt_FixedZone, Location.offsetOfWall_FixedZone]

/-- C14 at a concrete input: 12:00 UTC on 2024-01-31. -/
theorem C14_three_months_from_january_31_witness :
    ∃ endDate,
      (featureService.SubscribeToFeature (Time.AddDateIn Location.UTC) specSchema envJanuary31
          grantRequest "3_months" ⟨dbWithCatalog, []⟩).2.1.EndDate = some endDate ∧
      Time.DateIn Location.UTC endDate = (2024, 5, 1) :=
  have h := C14_three_months_from_january_31 Location.UTC specSchema envJanuary31 grantRequest
    ⟨dbWithCatalog, []⟩ (by decide) (by decide)
  ⟨h.choose, h.choose_spec.choose_spec.1, h.choose_spec.choose_spec.2.2.2.2.2 0 rfl⟩

/-! ## C15, C16 and C17: the errors of a subscription -/

/-- The handler of a well-formed request answers the outcome of the service called with
the grant built from the request. -/
theorem Handler.SubscribeToFeature_of_wellFormed (uuidParse : String → Option UUID)
    (validate : String → Option String)
    (featureSvc : Context → UserFeature → String → World →
      Option GoError × UserFeature × World)
    (c : EchoContext) (userID featureID : UUID) (period : String) (value : Option Int)
    (w : World) (hreq : wellFormed uuidParse validate c userID featureID period) :
    Handler.SubscribeToFeature uuidParse validate featureSvc c (.ok (period, value)) w
      = subscribeAnswer
          (featureSvc c.requestContext (grantOfRequest userID featureID value) period w) := by
  obtain ⟨uid, huid, hne, hparse, hparam, hvalid⟩ := hreq
  cases value with
  | none =>
    simp only [Handler.SubscribeToFeature, huid, hne, if_false, hparse, hparam, hvalid,
      grantOfRequest, Option.getD]
    generalize featureSvc c.requestContext _ period w = r
    obtain ⟨err, f, w1⟩ := r
    cases err <;> rfl
  | some v =>
    simp only [Handler.SubscribeToFeature, huid, hne, if_false, hparse, hparam, hvalid,
      grantOfRequest, Option.getD]
    generalize featureSvc c.requestContext _ period w = r
    obtain ⟨err, f, w1⟩ := r
    cases err <;> rfl

theorem featureFound_of_absent (env : Env) (db : DB) (featureID : UUID)
    (habsent : ∀ sf ∈ db.subscription_features, sf.ID ≠ featureID) :
    featureFound env db featureID = false := by
  have : db.subscription_features.find? (fun f => decide (f.ID = featureID)) = none := by
    rw [List.find?_eq_none]
    intro sf hsf
    simpa using habsent sf hsf
  simp [featureFound, this]

/-- C15: for a feature id that the catalog does not have, `SubscribeToFeature` returns
`ErrFeatureNotFound` after the lookup alone: `BeginTx` and `CreateUserFeature` are not
called, the store and the grant are as before; the handler of a well-formed request
answers 404 'feature not found'. -/
theorem C15_unknown_feature_is_not_found (AddDate : Time → Int → Int → Int → Time)
    (S : Schema) (env : Env) (w : World) (featureID : UUID)
    (habsent : ∀ sf ∈ w.db.subscription_features, sf.ID ≠ featureID) :
    (∀ (feature : UserFeature) (period : String), feature.FeatureID = featureID →
      featureService.SubscribeToFeature AddDate S env feature period w
        = (some (.sentinel .ErrFeatureNotFound), feature,
            ⟨w.db, w.trace ++ [.getFeatureByID featureID false]⟩)) ∧
    (∀ (uuidParse : String → Option UUID) (validate : String → Option String)
      (c : EchoContext) (userID : UUID) (period : String) (value : Option Int),
      wellFormed uuidParse validate c userID featureID period →
      Handler.SubscribeToFeature uuidParse validate
          (fun _ feature p w1 => featureService.SubscribeToFeature AddDate S env feature p w1)
          c (.ok (period, value)) w
        = (.httpError StatusNotFound "feature not found",
            ⟨w.db, w.trace ++ [.getFeatureByID featureID false]⟩)) := by
  have hsvc : ∀ (feature : UserFeature) (period : String), feature.FeatureID = featureID →
      featureService.SubscribeToFeature AddDate S env feature period w
        = (some (.sentinel .ErrFeatureNotFound), feature,
            ⟨w.db, w.trace ++ [.getFeatureByID featureID false]⟩) := by
    intro feature period hid
    have hnot := featureFound_of_absent env w.db featureID habsent
    rcases SubscribeToFeature_cases AddDate S env feature period w with
      ⟨_, h⟩ | ⟨hf, _⟩ | ⟨hf, _⟩ | ⟨hf, _⟩ | ⟨hf, _⟩
    · rw [h, hid]
    all_goals (rw [hid, hnot] at hf; cases hf)
  refine ⟨hsvc, ?_⟩
  intro uuidParse validate c userID period value hreq
  rw [Handler.SubscribeToFeature_of_wellFormed uuidParse validate _ c userID featureID period
    value w hreq]
  rw [hsvc _ period rfl]
  rfl

/-- C15 at a concrete input: actor 7 subscribes to the feature 3, which the catalog does
not have. -/
theorem C15_unknown_feature_is_not_found_witness :
    Handler.SubscribeToFeature parseFeatureIDs (validatePeriod tagText)
        (fun _ feature p w1 =>
          featureService.SubscribeToFeature (Time.AddDateIn Location.UTC) specSchema envNoon feature p w1)
        requestSevenFeatureThree (.ok ("1_month", some 5)) ⟨dbWithCatalog, []⟩
      = (.httpError 404 "feature not found",
          ⟨dbWithCatalog, [.getFeatureByID 3 false]⟩) :=
  (C15_unknown_feature_is_not_found (Time.AddDateIn Location.UTC) specSchema envNoon
      ⟨dbWithCatalog, []⟩ 3 (by decide)).2
    parseFeatureIDs (validatePeriod tagText) requestSevenFeatureThree 7 "1_month" (some 5)
    ⟨"7", rfl, by decide, by decide, by decide, by decide⟩

/-- C16 (fails on the code): the catalog has the feature 2 and the lookup fails because
the store cannot be reached; `GetFeatureByID` returns the wrapped error of the store,
which is not `sql.ErrNoRows`; `SubscribeToFeature` returns `ErrFeatureNotFound` in its place, and the handler answers
404 'feature not found', not 500. -/
theorem C16_store_failure_answered_as_not_found :
    (dbWithCatalog.subscription_features.any (fun sf => decide (sf.ID = 2))) = true ∧
    (repository.GetFeatureByID envLookupFails 2 ⟨dbWithCatalog, []⟩).1
      = .error (.wrap "select feature" (.lib (.failure "connection refused"))) ∧
    errorsIs (.wrap "select feature" (.lib (.failure "connection refused")))
      (.lib .sqlErrNoRows) = false ∧
    (featureService.SubscribeToFeature (Time.AddDateIn Location.UTC) specSchema envLookupFails
        grantRequest "1_month" ⟨dbWithCatalog, []⟩).1
      = some (.sentinel .ErrFeatureNotFound) ∧
    (Handler.SubscribeToFeature parseFeatureIDs (validatePeriod tagText)
        (fun _ feature p w1 =>
          featureService.SubscribeToFeature (Time.AddDateIn Location.UTC) specSchema envLookupFails
            feature p w1)
        requestSevenFeatureTwo (.ok ("1_month", some 5)) ⟨dbWithCatalog, []⟩).1
      = .httpError 404 "feature not found" := by
  refine ⟨by decide, rfl, by decide, by decide, by decide⟩

/-- C17: when the lookup finds the feature, the transaction begins and the store rejects
the insert of the grant with a unique violation (SQLSTATE 23505),
`repository.CreateUserFeature` returns `ErrFeatureAlreadySubscribed`, `SubscribeToFeature`
rolls the transaction back, persists nothing and returns an error that satisfies
`errors.Is(err, ErrFeatureAlreadySubscribed)` and not `errors.Is(err, ErrFeatureNotFound)`,
and the handler of a well-formed request answers 409 'already subscribed to this
feature'. -/
theorem C17_unique_violation_answers_already_subscribed
    (AddDate : Time → Int → Int → Int → Time) (S : Schema) (env : Env)
    (feature : UserFeature) (period : String) (w : World)
    (hfound : featureFound env w.db feature.FeatureID = true)
    (hbegin : env.faults.beginTx = none)
    (hviolation :
      grantInsertOutcome AddDate S env w.db feature period = some (.pq "23505")) :
    (∀ w1 : World,
      (repository.CreateUserFeature S env ⟨w.db⟩ (grantToStore AddDate env feature period)
          w1).1 = some (.sentinel .ErrFeatureAlreadySubscribed)) ∧
    (∃ err, (featureService.SubscribeToFeature AddDate S env feature period w).1 = some err ∧
      errorsIs err (.sentinel .ErrFeatureAlreadySubscribed) = true ∧
      errorsIs err (.sentinel .ErrFeatureNotFound) = false) ∧
    (featureService.SubscribeToFeature AddDate S env feature period w).2.2
      = ⟨w.db, w.trace ++ [.getFeatureByID feature.FeatureID true, .beginTx true,
          .insert "user_features" false] ++ rollbackEvents env⟩ ∧
    Event.rollback env.faults.rollback.isNone ∈ rollbackEvents env ∧
    (∀ (uuidParse : String → Option UUID) (validate : String → Option String)
      (c : EchoContext) (value : Option Int),
      wellFormed uuidParse validate c feature.UserID feature.FeatureID period →
      feature = grantOfRequest feature.UserID feature.FeatureID value →
      (Handler.SubscribeToFeature uuidParse validate
          (fun _ f p w1 => featureService.SubscribeToFeature AddDate S env f p w1)
          c (.ok (period, value)) w).1
        = .httpError StatusConflict "already subscribed to this feature") := by
  have hrepo : ∀ w1 : World,
      (repository.CreateUserFeature S env ⟨w.db⟩ (grantToStore AddDate env feature period)
          w1).1 = some (.sentinel .ErrFeatureAlreadySubscribed) := by
    intro w1
    have hv : execInsert env.faults.insert (S.user_features w.db
        (userFeatureRow env (grantToStore AddDate env feature period)))
        = some (.pq "23505") := hviolation
    simp [repository.CreateUserFeature, hv, isPgUniqueViolation, errorsAsPq]
  have hsvc : featureService.SubscribeToFeature AddDate S env feature period w
      = (some (.wrap "create user feature" (.sentinel .ErrFeatureAlreadySubscribed)),
          grantToStore AddDate env feature period,
          ⟨w.db, w.trace ++ [.getFeatureByID feature.FeatureID true, .beginTx true,
            .insert "user_features" false] ++ rollbackEvents env⟩) := by
    rcases SubscribeToFeature_cases AddDate S env feature period w with
      ⟨hn, _⟩ | ⟨_, e, he, _⟩ | ⟨_, _, e, he, h⟩ | ⟨_, _, he, _⟩ | ⟨_, _, he, _⟩
    · rw [hfound] at hn; cases hn
    · rw [hbegin] at he; cases he
    · rw [hviolation] at he
      cases he
      rw [h]
      simp [insertError, isPgUniqueViolation, errorsAsPq]
    · rw [hviolation] at he; cases he
    · rw [hviolation] at he; cases he
  refine ⟨hrepo, ⟨_, by rw [hsvc], by decide, by decide⟩, by rw [hsvc], ?_, ?_⟩
  · unfold rollbackEvents
    cases env.faults.rollback <;> simp
  · intro uuidParse validate c value hreq hfeature
    rw [Handler.SubscribeToFeature_of_wellFormed uuidParse validate _ c feature.UserID
      feature.FeatureID period value w hreq]
    rw [← hfeature, hsvc]
    rfl

/-- C17 at a concrete input: actor 7 subscribes to the feature 2 while holding a grant of
it without end. -/
theorem C17_unique_violation_answers_already_subscribed_witness :
    (Handler.SubscribeToFeature parseFeatureIDs (validatePeriod tagText)
        (fun _ f p w1 =>
          featureService.SubscribeToFeature (Time.AddDateIn Location.UTC) specSchema envNoon f p w1)
        requestSevenFeatureTwo (.ok ("1_month", none)) ⟨dbWithGrants, []⟩).1
      = .httpError 409 "already subscribed to this feature" :=
  (C17_unique_violation_answers_already_subscribed (Time.AddDateIn Location.UTC) specSchema envNoon
      (grantOfRequest 7 2 none) "1_month" ⟨dbWithGrants, []⟩ (by decide) (by decide)
      (by decide)).2.2.2.2
    parseFeatureIDs (validatePeriod tagText) requestSevenFeatureTwo none
    ⟨"7", rfl, by decide, by decide, by decide, by decide⟩ rfl


/-! ## C19: what a successful subscription hands back -/

/-- A call of `SubscribeToFeature` that returns no error hands back the grant of its caller
with the two dates set, and stores the row of it that the store completes. -/
theorem SubscribeToFeature_of_success (AddDate : Time → Int → Int → Int → Time) (S : Schema)
    (env : Env) (feature : UserFeature) (period : String) (w : World)
    (hok : (featureService.SubscribeToFeature AddDate S env feature period w).1 = none) :
    featureService.SubscribeToFeature AddDate S env feature period w
      = (none, grantToStore AddDate env feature period,
          ⟨{ w.db with user_features := w.db.user_features ++
              [userFeatureRow env (grantToStore AddDate env feature period)] },
            w.trace ++ [.getFeatureByID feature.FeatureID true, .beginTx true,
              .insert "user_features" true, .commit true]⟩) := by
  rcases SubscribeToFeature_cases AddDate S env feature period w with
    ⟨_, h⟩ | ⟨_, e, _, h⟩ | ⟨_, _, e, _, h⟩ | ⟨_, _, _, e, _, h⟩ | ⟨_, _, _, _, h⟩
  · rw [h] at hok; cases hok
  · rw [h] at hok; cases hok
  · rw [h] at hok; cases hok
  · rw [h] at hok; cases hok
  · exact h

/-- The grant that a successful `SubscribeToFeature` hands back has the identifier that its
caller gave it, and the stored row has the identifier that the store assigned. -/
theorem SubscribeToFeature_returned_id (AddDate : Time → Int → Int → Int → Time) (S : Schema)
    (env : Env) (feature : UserFeature) (period : String) (w : World)
    (hok : (featureService.SubscribeToFeature AddDate S env feature period w).1 = none) :
    (featureService.SubscribeToFeature AddDate S env feature period w).2.1.ID = feature.ID ∧
    (featureService.SubscribeToFeature AddDate S env feature period w).2.2.db.user_features
      = w.db.user_features ++ [userFeatureRow env (grantToStore AddDate env feature period)] ∧
    (userFeatureRow env (grantToStore AddDate env feature period)).ID = env.dbNewID := by
  rw [SubscribeToFeature_of_success AddDate S env feature period w hok]
  exact ⟨rfl, rfl, rfl⟩

/-- C19 (fails on the code): actor 7 subscribes to the feature 2 for one month and the
store assigns the identifier 901 to the row of the grant; the handler answers 201 with
the grant that `SubscribeToFeature` handed back, which carries the computed `StartDate`
and `EndDate` and the identifier 0, the zero value that the handler gave it, not the
identifier 901 of the stored row. -/
theorem C19_returned_grant_lacks_stored_id :
    ∃ body : UserFeature,
      Handler.SubscribeToFeature parseFeatureIDs (validatePeriod tagText)
          (fun _ feature p w1 =>
            featureService.SubscribeToFeature (Time.AddDateIn Location.UTC) specSchema envNoon feature p w1)
          requestSevenFeatureTwo (.ok ("1_month", some 5)) ⟨dbWithCatalog, []⟩
        = (.jsonUserFeature 201 body,
            ⟨{ dbWithCatalog with user_features := [userFeatureRow envNoon body] },
              [.getFeatureByID 2 true, .beginTx true, .insert "user_features" true,
                .commit true]⟩) ∧
      body.ID = 0 ∧ body.StartDate = noon ∧
      body.EndDate = some (Time.AddDateIn Location.UTC noon 0 1 0) ∧
      (userFeatureRow envNoon body).ID = 901 := by
  refine ⟨grantToStore (Time.AddDateIn Location.UTC) envNoon (grantOfRequest 7 2 (some 5)) "1_month",
    ?_, rfl, rfl, rfl, rfl⟩
  rw [Handler.SubscribeToFeature_of_wellFormed parseFeatureIDs (validatePeriod tagText) _
    requestSevenFeatureTwo 7 2 "1_month" (some 5) _
    ⟨"7", rfl, by decide, by decide, by decide, by decide⟩]
  have hok : (featureService.SubscribeToFeature (Time.AddDateIn Location.UTC) specSchema envNoon
      (grantOfRequest 7 2 (some 5)) "1_month" ⟨dbWithCatalog, []⟩).1 = none := by
    rcases SubscribeToFeature_cases (Time.AddDateIn Location.UTC) specSchema envNoon
        (grantOfRequest 7 2 (some 5)) "1_month" ⟨dbWithCatalog, []⟩ with
      ⟨hn, _⟩ | ⟨_, e, he, _⟩ | ⟨_, _, e, he, _⟩ | ⟨_, _, _, e, he, _⟩ | ⟨_, _, _, _, h⟩
    · exact absurd hn (by decide)
    · cases he
    · exact absurd he (by simp [grantInsertOutcome, specSchema, grantConflict, execInsert,
        envNoon, Faults.none, dbWithCatalog])
    · cases he
    · rw [h]
  rw [SubscribeToFeature_of_success _ _ _ _ _ _ hok]
  rfl

/-! ## C20: requests that do not pass the validation -/

theorem validateRequiredOneOf_of_not_mem (text : String → String) (allowed : List String)
    (value : String) (hvalue : value ∉ allowed) :
    ∃ msg, validateRequiredOneOf text allowed value = some msg := by
  unfold validateRequiredOneOf
  by_cases h : value = ""
  · exact ⟨_, if_pos h⟩
  · exact ⟨text "oneof", by rw [if_neg h, if_neg hvalue]⟩

/-- C20: a subscribe request whose period is none of 1_month, 3_months, 6_months and
12_months, and a response request whose response type is neither like nor pass (the empty
one of a request without the field included), is answered by the handler with HTTP 400,
whatever the service is: the service is not called, and the store and the trace are as
before. -/
theorem C20_malformed_input_rejected_before_the_service (uuidParse : String → Option UUID)
    (text : String → String) (c : EchoContext) (w : World) :
    (∀ (period : String) (value : Option Int),
      period ∉ ["1_month", "3_months", "6_months", "12_months"] →
      ∃ msg, ∀ featureSvc,
        Handler.SubscribeToFeature uuidParse (validatePeriod text) featureSvc c
            (.ok (period, value)) w
          = (.httpError StatusBadRequest msg, w)) ∧
    (∀ responseType : String, responseType ∉ ["like", "pass"] →
      ∃ msg, ∀ profileSvc,
        Handler.CreateProfileResponse uuidParse (validateResponseType text) profileSvc c
            (.ok responseType) w
          = (.httpError StatusBadRequest msg, w)) := by
  constructor
  · intro period value hperiod
    obtain ⟨msg, hmsg⟩ := validateRequiredOneOf_of_not_mem text _ period hperiod
    unfold Handler.SubscribeToFeature
    cases hu : c.userID with
    | nil => exact ⟨"user ID is required", fun _ => rfl⟩
    | foreign n => exact ⟨"user ID is required", fun _ => rfl⟩
    | str uid =>
      by_cases hempty : uid = ""
      · exact ⟨"user ID is required", fun _ => by simp only [hempty, if_true]⟩
      · cases hp : uuidParse uid with
        | none => exact ⟨"invalid user ID", fun _ => by simp only [hempty, if_false, hp]⟩
        | some userID =>
          cases hq : uuidParse c.paramID with
          | none => exact ⟨"invalid feature ID", fun _ => by simp only [hempty, if_false, hp, hq]⟩
          | some featureID =>
            exact ⟨msg, fun _ => by
              simp only [hempty, if_false, hp, hq, validatePeriod, hmsg]⟩
  · intro responseType hresponse
    obtain ⟨msg, hmsg⟩ := validateRequiredOneOf_of_not_mem text _ responseType hresponse
    unfold Handler.CreateProfileResponse
    cases hu : c.userID with
    | nil => exact ⟨"user ID is required", fun _ => rfl⟩
    | foreign n => exact ⟨"user ID is required", fun _ => rfl⟩
    | str uid =>
      by_cases hempty : uid = ""
      · exact ⟨"user ID is required", fun _ => by simp only [hempty, if_true]⟩
      · cases hp : uuidParse uid with
        | none => exact ⟨"invalid user ID", fun _ => by simp only [hempty, if_false, hp]⟩
        | some userID =>
          cases hq : uuidParse c.paramID with
          | none => exact ⟨"invalid target user ID", fun _ => by simp only [hempty, if_false, hp, hq]⟩
          | some featureID =>
            exact ⟨msg, fun _ => by
              simp only [hempty, if_false, hp, hq, validateResponseType, hmsg]⟩

/-- C20 at concrete inputs: a subscribe request for the period 2_months, a response request
of the type superlike and a response request without a type. -/
theorem C20_malformed_input_rejected_before_the_service_witness :
    (∃ msg, ∀ featureSvc,
      Handler.SubscribeToFeature parseFeatureIDs (validatePeriod tagText) featureSvc
          requestSevenFeatureTwo (.ok ("2_months", none)) ⟨dbWithCatalog, []⟩
        = (.httpError 400 msg, ⟨dbWithCatalog, []⟩)) ∧
    (∃ msg, ∀ profileSvc,
      Handler.CreateProfileResponse parseFeatureIDs (validateResponseType tagText) profileSvc
          requestSevenFeatureTwo (.ok "superlike") ⟨dbWithCatalog, []⟩
        = (.httpError 400 msg, ⟨dbWithCatalog, []⟩)) ∧
    (∃ msg, ∀ profileSvc,
      Handler.CreateProfileResponse parseFeatureIDs (validateResponseType tagText) profileSvc
          requestSevenFeatureTwo (.ok "") ⟨dbWithCatalog, []⟩
        = (.httpError 400 msg, ⟨dbWithCatalog, []⟩)) :=
  have h := C20_malformed_input_rejected_before_the_service parseFeatureIDs tagText
    requestSevenFeatureTwo ⟨dbWithCatalog, []⟩
  ⟨h.1 "2_months" none (by decide), h.2 "superlike" (by decide), h.2 "" (by decide)⟩


/-! ## C18: one currently valid grant of a capability to an actor -/

theorem featureFound_of_present (env : Env) (db : DB) (featureID : UUID)
    (hfaults : env.faults = Faults.none)
    (hcat : ∃ sf ∈ db.subscription_features, sf.ID = featureID) :
    featureFound env db featureID = true := by
  obtain ⟨sf, hsf, hid⟩ := hcat
  have : (db.subscription_features.find? (fun f => decide (f.ID = featureID))).isSome
      = true := by
    rw [List.find?_isSome]
    exact ⟨sf, hsf, by simpa using hid⟩
  simp [featureFound, hfaults, Faults.none, this]

theorem grantConflict_eq_none (now : Time) (db : DB) (row : UserFeature)
    (h : ∀ g ∈ db.user_features, g.UserID = row.UserID → g.FeatureID = row.FeatureID →
      g.Status = "active" → ∃ e, g.EndDate = some e ∧ e ≤ now) :
    grantConflict now db row = none := by
  unfold grantConflict
  rw [if_neg]
  intro hany
  rw [List.any_eq_true] at hany
  obtain ⟨g, hg, hp⟩ := hany
  rw [Bool.and_eq_true, decide_eq_true_eq] at hp
  obtain ⟨⟨hu, hf, hs⟩, hopen⟩ := hp
  obtain ⟨e, he, hle⟩ := h g hg hu hf hs
  rw [he] at hopen
  simp only [decide_eq_true_eq] at hopen
  exact absurd hopen (not_lt.2 hle)

theorem grantConflict_eq_some (now : Time) (db : DB) (row g : UserFeature)
    (hg : g ∈ db.user_features) (hu : g.UserID = row.UserID)
    (hf : g.FeatureID = row.FeatureID) (hs : g.Status = "active")
    (e : Time) (he : g.EndDate = some e) (hopen : now < e) :
    grantConflict now db row = some "23505" := by
  unfold grantConflict
  rw [if_pos]
  rw [List.any_eq_true]
  refine ⟨g, hg, ?_⟩
  rw [Bool.and_eq_true, decide_eq_true_eq, he]
  exact ⟨⟨hu, hf, hs⟩, by simpa using hopen⟩

theorem grantInsertOutcome_specSchema (AddDate : Time → Int → Int → Int → Time) (env : Env)
    (db : DB) (feature : UserFeature) (period : String)
    (hfaults : env.faults = Faults.none) :
    grantInsertOutcome AddDate specSchema env db feature period
      = (grantConflict env.dbNow db
          (userFeatureRow env (grantToStore AddDate env feature period))).map LibError.pq := by
  simp [grantInsertOutcome, specSchema, execInsert, hfaults, Faults.none, userFeatureRow]

/-- With the constraint of the specification and no failure, a subscription to a feature
of the catalog that no active, non-expired grant stands against succeeds and stores its
row. -/
theorem SubscribeToFeature_free (AddDate : Time → Int → Int → Int → Time) (env : Env)
    (feature : UserFeature) (period : String) (w : World)
    (hfaults : env.faults = Faults.none)
    (hcat : ∃ sf ∈ w.db.subscription_features, sf.ID = feature.FeatureID)
    (hfree : grantConflict env.dbNow w.db
      (userFeatureRow env (grantToStore AddDate env feature period)) = none) :
    featureService.SubscribeToFeature AddDate specSchema env feature period w
      = (none, grantToStore AddDate env feature period,
          ⟨{ w.db with user_features := w.db.user_features ++
              [userFeatureRow env (grantToStore AddDate env feature period)] },
            w.trace ++ [.getFeatureByID feature.FeatureID true, .beginTx true,
              .insert "user_features" true, .commit true]⟩) := by
  have hfound := featureFound_of_present env w.db feature.FeatureID hfaults hcat
  have hout := grantInsertOutcome_specSchema AddDate env w.db feature period hfaults
  rw [hfree] at hout
  have hcommit : env.faults.commit = none := by rw [hfaults]; rfl
  have hbegin : env.faults.beginTx = none := by rw [hfaults]; rfl
  rcases SubscribeToFeature_cases AddDate specSchema env feature period w with
    ⟨hn, _⟩ | ⟨_, e, he, _⟩ | ⟨_, _, e, he, _⟩ | ⟨_, _, _, e, he, _⟩ | ⟨_, _, _, _, h⟩
  · rw [hfound] at hn; cases hn
  · rw [hbegin] at he; cases he
  · rw [hout] at he; cases he
  · rw [hcommit] at he; cases he
  · exact h

/-- With the constraint of the specification and no failure, a subscription to a feature
of the catalog that an active, non-expired grant stands against is rejected as already
subscribed and stores nothing. -/
theorem SubscribeToFeature_taken (AddDate : Time → Int → Int → Int → Time) (env : Env)
    (feature : UserFeature) (period : String) (w : World)
    (hfaults : env.faults = Faults.none)
    (hcat : ∃ sf ∈ w.db.subscription_features, sf.ID = feature.FeatureID)
    (htaken : grantConflict env.dbNow w.db
      (userFeatureRow env (grantToStore AddDate env feature period)) = some "23505") :
    featureService.SubscribeToFeature AddDate specSchema env feature period w
      = (some (.wrap "create user feature" (.sentinel .ErrFeatureAlreadySubscribed)),
          grantToStore AddDate env feature period,
          ⟨w.db, w.trace ++ [.getFeatureByID feature.FeatureID true, .beginTx true,
            .insert "user_features" false, .rollback true]⟩) := by
  have hfound := featureFound_of_present env w.db feature.FeatureID hfaults hcat
  have hout := grantInsertOutcome_specSchema AddDate env w.db feature period hfaults
  rw [htaken] at hout
  have hbegin : env.faults.beginTx = none := by rw [hfaults]; rfl
  have hroll : rollbackEvents env = [.rollback true] := by
    simp [rollbackEvents, hfaults, Faults.none]
  rcases SubscribeToFeature_cases AddDate specSchema env feature period w with
    ⟨hn, _⟩ | ⟨_, e, he, _⟩ | ⟨_, _, e, he, h⟩ | ⟨_, _, he, _⟩ | ⟨_, _, he, _⟩
  · rw [hfound] at hn; cases hn
  · rw [hbegin] at he; cases he
  · rw [hout] at he
    cases he
    rw [h, hroll]
    simp [insertError, isPgUniqueViolation, errorsAsPq]
  · rw [hout] at he; cases he
  · rw [hout] at he; cases he

/-- C18: with the constraint of the specification on `user_features`, for every actor and
capability of the catalog of which the store has no grant yet, and calls without
failures: the first `SubscribeToFeature` succeeds; a second one made while the first grant
has not ended is rejected with `ErrFeatureAlreadySubscribed` and stores nothing; a third
one made when the end of the first grant has passed succeeds; and after the second call
and after the third one, at every instant at most one stored grant of the capability to
the actor is currently valid. -/
theorem C18_subscription_exclusivity (AddDate : Time → Int → Int → Int → Time)
    (env1 env2 env3 : Env) (userID featureID : UUID) (v1 v2 v3 : Option Int)
    (p1 p2 p3 : String) (w : World)
    (hf1 : env1.faults = Faults.none) (hf2 : env2.faults = Faults.none)
    (hf3 : env3.faults = Faults.none)
    (hcat : ∃ sf ∈ w.db.subscription_features, sf.ID = featureID)
    (hfresh : ∀ g ∈ w.db.user_features, g.UserID = userID → g.FeatureID ≠ featureID)
    (hvalid : env2.dbNow < AddDate env1.now 0 (months p1) 0)
    (hpassed : AddDate env1.now 0 (months p1) 0 ≤ env3.dbNow)
    (hclock : AddDate env1.now 0 (months p1) 0 ≤ env3.now) :
    let r1 := featureService.SubscribeToFeature AddDate specSchema env1
      (grantOfRequest userID featureID v1) p1 w
    let r2 := featureService.SubscribeToFeature AddDate specSchema env2
      (grantOfRequest userID featureID v2) p2 r1.2.2
    let r3 := featureService.SubscribeToFeature AddDate specSchema env3
      (grantOfRequest userID featureID v3) p3 r2.2.2
    r1.1 = none ∧
    (∃ err, r2.1 = some err ∧
      errorsIs err (.sentinel .ErrFeatureAlreadySubscribed) = true) ∧
    r2.2.2.db = r1.2.2.db ∧
    r3.1 = none ∧
    (∀ t, (validGrants r2.2.2.db userID featureID t).length ≤ 1) ∧
    (∀ t, (validGrants r3.2.2.db userID featureID t).length ≤ 1) := by
  intro r1 r2 r3
  have h1 : r1 = _ := SubscribeToFeature_free AddDate env1
    (grantOfRequest userID featureID v1) p1 w hf1 hcat
    (grantConflict_eq_none _ _ _ (fun g hg hu hf _ => absurd hf (hfresh g hg hu)))
  have h2 : r2 = _ := SubscribeToFeature_taken AddDate env2
    (grantOfRequest userID featureID v2) p2 r1.2.2 hf2 (by rw [h1]; exact hcat)
    (grantConflict_eq_some _ _ _
      (userFeatureRow env1 (grantToStore AddDate env1 (grantOfRequest userID featureID v1) p1))
      (by rw [h1]; exact List.mem_append_right _ (List.mem_singleton.2 rfl))
      rfl rfl rfl _ rfl hvalid)
  have hdb2 : r2.2.2.db = r1.2.2.db := by rw [h2]
  have h3 : r3 = _ := SubscribeToFeature_free AddDate env3
    (grantOfRequest userID featureID v3) p3 r2.2.2 hf3
    (by rw [hdb2, h1]; exact hcat)
    (grantConflict_eq_none _ _ _ (by
      rw [hdb2, h1]
      intro g hg hu hf _
      rcases List.mem_append.1 hg with hg | hg
      · exact absurd hf (hfresh g hg hu)
      · rw [List.mem_singleton.1 hg]
        exact ⟨_, rfl, hpassed⟩))
  have hold : ∀ t, w.db.user_features.filter (fun g =>
      decide (g.UserID = userID ∧ g.FeatureID = featureID ∧ currentlyValid t g)) = [] := by
    intro t
    rw [List.filter_eq_nil_iff]
    intro g hg hp
    rw [decide_eq_true_eq] at hp
    exact hfresh g hg hp.1 hp.2.1
  refine ⟨by rw [h1], ⟨_, by rw [h2], by decide⟩, hdb2, by rw [h3], ?_, ?_⟩
  · intro t
    rw [hdb2, h1]
    simp only [validGrants, List.filter_append, hold, List.nil_append]
    exact (List.length_filter_le _ _).trans (by simp)
  · intro t
    rw [h3]
    simp only [validGrants, List.filter_append, hdb2]
    rw [h1]
    simp only [List.filter_append, hold, List.nil_append, List.length_append]
    by_cases hv1 : currentlyValid t
      (userFeatureRow env1 (grantToStore AddDate env1 (grantOfRequest userID featureID v1) p1))
    · have hv3 : ¬ currentlyValid t (userFeatureRow env3
          (grantToStore AddDate env3 (grantOfRequest userID featureID v3) p3)) := by
        intro hv3
        have ha : t < AddDate env1.now 0 (months p1) 0 := hv1.2.2 _ rfl
        have hb : env3.now ≤ t := hv3.2.1
        exact absurd (lt_of_le_of_lt (le_trans hclock hb) ha) (lt_irrefl _)
      simp only [List.filter_cons, hv1, hv3, and_false, and_true, decide_False,
        List.filter_nil, Bool.false_eq_true, if_false, List.length_nil, add_zero]
      split <;> simp
    · simp only [List.filter_cons, hv1, and_false, decide_False, List.filter_nil,
        Bool.false_eq_true, if_false, List.length_nil, zero_add]
      split <;> simp

/-- C18 at a concrete input: actor 7 subscribes to the feature 2 for three months at noon
of 2024-01-31, again a day later, and again a year later. -/
theorem C18_subscription_exclusivity_witness :
    (featureService.SubscribeToFeature (Time.AddDateIn Location.UTC) specSchema envJanuary31
        (grantOfRequest 7 2 none) "3_months" ⟨dbWithCatalog, []⟩).1 = none ∧
    (∀ t, (validGrants
        (featureService.SubscribeToFeature (Time.AddDateIn Location.UTC) specSchema
          (envAt (time.Date 2025 1 31 12 0 0 0)) (grantOfRequest 7 2 none) "1_month"
          (featureService.SubscribeToFeature (Time.AddDateIn Location.UTC) specSchema
            (envAt (time.Date 2024 2 1 12 0 0 0)) (grantOfRequest 7 2 none) "1_month"
            (featureService.SubscribeToFeature (Time.AddDateIn Location.UTC) specSchema envJanuary31
              (grantOfRequest 7 2 none) "3_months" ⟨dbWithCatalog, []⟩).2.2).2.2).2.2.db
        7 2 t).length ≤ 1) :=
  have h := C18_subscription_exclusivity (Time.AddDateIn Location.UTC) envJanuary31
    (envAt (time.Date 2024 2 1 12 0 0 0)) (envAt (time.Date 2025 1 31 12 0 0 0)) 7 2
    none none none "3_months" "1_month" "1_month" ⟨dbWithCatalog, []⟩ rfl rfl rfl
    (by decide) (by decide) (by decide) (by decide) (by decide)
  ⟨h.1, h.2.2.2.2.2⟩


/-! ## C21 and C23: the answers of `Handler.CreateProfileResponse` -/

/-- The chain of an error holds at most one of the variables of `errors.go`. -/
theorem errorsIs_sentinel_unique (err : GoError) (a b : Sentinel)
    (ha : errorsIs err (.sentinel a) = true) (hb : errorsIs err (.sentinel b) = true) :
    a = b := by
  induction err with
  | sentinel s =>
    simp [errorsIs] at ha hb
    rw [← ha, ← hb]
  | lib e => simp [errorsIs] at ha
  | wrap msg inner ih =>
    simp [errorsIs] at ha hb
    exact ih ha hb

theorem Handler.CreateProfileResponse_of_wellFormed (uuidParse : String → Option UUID)
    (validate : String → Option String)
    (profileSvc : Context → UUID → UUID → String → World → Option GoError × World)
    (c : EchoContext) (fromUserID toUserID : UUID) (responseType : String) (w : World)
    (hreq : wellFormed uuidParse validate c fromUserID toUserID responseType) :
    Handler.CreateProfileResponse uuidParse validate profileSvc c (.ok responseType) w
      = responseAnswer (profileSvc c.requestContext fromUserID toUserID responseType w) := by
  obtain ⟨uid, huid, hne, hparse, hparam, hvalid⟩ := hreq
  simp only [Handler.CreateProfileResponse, huid, hne, if_false, hparse, hparam, hvalid]
  generalize profileSvc c.requestContext fromUserID toUserID responseType w = r
  obtain ⟨err, w1⟩ := r
  cases err <;> rfl

/-- C21: for a well-formed request and every profile service: an error that wraps
`ErrDailyInteractionLimitExceeded` is answered 429 'daily interaction limit exceeded', an
error that wraps `ErrConflictingResponse` is answered 409 'you already responded to this
profile', the two answers never have the same status, and a nil error is answered 201
without a body. -/
theorem C21_limit_and_conflict_are_told_apart (uuidParse : String → Option UUID)
    (validate : String → Option String)
    (profileSvc : Context → UUID → UUID → String → World → Option GoError × World)
    (c : EchoContext) (fromUserID toUserID : UUID) (responseType : String) (w : World)
    (hreq : wellFormed uuidParse validate c fromUserID toUserID responseType) :
    let outcome := profileSvc c.requestContext fromUserID toUserID responseType w
    let answer :=
      Handler.CreateProfileResponse uuidParse validate profileSvc c (.ok responseType) w
    (∀ err, outcome.1 = some err →
      errorsIs err (.sentinel .ErrDailyInteractionLimitExceeded) = true →
      answer = (.httpError 429 "daily interaction limit exceeded", outcome.2)) ∧
    (∀ err, outcome.1 = some err →
      errorsIs err (.sentinel .ErrConflictingResponse) = true →
      answer = (.httpError 409 "you already responded to this profile", outcome.2)) ∧
    (outcome.1 = none → answer = (.noContent 201, outcome.2)) ∧
    (∀ (other : Context → UUID → UUID → String → World → Option GoError × World)
      (w2 : World) (err1 err2 : GoError),
      outcome.1 = some err1 →
      errorsIs err1 (.sentinel .ErrDailyInteractionLimitExceeded) = true →
      (other c.requestContext fromUserID toUserID responseType w2).1 = some err2 →
      errorsIs err2 (.sentinel .ErrConflictingResponse) = true →
      answer.1.code ≠
        (Handler.CreateProfileResponse uuidParse validate other c (.ok responseType)
          w2).1.code) := by
  intro outcome answer
  have hanswer : ∀ (svc : Context → UUID → UUID → String → World → Option GoError × World)
      (w0 : World),
      Handler.CreateProfileResponse uuidParse validate svc c (.ok responseType) w0
        = responseAnswer (svc c.requestContext fromUserID toUserID responseType w0) := by
    intro svc w0
    exact Handler.CreateProfileResponse_of_wellFormed uuidParse validate svc c fromUserID
      toUserID responseType w0 hreq
  have hlimit : ∀ (o : Option GoError × World) (err : GoError), o.1 = some err →
      errorsIs err (.sentinel .ErrDailyInteractionLimitExceeded) = true →
      responseAnswer o = (.httpError 429 "daily interaction limit exceeded", o.2) := by
    rintro ⟨e, w1⟩ err he hl
    cases he
    simp [responseAnswer, hl, StatusTooManyRequests]
  have hconflict : ∀ (o : Option GoError × World) (err : GoError), o.1 = some err →
      errorsIs err (.sentinel .ErrConflictingResponse) = true →
      responseAnswer o = (.httpError 409 "you already responded to this profile", o.2) := by
    rintro ⟨e, w1⟩ err he hc
    cases he
    have hl : errorsIs err (.sentinel .ErrDailyInteractionLimitExceeded) = false := by
      cases h : errorsIs err (.sentinel .ErrDailyInteractionLimitExceeded)
      · rfl
      · exact absurd (errorsIs_sentinel_unique err _ _ h hc) (by decide)
    simp [responseAnswer, hl, hc, StatusConflict]
  refine ⟨?_, ?_, ?_, ?_⟩
  · intro err he hl
    exact (hanswer profileSvc w).trans (hlimit _ err he hl)
  · intro err he hc
    exact (hanswer profileSvc w).trans (hconflict _ err he hc)
  · intro he
    refine (hanswer profileSvc w).trans ?_
    show responseAnswer outcome = _
    obtain ⟨e, w1⟩ := outcome
    cases he
    rfl
  · intro other w2 err1 err2 h1 hl h2 hc
    have ha : answer = _ := (hanswer profileSvc w).trans (hlimit _ err1 h1 hl)
    rw [ha, hanswer other w2, hconflict _ err2 h2 hc]
    simp [HandlerResult.code]

/-- C21 at a concrete input: the eleventh interaction of the day of actor 7 is answered
429. -/
theorem C21_limit_and_conflict_are_told_apart_witness :
    Handler.CreateProfileResponse parseKnown (validateResponseType tagText)
        (profileService.CreateProfileResponse pairUniqueSchema envNoon) requestSevenToTwenty
        (.ok "like") ⟨dbWithResponsesToday 10, []⟩
      = (.httpError 429 "daily interaction limit exceeded",
          (profileService.CreateProfileResponse pairUniqueSchema envNoon [] 7 20 "like"
            ⟨dbWithResponsesToday 10, []⟩).2) :=
  (C21_limit_and_conflict_are_told_apart parseKnown (validateResponseType tagText)
      (profileService.CreateProfileResponse pairUniqueSchema envNoon) requestSevenToTwenty
      7 20 "like" ⟨dbWithResponsesToday 10, []⟩
      ⟨"7", rfl, by decide, by decide, by decide, by decide⟩).1
    (.sentinel .ErrDailyInteractionLimitExceeded) (by decide) (by decide)

/-- An error of the profile service that is neither the daily-limit error nor the
conflicting-response error is answered 500 with the fixed message 'failed to create
response', whatever its text. -/
theorem Handler.CreateProfileResponse_of_other_error (uuidParse : String → Option UUID)
    (validate : String → Option String)
    (profileSvc : Context → UUID → UUID → String → World → Option GoError × World)
    (c : EchoContext) (fromUserID toUserID : UUID) (responseType : String) (w : World)
    (hreq : wellFormed uuidParse validate c fromUserID toUserID responseType)
    (err : GoError)
    (herr : (profileSvc c.requestContext fromUserID toUserID responseType w).1 = some err)
    (hlimit : errorsIs err (.sentinel .ErrDailyInteractionLimitExceeded) = false)
    (hconflict : errorsIs err (.sentinel .ErrConflictingResponse) = false) :
    (Handler.CreateProfileResponse uuidParse validate profileSvc c (.ok responseType) w).1
      = .httpError 500 "failed to create response" := by
  rw [Handler.CreateProfileResponse_of_wellFormed uuidParse validate profileSvc c fromUserID
    toUserID responseType w hreq]
  generalize profileSvc c.requestContext fromUserID toUserID responseType w = r at herr
  obtain ⟨e, w1⟩ := r
  cases herr
  simp [responseAnswer, hlimit, hconflict, StatusInternalServerError]

/-- C23 (fails on the code): the profile service returns `errors.New("service error")`,
which is neither the daily-limit error nor the conflicting-response error; the handler
answers 500 with the message 'failed to create response', not with the text 'service
error' of the error, which `Handler.GetProfiles` does give for the same error. -/
theorem C23_message_is_not_the_error_text :
    GoError.Error tagText (.lib (.failure "service error")) = "service error" ∧
    errorsIs (.lib (.failure "service error"))
      (.sentinel .ErrDailyInteractionLimitExceeded) = false ∧
    errorsIs (.lib (.failure "service error")) (.sentinel .ErrConflictingResponse) = false ∧
    Handler.CreateProfileResponse parseKnown (validateResponseType tagText)
        (fun _ _ _ _ w1 => (some (.lib (.failure "service error")), w1))
        requestSevenToTwenty (.ok "like") ⟨dbWithResponsesToday 0, []⟩
      = (.httpError 500 "failed to create response", ⟨dbWithResponsesToday 0, []⟩) ∧
    Handler.GetProfiles parseKnown (GoError.Error tagText)
        (fun _ _ w1 => (.error (.lib (.failure "service error")), w1))
        requestSevenToTwenty ⟨dbWithResponsesToday 0, []⟩
      = (.httpError 500 "service error", ⟨dbWithResponsesToday 0, []⟩) := by
  refine ⟨by decide, by decide, by decide, by decide, by decide⟩


/-! ## C22: the daily limit in `profileService.GetProfiles` -/

theorem GetProfiles_eq (random : List User → List User) (env : Env) (ctx : Context)
    (userID : UUID) (w : World) :
    profileService.GetProfiles random env ctx userID w =
      match profileService.checkDailyLimit env ctx userID w with
      | (some err, w1) => (.error err, w1)
      | (none, w1) => repository.GetProfiles random env userID 1 w1 := rfl

/-- For a context in which `HasFeature` finds no daily_responses feature and a count read
that returns, `profileService.GetProfiles` returns `ErrDailyInteractionLimitExceeded`
without querying the candidates exactly when the actor has 10 or more interactions since
the start of the UTC day, and otherwise returns what `repository.GetProfiles` returns for
the limit 1; when `HasFeature` finds the feature it always returns the latter. -/
theorem GetProfiles_denied_iff (random : List User → List User) (env : Env) (ctx : Context)
    (userID : UUID) (w : World) :
    let count := (interactionsSince w.db userID (startOfUTCDay env.now)).length
    let read : Event := .getDailyInteractionCount userID (startOfUTCDay env.now) true
    let res := profileService.GetProfiles random env ctx userID w
    (HasFeature ctx FeatureDailyResponses = true →
      res = repository.GetProfiles random env userID 1 w) ∧
    (HasFeature ctx FeatureDailyResponses = false →
      env.faults.getDailyInteractionCount = none →
      (DAILY_LIMIT ≤ count →
        res = (.error (.sentinel .ErrDailyInteractionLimitExceeded),
          ⟨w.db, w.trace ++ [read]⟩)) ∧
      (count < DAILY_LIMIT →
        res = repository.GetProfiles random env userID 1 ⟨w.db, w.trace ++ [read]⟩)) := by
  intro count read res
  have hres : res = _ := GetProfiles_eq random env ctx userID w
  rcases checkDailyLimit_cases env ctx userID w with
    ⟨hf, hc⟩ | ⟨hf, e, he, _⟩ | ⟨hf, _, hge, hc⟩ | ⟨hf, _, hlt, hc⟩
  · rw [hc] at hres
    exact ⟨fun _ => hres, fun h => (by rw [hf] at h; cases h)⟩
  · exact ⟨fun h => (by rw [hf] at h; cases h), fun _ h => (by rw [he] at h; cases h)⟩
  · rw [hc] at hres
    refine ⟨fun h => (by rw [hf] at h; cases h), fun _ _ => ⟨fun _ => hres, fun h => ?_⟩⟩
    exact absurd hge (Nat.not_le.mpr h)
  · rw [hc] at hres
    refine ⟨fun h => (by rw [hf] at h; cases h), fun _ _ => ⟨fun h => ?_, fun _ => hres⟩⟩
    exact absurd hlt (Nat.not_lt.mpr h)

/-- C22 (fails on the code): the request context built by `SetActiveFeatures` carries a
feature named daily_responses, actor 7 has 10 interactions today and the users 8, 9 and 10
are candidates; `profileService.GetProfiles` returns `ErrDailyInteractionLimitExceeded`
and no profiles, after the count read alone, where the repository would return a
candidate for the limit 1. -/
theorem C22_unlimited_actor_is_denied_profiles :
    (GetActiveFeatures ctxUnlimited).1.any
        (fun f => f.FeatureName == FeatureDailyResponses) = true ∧
    HasFeature ctxUnlimited FeatureDailyResponses = false ∧
    (profileService.GetProfiles id envNoon ctxUnlimited 7
        ⟨{ dbWithResponsesToday 10 with users := [userRow 7, userRow 8, userRow 9] },
          []⟩).1 = .error (.sentinel .ErrDailyInteractionLimitExceeded) ∧
    (profileService.GetProfiles id envNoon ctxUnlimited 7
        ⟨{ dbWithResponsesToday 10 with users := [userRow 7, userRow 8, userRow 9] },
          []⟩).2.trace = [.getDailyInteractionCount 7 (739000 * (24 * Hour)) true] ∧
    (repository.GetProfiles id envNoon 7 1
        ⟨{ dbWithResponsesToday 10 with users := [userRow 7, userRow 8, userRow 9] },
          []⟩).1 = .ok [profileColumns (userRow 8)] := by
  refine ⟨by decide, by decide, rfl, by decide, rfl⟩

/-! ## C29: the candidates of `repository.GetProfiles` -/

theorem mem_candidateRows (db : DB) (userID : UUID) (u : User) :
    u ∈ candidateRows db userID ↔
      u ∈ db.users ∧ u.ID ≠ userID ∧
        ∀ r ∈ db.profile_responses, r.FromUserID = userID → r.ToUserID ≠ u.ID := by
  simp only [candidateRows, List.mem_filter, Bool.and_eq_true, decide_eq_true_eq,
    Bool.not_eq_true', List.contains_eq_any_beq, List.any_eq_false, List.mem_map,
    beq_iff_eq, forall_exists_index, and_imp]
  constructor
  · rintro ⟨hu, hne, h⟩
    exact ⟨hu, hne, fun r hr hfrom => Ne.symm (h r.ToUserID r hr hfrom rfl)⟩
  · rintro ⟨hu, hne, h⟩
    exact ⟨hu, hne, fun x r hr hfrom hx => hx ▸ Ne.symm (h r hr hfrom)⟩

/-- C29: for every caller, limit and store, with `ORDER BY RANDOM()` some order of the
selected rows: when the query returns, `repository.GetProfiles` returns at most `limit`
users, each of them a row of `users` (without its password hash) that is not the caller
and toward which the caller has recorded no interaction; the query returns whenever the
store does not fail and the limit is not negative; and a user other than the caller
toward whom the caller has recorded no interaction, whether that user has responded to
the caller or not, is among the returned users unless `limit` users are returned. -/
theorem C29_candidates_exclude_caller_and_answered (random : List User → List User)
    (hrandom : ∀ rows, (random rows).Perm rows) (env : Env) (userID : UUID) (limit : Int)
    (w : World) :
    (∀ users, (repository.GetProfiles random env userID limit w).1 = .ok users →
      (users.length : Int) ≤ limit ∧
      ∀ u ∈ users, u.ID ≠ userID ∧
        (∀ r ∈ w.db.profile_responses, r.FromUserID = userID → r.ToUserID ≠ u.ID) ∧
        ∃ row ∈ w.db.users, u = profileColumns row) ∧
    (env.faults.getProfiles = none → 0 ≤ limit →
      ∃ users, (repository.GetProfiles random env userID limit w).1 = .ok users ∧
        ∀ b ∈ w.db.users, b.ID ≠ userID →
          (∀ r ∈ w.db.profile_responses, r.FromUserID = userID → r.ToUserID ≠ b.ID) →
          profileColumns b ∈ users ∨ (users.length : Int) = limit) := by
  have hmem : ∀ u, u ∈ random (candidateRows w.db userID) ↔
      u ∈ candidateRows w.db userID := fun u => (hrandom _).mem_iff
  constructor
  · intro users hok
    unfold repository.GetProfiles at hok
    cases hf : env.faults.getProfiles with
    | some e => rw [hf] at hok; cases hok
    | none =>
      rw [hf] at hok
      by_cases hl : limit < 0
      · simp only [hl, if_true] at hok
        cases hok
      · simp only [hl, if_false] at hok
        injection hok with hok
        subst hok
        constructor
        · rw [List.length_map, List.length_take]
          have : ((min limit.toNat (random (candidateRows w.db userID)).length : Nat) : Int)
              ≤ limit.toNat := by exact_mod_cast Nat.min_le_left _ _
          rw [Int.toNat_of_nonneg (not_lt.1 hl)] at this
          exact this
        · intro u hu
          rw [List.mem_map] at hu
          obtain ⟨row, hrow, rfl⟩ := hu
          have hrow2 := (mem_candidateRows w.db userID row).1
            ((hmem row).1 (List.mem_of_mem_take hrow))
          exact ⟨hrow2.2.1, hrow2.2.2, row, hrow2.1, rfl⟩
  · intro hf hl
    refine ⟨((random (candidateRows w.db userID)).take limit.toNat).map profileColumns,
      ?_, ?_⟩
    · simp only [repository.GetProfiles, hf, not_lt.2 hl, if_false]
    · intro b hb hne hfree
      have hb2 : b ∈ random (candidateRows w.db userID) :=
        (hmem b).2 ((mem_candidateRows w.db userID b).2 ⟨hb, hne, hfree⟩)
      by_cases hlen : (random (candidateRows w.db userID)).length ≤ limit.toNat
      · left
        rw [List.take_of_length_le hlen]
        exact List.mem_map_of_mem _ hb2
      · right
        rw [List.length_map, List.length_take, Nat.min_eq_left (Nat.le_of_lt (Nat.lt_of_not_le hlen))]
        exact Int.toNat_of_nonneg hl

/-- C29 at a concrete input: actor 7 has responded to user 8 and user 9 has responded to
actor 7; for the limit 5 the users 9 and 10 are returned. -/
theorem C29_candidates_exclude_caller_and_answered_witness :
    ∃ users, (repository.GetProfiles id envNoon 7 5 ⟨dbWithProfiles, []⟩).1 = .ok users ∧
      (profileColumns (userRow 9) ∈ users ∨ (users.length : Int) = 5) ∧
      users = [profileColumns (userRow 9), profileColumns (userRow 10)] :=
  have h := (C29_candidates_exclude_caller_and_answered id (fun _ => List.Perm.refl _)
    envNoon 7 5 ⟨dbWithProfiles, []⟩).2 rfl (by decide)
  ⟨h.choose, h.choose_spec.1,
    h.choose_spec.2 (userRow 9) (by decide) (by decide) (by decide),
    Except.ok.inj (h.choose_spec.1.symm.trans rfl)⟩


/-! ## C24: the validation of the password of a sign-up -/

theorem PasswordValidator_iff (p : String) :
    PasswordValidator p = true ↔
      (∃ c ∈ p.toList, 'A' ≤ c ∧ c ≤ 'Z') ∧ (∃ c ∈ p.toList, 'a' ≤ c ∧ c ≤ 'z') ∧
      (∃ c ∈ p.toList, '0' ≤ c ∧ c ≤ '9') ∧ (∃ c ∈ p.toList, c ∈ specialCharacters) := by
  simp only [PasswordValidator, matchesClass, Bool.and_eq_true, List.any_eq_true,
    decide_eq_true_eq, and_assoc]
  simp

/-- C24 as the code has it: `PasswordValidator` accepts a string exactly when it has a
character in A-Z, one in a-z, one in 0-9 and one of the listed special characters; a
bound sign-up whose password has at least 8 characters and lacks one of the four classes
is answered 400 with the message about the password, whatever the other fields and the
service are: the service is not called and the store and the trace are as before. -/
theorem C24_password_classes (isEmail : String → Bool)
    (errorText : List FieldError → String)
    (userSvc : Context → User → String → World → Option GoError × User × World)
    (c : EchoContext) (req : SignUpRequest) (w : World)
    (hlength : 8 ≤ req.Password.length)
    (hclass : ¬ ((∃ c ∈ req.Password.toList, 'A' ≤ c ∧ c ≤ 'Z') ∧
      (∃ c ∈ req.Password.toList, 'a' ≤ c ∧ c ≤ 'z') ∧
      (∃ c ∈ req.Password.toList, '0' ≤ c ∧ c ≤ '9') ∧
      (∃ c ∈ req.Password.toList, c ∈ specialCharacters))) :
    (∀ p : String, PasswordValidator p = true ↔
      (∃ c ∈ p.toList, 'A' ≤ c ∧ c ≤ 'Z') ∧ (∃ c ∈ p.toList, 'a' ≤ c ∧ c ≤ 'z') ∧
      (∃ c ∈ p.toList, '0' ≤ c ∧ c ≤ '9') ∧ (∃ c ∈ p.toList, c ∈ specialCharacters)) ∧
    Handler.SignUp (validateSignUp isEmail) errorText userSvc c (.ok req) w
      = (.httpError 400 passwordMessage, w) := by
  refine ⟨PasswordValidator_iff, ?_⟩
  have hfalse : PasswordValidator req.Password = false := by
    cases h : PasswordValidator req.Password
    · rfl
    · exact absurd ((PasswordValidator_iff _).1 h) hclass
  have hne : req.Password ≠ "" := by
    intro h
    rw [h] at hlength
    exact absurd hlength (by decide)
  have hfield : validateField "Password"
      [("required", decide (req.Password ≠ "")), ("min", decide (8 ≤ req.Password.length)),
        ("password", PasswordValidator req.Password)]
      = [{ Field := "Password", Tag := "password" }] := by
    simp [validateField, hne, hlength, hfalse]
  have hmem : ({ Field := "Password", Tag := "password" } : FieldError)
      ∈ validateSignUp isEmail req := by
    unfold validateSignUp
    rw [hfield]
    simp
  have hnonempty : validateSignUp isEmail req ≠ [] := List.ne_nil_of_mem hmem
  have hany : (validateSignUp isEmail req).any (fun e => e.Tag == "password") = true :=
    List.any_eq_true.2 ⟨_, hmem, by decide⟩
  simp only [Handler.SignUp, hnonempty, hany, ne_eq, not_false_eq_true, if_true]
  rfl

/-- C24 at a concrete input: the password password123! has no uppercase letter. -/
theorem C24_password_classes_witness :
    PasswordValidator "password123!" = false ∧
    ∀ userSvc,
      Handler.SignUp (validateSignUp hasAtSign) (validationErrorText "SignUpRequest") userSvc
          publicRequest (.ok (signUpRequest "password123!")) ⟨dbWithCatalog, []⟩
        = (.httpError 400 passwordMessage, ⟨dbWithCatalog, []⟩) :=
  ⟨by decide, fun userSvc =>
    (C24_password_classes hasAtSign (validationErrorText "SignUpRequest") userSvc
      publicRequest (signUpRequest "password123!") ⟨dbWithCatalog, []⟩ (by decide)
      (by decide)).2⟩

/-- C24 (fails on the code): the password pass1! has no uppercase letter and 6
characters; the check `min=8` of the field fails before the check `password` is reached,
and the sign-up is answered 400 with the text of that validation error, not with the
message about the password. -/
theorem C24_short_password_other_message :
    PasswordValidator "pass1!" = false ∧
    validateSignUp hasAtSign (signUpRequest "pass1!")
      = [{ Field := "Password", Tag := "min" }] ∧
    (∀ userSvc,
      Handler.SignUp (validateSignUp hasAtSign) (validationErrorText "SignUpRequest") userSvc
          publicRequest (.ok (signUpRequest "pass1!")) ⟨dbWithCatalog, []⟩
        = (.httpError 400
            (validationErrorText "SignUpRequest" [{ Field := "Password", Tag := "min" }]),
            ⟨dbWithCatalog, []⟩)) ∧
    validationErrorText "SignUpRequest" [{ Field := "Password", Tag := "min" }]
      ≠ passwordMessage := by
  refine ⟨by decide, by decide, fun _ => rfl, by decide⟩


/-! ## C25: the answers of a login -/

/-- The lookup of an email that no user has returns `ErrUserNotFound`. -/
theorem GetUserByEmail_of_unknown (env : Env) (email : String) (w : World)
    (hread : env.faults.getUserByEmail = none)
    (hunknown : ∀ u ∈ w.db.users, u.Email ≠ email) :
    repository.GetUserByEmail env email w
      = (.error (.sentinel .ErrUserNotFound), w.record (.getUserByEmail email false)) := by
  have hfind : w.db.users.find? (fun u => decide (u.Email = email)) = none := by
    rw [List.find?_eq_none]
    intro u hu
    simpa using hunknown u hu
  simp only [repository.GetUserByEmail, hread, hfind]
  rfl

/-- The lookup of an email that a user has returns the first such user. -/
theorem GetUserByEmail_of_known (env : Env) (email : String) (w : World)
    (hread : env.faults.getUserByEmail = none)
    (hknown : ∃ u ∈ w.db.users, u.Email = email) :
    ∃ user, user.Email = email ∧ user ∈ w.db.users ∧
      repository.GetUserByEmail env email w
        = (.ok user, w.record (.getUserByEmail email true)) := by
  obtain ⟨u, hu, he⟩ := hknown
  cases hfind : w.db.users.find? (fun u => decide (u.Email = email)) with
  | none =>
    rw [List.find?_eq_none] at hfind
    exact absurd (by simpa using he) (hfind u hu)
  | some user =>
    refine ⟨user, by simpa using List.find?_some hfind, List.mem_of_find?_eq_some hfind, ?_⟩
    simp only [repository.GetUserByEmail, hread, hfind]

theorem Handler.Login_of_valid (validate : String → String → List FieldError)
    (errorText : List FieldError → String)
    (userSvc : Context → String → String → World → Except GoError String × World)
    (c : EchoContext) (email password : String) (w : World)
    (hvalid : validate email password = []) :
    Handler.Login validate errorText userSvc c (.ok (email, password)) w
      = match userSvc c.requestContext email password w with
        | (.error err, w1) =>
          if errorsIs err (.sentinel .ErrInvalidCredentials) then
            (.httpError StatusUnauthorized "invalid credentials", w1)
          else if errorsIs err (.sentinel .ErrUserNotFound) then
            (.httpError StatusUnauthorized "invalid credentials", w1)
          else (.httpError StatusInternalServerError "failed to login", w1)
        | (.ok token, w1) => (.jsonToken StatusOK token, w1) := by
  simp only [Handler.Login, hvalid, ne_eq, not_true_eq_false, if_false]

/-- C25: for a login request that binds and passes the validation. With the user service
of the repository and a lookup that the store answers: for an email that no user has the
service returns an error that wraps `ErrUserNotFound`, for the email of a user with a
password that does not match it returns `ErrInvalidCredentials`, and the handler gives
the same answer to both, 401 'invalid credentials'. For every user service: an error
that is one of the two is answered 401 'invalid credentials', every other error
500 'failed to login', a nil error 200 with the token, and no error is answered 200. -/
theorem C25_unknown_email_and_wrong_password_alike
    (CompareHashAndPassword : String → String → Option LibError)
    (SignedString : UUID → String → Int → Except LibError String)
    (validate : String → String → List FieldError) (errorText : List FieldError → String)
    (c : EchoContext) (email password : String)
    (hvalid : validate email password = []) :
    (∀ (envA envB : Env) (wA wB : World) (emailB passwordB : String),
      validate emailB passwordB = [] →
      envA.faults.getUserByEmail = none → envB.faults.getUserByEmail = none →
      (∀ u ∈ wA.db.users, u.Email ≠ email) →
      (∃ u ∈ wB.db.users, u.Email = emailB) →
      (∀ u ∈ wB.db.users, u.Email = emailB →
        CompareHashAndPassword u.PasswordHash passwordB ≠ none) →
      (∃ errA, (userService.Login CompareHashAndPassword SignedString envA email password
            wA).1 = .error errA ∧
          errorsIs errA (.sentinel .ErrUserNotFound) = true) ∧
      (∃ errB, (userService.Login CompareHashAndPassword SignedString envB emailB passwordB
            wB).1 = .error errB ∧
          errorsIs errB (.sentinel .ErrInvalidCredentials) = true) ∧
      (Handler.Login validate errorText
          (fun _ e p w1 => userService.Login CompareHashAndPassword SignedString envA e p w1)
          c (.ok (email, password)) wA).1
        = .httpError 401 "invalid credentials" ∧
      (Handler.Login validate errorText
          (fun _ e p w1 => userService.Login CompareHashAndPassword SignedString envB e p w1)
          c (.ok (emailB, passwordB)) wB).1
        = .httpError 401 "invalid credentials") ∧
    (∀ (userSvc : Context → String → String → World → Except GoError String × World)
      (w : World),
      (∀ err, (userSvc c.requestContext email password w).1 = .error err →
        (errorsIs err (.sentinel .ErrInvalidCredentials) = true ∨
            errorsIs err (.sentinel .ErrUserNotFound) = true →
          (Handler.Login validate errorText userSvc c (.ok (email, password)) w).1
            = .httpError 401 "invalid credentials") ∧
        (errorsIs err (.sentinel .ErrInvalidCredentials) = false →
            errorsIs err (.sentinel .ErrUserNotFound) = false →
          (Handler.Login validate errorText userSvc c (.ok (email, password)) w).1
            = .httpError 500 "failed to login")) ∧
      (∀ token, (userSvc c.requestContext email password w).1 = .ok token →
        (Handler.Login validate errorText userSvc c (.ok (email, password)) w).1
          = .jsonToken 200 token) ∧
      (∀ token, (Handler.Login validate errorText userSvc c (.ok (email, password)) w).1
          = .jsonToken 200 token →
        (userSvc c.requestContext email password w).1 = .ok token)) := by
  have hcases : ∀ (userSvc : Context → String → String → World →
        Except GoError String × World) (e p : String) (w : World),
      validate e p = [] →
      (∀ err, (userSvc c.requestContext e p w).1 = .error err →
        (errorsIs err (.sentinel .ErrInvalidCredentials) = true ∨
            errorsIs err (.sentinel .ErrUserNotFound) = true →
          (Handler.Login validate errorText userSvc c (.ok (e, p)) w).1
            = .httpError 401 "invalid credentials") ∧
        (errorsIs err (.sentinel .ErrInvalidCredentials) = false →
            errorsIs err (.sentinel .ErrUserNotFound) = false →
          (Handler.Login validate errorText userSvc c (.ok (e, p)) w).1
            = .httpError 500 "failed to login")) ∧
      (∀ token, (userSvc c.requestContext e p w).1 = .ok token →
        (Handler.Login validate errorText userSvc c (.ok (e, p)) w).1
          = .jsonToken 200 token) ∧
      (∀ token, (Handler.Login validate errorText userSvc c (.ok (e, p)) w).1
          = .jsonToken 200 token →
        (userSvc c.requestContext e p w).1 = .ok token) := by
    intro userSvc e p w hv
    rw [Handler.Login_of_valid validate errorText userSvc c e p w hv]
    generalize userSvc c.requestContext e p w = r
    obtain ⟨res, w1⟩ := r
    cases res with
    | error err =>
      refine ⟨?_, fun token h => (by cases h), ?_⟩
      · intro err2 h
        cases h
        constructor
        · intro hor
          by_cases h1 : errorsIs err (.sentinel .ErrInvalidCredentials) = true
          · simp [h1, StatusUnauthorized]
          · have h2 := hor.resolve_left h1
            simp [h1, h2, StatusUnauthorized]
        · intro h1 h2
          simp [h1, h2, StatusInternalServerError]
      · intro token h
        simp only at h
        split_ifs at h
    | ok token =>
      refine ⟨fun err h => (by cases h), ?_, ?_⟩
      · intro t h
        cases h
        rfl
      · intro t h
        cases h
        rfl
  refine ⟨?_, fun userSvc w => hcases userSvc email password w hvalid⟩
  intro envA envB wA wB emailB passwordB hvalidB hreadA hreadB hunknown hknown hwrong
  have hA : userService.Login CompareHashAndPassword SignedString envA email password wA
      = (.error (.wrap "get user" (.sentinel .ErrUserNotFound)),
          wA.record (.getUserByEmail email false)) := by
    simp only [userService.Login, GetUserByEmail_of_unknown envA email wA hreadA hunknown]
  obtain ⟨user, huser, hmem, hget⟩ := GetUserByEmail_of_known envB emailB wB hreadB hknown
  have hB : userService.Login CompareHashAndPassword SignedString envB emailB passwordB wB
      = (.error (.sentinel .ErrInvalidCredentials),
          wB.record (.getUserByEmail emailB true)) := by
    simp only [userService.Login, hget]
    cases hc : CompareHashAndPassword user.PasswordHash passwordB with
    | none => exact absurd hc (hwrong user hmem huser)
    | some e => rfl
  refine ⟨⟨_, by rw [hA], by decide⟩, ⟨_, by rw [hB], by decide⟩, ?_, ?_⟩
  · exact ((hcases _ email password wA hvalid).1 _ (by rw [hA])).1 (Or.inr (by decide))
  · exact ((hcases _ emailB passwordB wB hvalidB).1 _ (by rw [hB])).1 (Or.inl (by decide))

/-- C25 at a concrete input: a login with an email that no user has and a login of user 7
with a wrong password are both answered 401 'invalid credentials'. -/
theorem C25_unknown_email_and_wrong_password_alike_witness :
    (Handler.Login (validateLogin hasAtSign) (validationErrorText "LoginRequest")
        (fun _ e p w1 => userService.Login compareStandIn signStandIn envNoon e p w1)
        publicRequest (.ok ("nobody@example.com", "Password123!")) ⟨dbWithUser, []⟩).1
      = .httpError 401 "invalid credentials" ∧
    (Handler.Login (validateLogin hasAtSign) (validationErrorText "LoginRequest")
        (fun _ e p w1 => userService.Login compareStandIn signStandIn envNoon e p w1)
        publicRequest (.ok ("test@example.com", "WrongPassword123!")) ⟨dbWithUser, []⟩).1
      = .httpError 401 "invalid credentials" ∧
    (Handler.Login (validateLogin hasAtSign) (validationErrorText "LoginRequest")
        (fun _ e p w1 => userService.Login compareStandIn signStandIn envNoon e p w1)
        publicRequest (.ok ("test@example.com", "Password123!")) ⟨dbWithUser, []⟩).1
      = .jsonToken 200 "token-of-7" :=
  have h := (C25_unknown_email_and_wrong_password_alike compareStandIn signStandIn
    (validateLogin hasAtSign) (validationErrorText "LoginRequest") publicRequest
    "nobody@example.com" "Password123!" (by decide)).1 envNoon envNoon ⟨dbWithUser, []⟩
    ⟨dbWithUser, []⟩ "test@example.com" "WrongPassword123!" (by decide) rfl rfl
    (by decide) (by decide) (by decide)
  ⟨h.2.2.1, h.2.2.2, by decide⟩


/-! ## C26: the grant that the handler builds from a subscribe request -/

/-- C26: for a well-formed subscribe request, the `UserFeature` that the handler passes to
the service has the identifier of the caller, the identifier of the path, the status
active and the value of the request, 0 when the request has none; the answer of the
handler is its answer to the outcome of the service for that `UserFeature`; when the
service returns no error the answer is 201 with the `UserFeature` behind the pointer, which
carries the same four fields whenever the service leaves them as they are, as
`featureService.SubscribeToFeature` does. -/
theorem C26_request_becomes_the_grant (uuidParse : String → Option UUID)
    (validate : String → Option String) (c : EchoContext) (userID featureID : UUID)
    (period : String) (value : Option Int) (w : World)
    (hreq : wellFormed uuidParse validate c userID featureID period) :
    ((grantOfRequest userID featureID value).UserID = userID ∧
      (grantOfRequest userID featureID value).FeatureID = featureID ∧
      (grantOfRequest userID featureID value).Status = "active" ∧
      (grantOfRequest userID featureID value).Value = value.getD 0 ∧
      (grantOfRequest userID featureID none).Value = 0) ∧
    (∀ featureSvc,
      Handler.SubscribeToFeature uuidParse validate featureSvc c (.ok (period, value)) w
        = subscribeAnswer
            (featureSvc c.requestContext (grantOfRequest userID featureID value) period w)) ∧
    (∀ featureSvc body w1,
      featureSvc c.requestContext (grantOfRequest userID featureID value) period w
        = (none, body, w1) →
      Handler.SubscribeToFeature uuidParse validate featureSvc c (.ok (period, value)) w
        = (.jsonUserFeature 201 body, w1)) ∧
    (∀ (AddDate : Time → Int → Int → Int → Time) (S : Schema) (env : Env),
      (featureService.SubscribeToFeature AddDate S env
        (grantOfRequest userID featureID value) period w).1 = none →
      ∃ body w1,
        Handler.SubscribeToFeature uuidParse validate
            (fun _ f p w0 => featureService.SubscribeToFeature AddDate S env f p w0)
            c (.ok (period, value)) w
          = (.jsonUserFeature 201 body, w1) ∧
        body.UserID = userID ∧ body.FeatureID = featureID ∧ body.Value = value.getD 0 ∧
        body.Status = "active") := by
  have hanswer := fun featureSvc =>
    Handler.SubscribeToFeature_of_wellFormed uuidParse validate featureSvc c userID featureID
      period value w hreq
  refine ⟨⟨rfl, rfl, rfl, rfl, rfl⟩, hanswer, ?_, ?_⟩
  · intro featureSvc body w1 hsvc
    rw [hanswer featureSvc, hsvc]
    rfl
  · intro AddDate S env hok
    have hs := SubscribeToFeature_of_success AddDate S env
      (grantOfRequest userID featureID value) period w hok
    refine ⟨grantToStore AddDate env (grantOfRequest userID featureID value) period,
      (featureService.SubscribeToFeature AddDate S env
        (grantOfRequest userID featureID value) period w).2.2, ?_, rfl, rfl, rfl, rfl⟩
    rw [hanswer _, hs]
    rfl

/-- C26 at a concrete input: actor 7 subscribes to the feature 2 with the value 5. -/
theorem C26_request_becomes_the_grant_witness :
    ∃ body w1,
      Handler.SubscribeToFeature parseFeatureIDs (validatePeriod tagText)
          (fun _ f p w0 =>
            featureService.SubscribeToFeature (Time.AddDateIn Location.UTC) specSchema envNoon f p w0)
          requestSevenFeatureTwo (.ok ("1_month", some 5)) ⟨dbWithCatalog, []⟩
        = (.jsonUserFeature 201 body, w1) ∧
      body.UserID = 7 ∧ body.FeatureID = 2 ∧ body.Value = 5 ∧ body.Status = "active" :=
  (C26_request_becomes_the_grant parseFeatureIDs (validatePeriod tagText)
      requestSevenFeatureTwo 7 2 "1_month" (some 5) ⟨dbWithCatalog, []⟩
      ⟨"7", rfl, by decide, by decide, by decide, by decide⟩).2.2.2
    (Time.AddDateIn Location.UTC) specSchema envNoon (by decide)

/-! ## C27: `HasFeature` and `GetActiveFeatures` -/

/-- C27 (fails on the code): for the context that `SetActiveFeatures` builds from a list
with a feature named daily_responses, `GetActiveFeatures` returns the list and true, and
`HasFeature` is false for daily_responses; for a context that has such a list under the
string key "active_features", `HasFeature` is true and `GetActiveFeatures` returns
false. -/
theorem C27_has_feature_reads_another_key :
    ctxUnlimited = SetActiveFeatures [] [dailyResponsesGrant] ∧
    GetActiveFeatures ctxUnlimited = ([dailyResponsesGrant], true) ∧
    dailyResponsesGrant.FeatureName = "daily_responses" ∧
    HasFeature ctxUnlimited "daily_responses" = false ∧
    HasFeature (Context.WithValue [] (.str "active_features")
      (.features [dailyResponsesGrant])) "daily_responses" = true ∧
    GetActiveFeatures (Context.WithValue [] (.str "active_features")
      (.features [dailyResponsesGrant])) = ([], false) := by
  refine ⟨rfl, by decide, by decide, by decide, by decide, by decide⟩

/-! ## C28: a period that is not in the map -/

theorem months_of_other_period (period : String)
    (hperiod : period ∉ ["1_month", "3_months", "6_months", "12_months"]) :
    months period = 0 := by
  simp only [List.mem_cons, List.mem_singleton, List.not_mem_nil, or_false, not_or] at hperiod
  obtain ⟨h1, h3, h6, h12⟩ := hperiod
  simp [months, h1, h3, h6, h12]

/-- In a location, `AddDate(0, 0, 0)` moves a time by the difference between the offset of
the zone in force at it and the offset of the zone that `time.Date` finds for its wall
clock. -/
theorem Time.AddDateIn_zero (loc : Location) (t : Time) :
    Time.AddDateIn loc t 0 0 0
      = t + (loc.offsetAt t - loc.offsetOfWall (t.wall loc)) * 1000000000 := by
  rw [Time.AddDateIn_eq, Time.AddDate_zero]
  unfold Time.wall
  generalize loc.offsetOfWall (t + loc.offsetAt t * 1000000000) = ow
  generalize loc.offsetAt t = oa
  show @Eq Int _ _
  omega

/-- C28 (fails on the code): actor 7 subscribes to the feature 2 for the period 2_months
at 00:30 UTC on 2024-10-27 in `berlin2024`, where the wall clock shows 02:30 of summer
time and the hour from 02:00 to 03:00 comes a second time. The call succeeds, and the
stored grant has `EndDate` 01:30 UTC, an hour after its `StartDate`: `time.Date` finds the
zone of winter time for 02:30. The grant is currently valid at 01:00 UTC of that day, and
the query of `GetUserFeatures` selects it then. -/
theorem C28_end_date_an_hour_after_start :
    months "2_months" = 0 ∧
    (featureService.SubscribeToFeature (Time.AddDateIn berlin2024) specSchema envOctober27
        grantRequest "2_months" ⟨dbWithCatalog, []⟩).1 = none ∧
    (featureService.SubscribeToFeature (Time.AddDateIn berlin2024) specSchema envOctober27
        grantRequest "2_months" ⟨dbWithCatalog, []⟩).2.2.db.user_features
      = [userFeatureRow envOctober27
          { grantRequest with StartDate := time.Date 2024 10 27 0 30 0 0,
                              EndDate := some (time.Date 2024 10 27 1 30 0 0) }] ∧
    time.Date 2024 10 27 1 30 0 0 ≠ time.Date 2024 10 27 0 30 0 0 ∧
    currentlyValid (time.Date 2024 10 27 1 0 0 0)
      (userFeatureRow envOctober27
        { grantRequest with StartDate := time.Date 2024 10 27 0 30 0 0,
                            EndDate := some (time.Date 2024 10 27 1 30 0 0) }) ∧
    grantSelected 7 (time.Date 2024 10 27 1 0 0 0)
      (userFeatureRow envOctober27
        { grantRequest with StartDate := time.Date 2024 10 27 0 30 0 0,
                            EndDate := some (time.Date 2024 10 27 1 30 0 0) }) = true := by
  refine ⟨by decide, by decide, by decide, by decide, by decide, by decide⟩

/-- C28 as the code has it: for a period that is none of 1_month, 3_months, 6_months and
12_months (the empty one included) and a feature that the lookup finds, in every location:
the month offset is 0, the grant that `SubscribeToFeature` passes to the store and hands
back has `StartDate` equal to `time.Now()` and `EndDate` equal to `AddDate(0, 0, 0)` of
it, which differs from it by the difference of two zone offsets; the call does not fail on
the period, it succeeds and stores the row whenever the store accepts the transaction.
Whenever the zone that `time.Date` finds for the wall clock of `time.Now()` is the one in
force at `time.Now()`, and so in every location at a fixed offset from UTC, `EndDate`
equals `StartDate`, the row is currently valid at no instant and the query of
`GetUserFeatures` selects it at no time. -/
theorem C28_unknown_period_gives_an_empty_grant (loc : Location) (S : Schema) (env : Env)
    (feature : UserFeature) (period : String) (w : World)
    (hperiod : period ∉ ["1_month", "3_months", "6_months", "12_months"])
    (hfound : featureFound env w.db feature.FeatureID = true) :
    let res := featureService.SubscribeToFeature (Time.AddDateIn loc) S env feature period w
    let grant := grantToStore (Time.AddDateIn loc) env feature period
    months period = 0 ∧
    res.2.1 = grant ∧
    grant.StartDate = env.now ∧
    grant.EndDate = some (Time.AddDateIn loc env.now 0 0 0) ∧
    grant.EndDate = some (env.now
      + (loc.offsetAt env.now - loc.offsetOfWall (env.now.wall loc)) * 1000000000) ∧
    (env.faults.beginTx = none →
      grantInsertOutcome (Time.AddDateIn loc) S env w.db feature period = none →
      env.faults.commit = none →
      res.1 = none ∧
      res.2.2.db.user_features = w.db.user_features ++ [userFeatureRow env grant]) ∧
    (loc.offsetOfWall (env.now.wall loc) = loc.offsetAt env.now →
      grant.EndDate = some grant.StartDate ∧
      (userFeatureRow env grant).EndDate = some (userFeatureRow env grant).StartDate ∧
      (∀ t, ¬ currentlyValid t (userFeatureRow env grant)) ∧
      (∀ userID t, grantSelected userID t (userFeatureRow env grant) = false)) ∧
    (∀ offset, loc = Location.FixedZone offset →
      loc.offsetOfWall (env.now.wall loc) = loc.offsetAt env.now) := by
  intro res grant
  have hm := months_of_other_period period hperiod
  have hend0 : grant.EndDate = some (Time.AddDateIn loc env.now 0 0 0) := by
    show some (Time.AddDateIn loc env.now 0 (months period) 0) = _
    rw [hm]
  have hend1 : grant.EndDate = some (env.now
      + (loc.offsetAt env.now - loc.offsetOfWall (env.now.wall loc)) * 1000000000) := by
    rw [hend0, Time.AddDateIn_zero]
  refine ⟨hm, ?_, rfl, hend0, hend1, ?_, ?_, ?_⟩
  · rcases SubscribeToFeature_cases (Time.AddDateIn loc) S env feature period w with
      ⟨hn, _⟩ | ⟨_, e, _, h⟩ | ⟨_, _, e, _, h⟩ | ⟨_, _, _, e, _, h⟩ | ⟨_, _, _, _, h⟩
    · rw [hfound] at hn; cases hn
    all_goals (show res.2.1 = grant; rw [show res = _ from h])
  · intro hbegin hinsert hcommit
    rcases SubscribeToFeature_cases (Time.AddDateIn loc) S env feature period w with
      ⟨hn, _⟩ | ⟨_, e, he, _⟩ | ⟨_, _, e, he, _⟩ | ⟨_, _, _, e, he, _⟩ | ⟨_, _, _, _, h⟩
    · rw [hfound] at hn; cases hn
    · rw [hbegin] at he; cases he
    · rw [hinsert] at he; cases he
    · rw [hcommit] at he; cases he
    · have hres : res = _ := h
      rw [hres]
      exact ⟨rfl, rfl⟩
  · intro hsame
    have hend : grant.EndDate = some env.now := by
      rw [hend1, hsame]
      congr 1
      show @Eq Int _ _
      omega
    have hrow : (userFeatureRow env grant).EndDate = some env.now := hend
    have hnever : ∀ t, ¬ currentlyValid t (userFeatureRow env grant) := by
      intro t hv
      have h1 : env.now ≤ t := hv.2.1
      have h2 : t < env.now := hv.2.2 _ hrow
      exact absurd (lt_of_le_of_lt h1 h2) (lt_irrefl _)
    refine ⟨hend, hrow, hnever, ?_⟩
    intro userID t
    cases hsel : grantSelected userID t (userFeatureRow env grant)
    · rfl
    · exact absurd ((grantSelected_iff userID t _).1 hsel).2 (hnever t)
  · intro offset hloc
    rw [hloc, Location.offsetAt_FixedZone, Location.offsetOfWall_FixedZone]

/-- C28 at a concrete input: actor 7 subscribes to the feature 2 for the period 2_months
at `noon` in UTC. -/
theorem C28_unknown_period_gives_an_empty_grant_witness :
    (featureService.SubscribeToFeature (Time.AddDateIn Location.UTC) specSchema envNoon
        grantRequest "2_months" ⟨dbWithCatalog, []⟩).1 = none ∧
    (grantToStore (Time.AddDateIn Location.UTC) envNoon grantRequest "2_months").EndDate
      = some noon ∧
    (∀ t, ¬ currentlyValid t (userFeatureRow envNoon
      (grantToStore (Time.AddDateIn Location.UTC) envNoon grantRequest "2_months"))) :=
  have h := C28_unknown_period_gives_an_empty_grant Location.UTC specSchema envNoon
    grantRequest "2_months" ⟨dbWithCatalog, []⟩ (by decide) (by decide)
  have hsame := h.2.2.2.2.2.2.2 0 rfl
  ⟨(h.2.2.2.2.2.1 rfl (by decide) rfl).1, (h.2.2.2.2.2.2.1 hsame).1,
    (h.2.2.2.2.2.2.1 hsame).2.2.1⟩

/-! ## C30: the candidates of `seedResponses` -/

theorem mem_of_mem_swapElements (a : List UUID) (i j : Nat) (hi : i < a.length)
    (hj : j < a.length) (x : UUID) (hx : x ∈ swapElements a i j) : x ∈ a := by
  unfold swapElements at hx
  have hgi : a.getD i 0 ∈ a := by
    rw [List.getD_eq_getElem _ _ hi]
    exact List.getElem_mem hi
  have hgj : a.getD j 0 ∈ a := by
    rw [List.getD_eq_getElem _ _ hj]
    exact List.getElem_mem hj
  rcases List.mem_or_eq_of_mem_set hx with h | h
  · rcases List.mem_or_eq_of_mem_set h with h | h
    · exact h
    · rw [h]; exact hgj
  · rw [h]; exact hgi

theorem length_swapElements (a : List UUID) (i j : Nat) :
    (swapElements a i j).length = a.length := by
  simp [swapElements]

theorem mem_of_mem_randShuffle (pick : Nat → Nat) (k : Nat) (a : List UUID)
    (hk : k < a.length) (x : UUID) (hx : x ∈ randShuffle pick swapElements k a) : x ∈ a := by
  induction k generalizing a with
  | zero => exact hx
  | succ i ih =>
    have hj : pick (i + 1) % (i + 2) < a.length :=
      lt_of_lt_of_le (Nat.mod_lt _ (Nat.succ_pos _)) hk
    have hx2 := ih (swapElements a (i + 1) (pick (i + 1) % (i + 2)))
      (by rw [length_swapElements]; exact Nat.lt_of_succ_lt hk) hx
    exact mem_of_mem_swapElements a (i + 1) _ hk hj x hx2

/-- For two or more distinct users and every shuffle, the first iteration of the loop of
`seedResponses` leaves the array of `users` without its first user. -/
theorem seedLoop_first_iteration_drops_sender (pick : Nat → Nat → Nat)
    (execFails : UUID → UUID → Option LibError) (u v : UUID) (rest : List UUID)
    (hnodup : (u :: v :: rest).Nodup) :
    u ∉ (seedLoop pick execFails 0 1 ⟨u :: v :: rest, [], [], []⟩).2.users := by
  have hu : u ∉ v :: rest := (List.nodup_cons.1 hnodup).1
  have harray : ∀ x ∈ appendInPlace (u :: v :: rest) 0 ((u :: v :: rest).drop 1), x ∈ v :: rest := by
    intro x hx
    simp only [appendInPlace, List.take_zero, List.nil_append, List.drop_succ_cons,
      List.drop_zero, List.mem_append, zero_add] at hx
    rcases hx with hx | hx
    · exact hx
    · exact List.mem_of_mem_drop hx
  have hlen : (appendInPlace (u :: v :: rest) 0 ((u :: v :: rest).drop 1)).length
      = rest.length + 2 := by
    simp [appendInPlace]
  have hshuffle : ∀ x ∈ randShuffle (pick 0) swapElements
      (0 + ((u :: v :: rest).drop (0 + 1)).length - 1)
      (appendInPlace (u :: v :: rest) 0 ((u :: v :: rest).drop (0 + 1))), x ∈ v :: rest := by
    intro x hx
    refine harray x (mem_of_mem_randShuffle (pick 0) _ _ ?_ x hx)
    rw [hlen]
    simp
  intro hmem
  apply hu
  apply hshuffle u
  simp only [seedLoop] at hmem
  split at hmem
  · exact hmem
  · exact hmem

/-- C30 (fails on the code): `seedResponses` for the users 1, 2 and 3, with a shuffle that
leaves every element in its place and no statement failing. Building the candidates of the
first iteration writes into the array of `users`, which holds 2, 3, 3 afterwards; the
senders of the three iterations are 1, 3 and 3, so user 2 is never a sender and user 3 is
one twice, and the candidates of the second and third iteration are 2 and 3, which have
the sender 3 among them and not user 1. With the shuffle that swaps every element with the
first, the candidates of the sender 2 are 3 and 3. -/
theorem C30_candidates_overwrite_users :
    (seedResponsesLoop pickSame execSucceeds [1, 2, 3]).1 = none ∧
    (seedResponsesLoop pickSame execSucceeds [1, 2, 3]).2.iterations
      = [⟨1, [2, 3], [2, 3]⟩, ⟨3, [2, 3], [2, 3]⟩, ⟨3, [2, 3], []⟩] ∧
    (seedResponsesLoop pickSame execSucceeds [1, 2, 3]).2.users = [2, 3, 3] ∧
    (seedLoop pickSame execSucceeds 0 1 ⟨[1, 2, 3], [], [], []⟩).2.users = [2, 3, 3] ∧
    (seedResponsesLoop pickSame execSucceeds [1, 2, 3]).2.rows = [(1, 2), (1, 3), (3, 2)] ∧
    (seedResponsesLoop pickFirst execSucceeds [1, 2, 3]).2.iterations
      = [⟨1, [3, 2], [3, 2]⟩, ⟨2, [3, 3], [3]⟩, ⟨3, [3, 3], [3]⟩] := by
  refine ⟨by decide, by decide, by decide, by decide, by decide, by decide⟩

end DatingApp
